import Mathlib

/-!
# Primary/replica routing database client (`utils/sql`)

A shallow embedding of `utils/sql/config.go` and `utils/sql/db.go`.

* `Config` / `defaultConfig` follow `config.go`. Go's `int` and `time.Duration`
  are modelled by `Int`; `defaultConfig` only compares and assigns these
  fields, so no arithmetic can overflow.
* `DB` follows the struct of `db.go`. Methods with a pointer receiver become
  functions that take the client and the history of observable effects and
  return the result together with the client and the history afterwards.
  `none` stands for a Go runtime panic (method call on a nil interface, index
  out of range).
* The wrappers behind `master` and `replicas` (`sdksqlx.DBer`) are external:
  their answers are given by an environment `Env`, which may depend on the
  whole history of effects so far.
-/

namespace Sql

/-! ## config.go -/

/-- The value of `time.Minute` in nanoseconds (`time.Duration` counts nanoseconds). -/
def Minute : Int := 60 * 1000000000

/-- Database connection configuration (`type Config struct`). -/
structure Config where
  ConnMaxLifetime : Int
  ConnMaxIdleTime : Int
  DriverName : String
  MaxIdleConns : Int
  MaxOpenConns : Int
  Name : String
  SchemaSearchPath : String
  SchemaMigrationsTable : String
  URI : String
  ReplicaURIs : List String
  deriving DecidableEq, Repr

/-- The function `defaultConfig` of `config.go`: the seven assignments are
performed in source order, each one on the configuration left by the previous
ones. -/
def defaultConfig (c : Config) : Config :=
  let c := if c.ConnMaxIdleTime = 0 then { c with ConnMaxIdleTime := 5 * Minute } else c
  let c := if c.ConnMaxLifetime = 0 then { c with ConnMaxLifetime := 5 * Minute } else c
  let c := if c.MaxIdleConns = 0 then { c with MaxIdleConns := 16 } else c
  let c := if c.MaxOpenConns = 0 then { c with MaxOpenConns := 16 } else c
  let c := if c.MaxIdleConns > c.MaxOpenConns then { c with MaxIdleConns := c.MaxOpenConns } else c
  let c := if c.SchemaSearchPath = "" then { c with SchemaSearchPath := "public" } else c
  let c := if c.SchemaMigrationsTable = "" then
    { c with SchemaMigrationsTable := "schema_migrations" } else c
  c

/-! ## db.go: data model -/

/-- The methods of the wrapper interface `sdksqlx.DBer` that the routing
client forwards queries, statements and transactions to. -/
inductive Method
  | Beginx | BeginTxx
  | Exec | ExecContext | NamedExec | NamedExecContext
  | Preparex | PreparexContext | PrepareNamed | PrepareNamedContext
  | Get | GetContext | Select | SelectContext
  | NamedQuery | NamedQueryContext
  | Queryx | QueryxContext | QueryRowx | QueryRowxContext
  deriving DecidableEq, Repr

/-- An observable effect of the routing client: a method call on a wrapper
(`W` identifies wrappers, `A` is the bundle of call arguments), a `Close()`
call on a wrapper, or a warning sent to the logger. -/
inductive Event (W A : Type)
  | call (w : W) (m : Method) (a : A)
  | close (w : W)
  | warn (msg : String)
  deriving DecidableEq, Repr

/-- The effects performed so far, oldest first. -/
abbrev Trace (W A : Type) := List (Event W A)

/-- The behaviour of the wrappers. `call w m a t` is what method `m` of
wrapper `w` returns (its result together with its error, type `R`) when called
with arguments `a` after the effects `t`; `close w t` is the error returned by
`w.Close()` after the effects `t`, `none` being Go's `nil`. -/
structure Env (W A R E : Type) where
  call : W → Method → A → Trace W A → R
  close : W → Trace W A → Option E

/-- The routing client (`type DB struct`). `master` is `none` while the field
holds the nil interface (before a successful `Connect`/`Open`). The `logger`
field, a non-nil logger, is represented by the `Event.warn` effects it
receives; `currReplicaIdx` is a `uint64`. -/
structure DB (W : Type) where
  master : Option W
  replicas : List W
  config : Config
  currReplicaIdx : Nat
  deriving DecidableEq, Repr

/-- The result of a method of the client: `none` for a runtime panic,
otherwise the returned value, the client and the effects afterwards. -/
abbrev Outcome (W A X : Type) := Option (X × DB W × Trace W A)

/-- The constructor `NewDB`: no master, no replicas, counter 0 and the
configuration passed through `defaultConfig`. -/
def NewDB {W : Type} (c : Config) : DB W :=
  { master := none, replicas := [], config := defaultConfig c, currReplicaIdx := 0 }

/-- A method call `w.m(a)` on an interface value `w`: a panic when `w` is nil,
otherwise the answer of the environment, recorded in the trace. -/
def invoke {W A R E : Type} (env : Env W A R E) (w : Option W) (m : Method) (a : A)
    (t : Trace W A) : Option (R × Trace W A) :=
  match w with
  | none => none
  | some w => some (env.call w m a t, t ++ [Event.call w m a])

/-- The call `w.Close()` on an interface value `w`. -/
def invokeClose {W A R E : Type} (env : Env W A R E) (w : Option W)
    (t : Trace W A) : Option (Option E × Trace W A) :=
  match w with
  | none => none
  | some w => some (env.close w t, t ++ [Event.close w])

/-! ## db.go: replica selection -/

/-- The text of the warning logged by `Replica` on fallback. -/
def fallbackWarning : String :=
  "fallback to master database due to the empty replica database list"

/-- The value of `atomic.AddUint64(&x, 1)`: the incremented counter, wrapping
at `2^64`. -/
def addUint64One (x : Nat) : Nat := (x + 1) % 2 ^ 64

/-- The method `replica`: the index of the replica to use and the client with
the advanced counter. With at most one replica the index is 0 and the counter
is not touched. Otherwise the counter is incremented atomically and the index
is `1 + next % uint64(len(db.replicas)-1)`; the sum is at most
`len(db.replicas) - 1`, an `int`, so neither it nor the conversion to `int`
can overflow. -/
def DB.replica {W : Type} (db : DB W) : Nat × DB W :=
  if db.replicas.length ≤ 1 then (0, db)
  else
    let next := addUint64One db.currReplicaIdx
    (1 + next % (db.replicas.length - 1), { db with currReplicaIdx := next })

/-- The method `Replica`: the master interface value (with a warning) when the
replica list is empty, otherwise `db.replicas[db.replica()]`; an index out of
range panics. -/
def DB.Replica {W A : Type} (db : DB W) (t : Trace W A) : Outcome W A (Option W) :=
  if db.replicas.length < 1 then
    some (db.master, db, t ++ [Event.warn fallbackWarning])
  else
    let sel := db.replica
    match db.replicas[sel.1]? with
    | none => none
    | some r => some (some r, sel.2, t)

/-- The first `n` of a series of successive `Replica()` calls: the wrappers
returned, in call order, and the client and effects after the last call. -/
def DB.ReplicaTimes {W A : Type} : Nat → DB W → Trace W A → Outcome W A (List (Option W))
  | 0, db, t => some ([], db, t)
  | n + 1, db, t =>
    match db.Replica t with
    | none => none
    | some (w, db1, t1) =>
      match DB.ReplicaTimes n db1 t1 with
      | none => none
      | some (ws, db2, t2) => some (w :: ws, db2, t2)

/-! ## db.go: operations on master -/

/-- The common shape `return db.master.m(...)` of the operations on master. -/
def DB.onMaster {W A R E : Type} (env : Env W A R E) (m : Method) (db : DB W) (a : A)
    (t : Trace W A) : Outcome W A R :=
  match invoke env db.master m a t with
  | none => none
  | some (r, t1) => some (r, db, t1)

/-- Method `Begin`: `return db.master.Beginx()`. -/
def DB.Begin {W A R E : Type} (env : Env W A R E) := DB.onMaster env Method.Beginx

/-- Method `BeginContext`: `return db.master.BeginTxx(ctx, opts)`. -/
def DB.BeginContext {W A R E : Type} (env : Env W A R E) := DB.onMaster env Method.BeginTxx

/-- Method `Exec`: `return db.master.Exec(query, args...)`. -/
def DB.Exec {W A R E : Type} (env : Env W A R E) := DB.onMaster env Method.Exec

/-- Method `ExecContext`: `return db.master.ExecContext(ctx, query, args...)`. -/
def DB.ExecContext {W A R E : Type} (env : Env W A R E) := DB.onMaster env Method.ExecContext

/-- Method `NamedExec`: `return db.master.NamedExec(query, arg)`. -/
def DB.NamedExec {W A R E : Type} (env : Env W A R E) := DB.onMaster env Method.NamedExec

/-- Method `NamedExecContext`: `return db.master.NamedExecContext(ctx, query, arg)`. -/
def DB.NamedExecContext {W A R E : Type} (env : Env W A R E) :=
  DB.onMaster env Method.NamedExecContext

/-- Method `Prepare`: `return db.master.Preparex(query)`. -/
def DB.Prepare {W A R E : Type} (env : Env W A R E) := DB.onMaster env Method.Preparex

/-- Method `PrepareContext`: `return db.master.PreparexContext(ctx, query)`. -/
def DB.PrepareContext {W A R E : Type} (env : Env W A R E) :=
  DB.onMaster env Method.PreparexContext

/-- Method `PrepareNamed`: `return db.master.PrepareNamed(query)`. -/
def DB.PrepareNamed {W A R E : Type} (env : Env W A R E) := DB.onMaster env Method.PrepareNamed

/-- Method `PrepareNamedContext`: `return db.master.PrepareNamedContext(ctx, query)`. -/
def DB.PrepareNamedContext {W A R E : Type} (env : Env W A R E) :=
  DB.onMaster env Method.PrepareNamedContext

/-! ## db.go: operations on a replica -/

/-- The common shape `return db.Replica().m(...)` of the read operations:
`Replica()` is evaluated first, then the method is called on what it
returned. -/
def DB.onReplica {W A R E : Type} (env : Env W A R E) (m : Method) (db : DB W) (a : A)
    (t : Trace W A) : Outcome W A R :=
  match db.Replica t with
  | none => none
  | some (w, db1, t1) =>
    match invoke env w m a t1 with
    | none => none
    | some (r, t2) => some (r, db1, t2)

/-- Method `Get`: `return db.Replica().Get(dest, query, args...)`. -/
def DB.Get {W A R E : Type} (env : Env W A R E) := DB.onReplica env Method.Get

/-- Method `GetContext`: `return db.Replica().GetContext(ctx, dest, query, args...)`. -/
def DB.GetContext {W A R E : Type} (env : Env W A R E) := DB.onReplica env Method.GetContext

/-- Method `NamedQuery`: `return db.Replica().NamedQuery(query, arg)`. -/
def DB.NamedQuery {W A R E : Type} (env : Env W A R E) := DB.onReplica env Method.NamedQuery

/-- Method `NamedQueryContext`: `return db.Replica().NamedQueryContext(ctx, query, arg)`. -/
def DB.NamedQueryContext {W A R E : Type} (env : Env W A R E) :=
  DB.onReplica env Method.NamedQueryContext

/-- Method `Query`: `return db.Replica().Queryx(query, args...)`. -/
def DB.Query {W A R E : Type} (env : Env W A R E) := DB.onReplica env Method.Queryx

/-- Method `QueryContext`: `return db.Replica().QueryxContext(ctx, query, args...)`. -/
def DB.QueryContext {W A R E : Type} (env : Env W A R E) :=
  DB.onReplica env Method.QueryxContext

/-- Method `QueryRow`: `return db.Replica().QueryRowx(query, args...)`. -/
def DB.QueryRow {W A R E : Type} (env : Env W A R E) := DB.onReplica env Method.QueryRowx

/-- Method `QueryRowContext`: `return db.Replica().QueryRowxContext(ctx, query, args...)`. -/
def DB.QueryRowContext {W A R E : Type} (env : Env W A R E) :=
  DB.onReplica env Method.QueryRowxContext

/-- Method `Select`: `return db.Replica().Select(dest, query, args...)`. -/
def DB.Select {W A R E : Type} (env : Env W A R E) := DB.onReplica env Method.Select

/-- Method `SelectContext`: `return db.Replica().SelectContext(ctx, dest, query, args...)`. -/
def DB.SelectContext {W A R E : Type} (env : Env W A R E) :=
  DB.onReplica env Method.SelectContext

/-! ## db.go: Close -/

/-- The loop `for i := range db.replicas` of `Close`: the replicas are closed
in list order and the first error is returned at once. -/
def closeReplicas {W A R E : Type} (env : Env W A R E) :
    List W → Trace W A → Option E × Trace W A
  | [], t => (none, t)
  | r :: rs, t =>
    match env.close r t with
    | some e => (some e, t ++ [Event.close r])
    | none => closeReplicas env rs (t ++ [Event.close r])

/-- The method `Close`: master is closed first; an error from it is returned
at once, otherwise the replica loop runs. -/
def DB.Close {W A R E : Type} (env : Env W A R E) (db : DB W) (t : Trace W A) :
    Outcome W A (Option E) :=
  match invokeClose env db.master t with
  | none => none
  | some (some e, t1) => some (some e, db, t1)
  | some (none, t1) =>
    let res := closeReplicas env db.replicas t1
    some (res.1, db, res.2)

/-! ## Go errors -/

/-- A Go `error` value. `external` is an error returned by a library outside
this repository, with its message; `new` is an error made in this repository
by `errors.New` or by `fmt.Errorf` without `%w`; `wrap` is one made by
`fmt.Errorf` with `%w` around `inner`. -/
inductive GoError
  | external (msg : String)
  | new (msg : String)
  | wrap (msg : String) (inner : GoError)
  deriving DecidableEq, Repr

/-- The method `Error()`: the message of an error. -/
def GoError.Error : GoError → String
  | GoError.external msg => msg
  | GoError.new msg => msg
  | GoError.wrap msg _ => msg

/-! ## db.go: Connect and Open -/

/-- The handle `*sqlx.DB` built by `newDBWithLogger`: `sqlx.NewDb` over
`sqldblogger.OpenDriver(uri, driver, ...)`, a pool whose connections are
opened by `driver` against the data source `uri`. `driver` is identified by
the name it is registered under. The four limits are the values passed to the
setters of the pool. -/
structure Wrapper where
  driverName : String
  uri : String
  driver : String
  connMaxIdleTime : Int
  connMaxLifetime : Int
  maxIdleConns : Int
  maxOpenConns : Int
  deriving DecidableEq, Repr

/-- An attempt made while connecting: `otelsql.Register`, `sqlx.Connect`
(open and ping), `sqlx.Open` (open only) and the `Ping()` of a wrapper built by
`newDBWithLogger`. -/
inductive ConnStep
  | register (driverName dbSystem : String)
  | sqlxConnect (driverName uri : String)
  | sqlxOpen (driverName uri : String)
  | ping (w : Wrapper)
  deriving DecidableEq, Repr

/-- The libraries and databases behind `Connect` and `Open`. Each answer may
depend on the attempts made so far. `otelRegister` returns the name of the
instrumented driver or the message of an error; `sqlxConnect`, `sqlxOpen` and
`ping` return the message of their error, `none` being success; `newDbNil`
tells whether `sqlx.NewDb` returned nil. -/
structure ConnEnv where
  otelRegister : String → String → List ConnStep → Except String String
  sqlxConnect : String → String → List ConnStep → Option String
  sqlxOpen : String → String → List ConnStep → Option String
  newDbNil : String → String → List ConnStep → Bool
  ping : Wrapper → List ConnStep → Option String

/-- The `switch db.Config().DriverName` of `Connect` and `Open`, with the
values of `semconv.DBSystemMySQL` and `semconv.DBSystemPostgreSQL`. -/
def dbSystemOf (driverName : String) : String :=
  if driverName = "mysql" then "mysql"
  else if driverName = "postgres" then "postgresql"
  else ""

/-- The function `newDBWithLogger`: it builds the handle over
`sqldblogger.OpenDriver(uri, driver, ...)`, applies the four limits of the
configuration and pings; a failed ping is reported with `uri`. -/
def newDBWithLogger (env : ConnEnv) (driverName uri : String) (config : Config)
    (driver : String) (t : List ConnStep) : Except GoError Wrapper × List ConnStep :=
  if env.newDbNil driverName uri t then
    (Except.error (GoError.new ("unable to create sqlx.DB with logger for '" ++ uri ++ "'")), t)
  else
    let dbWithLogger : Wrapper :=
      { driverName := driverName, uri := uri, driver := driver,
        connMaxIdleTime := config.ConnMaxIdleTime, connMaxLifetime := config.ConnMaxLifetime,
        maxIdleConns := config.MaxIdleConns, maxOpenConns := config.MaxOpenConns }
    match env.ping dbWithLogger t with
    | some msg =>
      (Except.error (GoError.new ("unable to ping '" ++ uri ++ "', error: " ++ msg)),
        t ++ [ConnStep.ping dbWithLogger])
    | none => (Except.ok dbWithLogger, t ++ [ConnStep.ping dbWithLogger])

/-- The loop `for _, replicaURI := range db.Config().ReplicaURIs` of `Connect`
and `Open`, over the replica URIs still to do. `dial` is `sqlx.Connect` or
`sqlx.Open` and `step` the attempt it records. The handle returned by `dial`
serves for its `DriverName()` (the name given to `dial`) and its `Driver()`;
`newDBWithLogger` is called with `db.Config().URI`. -/
def connectReplicas (env : ConnEnv) (dial : String → String → List ConnStep → Option String)
    (step : String → String → ConnStep) (driverName : String) :
    List String → DB Wrapper → List ConnStep → Option GoError × DB Wrapper × List ConnStep
  | [], db, t => (none, db, t)
  | replicaURI :: rest, db, t =>
    match dial driverName replicaURI t with
    | some msg =>
      (some (GoError.new ("unable to connect to '" ++ replicaURI ++ "', error: " ++ msg)), db,
        t ++ [step driverName replicaURI])
    | none =>
      match newDBWithLogger env driverName db.config.URI db.config driverName
          (t ++ [step driverName replicaURI]) with
      | (Except.error e, t1) => (some e, db, t1)
      | (Except.ok wrappedReplicaDB, t1) =>
        connectReplicas env dial step driverName rest
          { db with replicas := db.replicas ++ [wrappedReplicaDB] } t1

/-- The common body of `Connect` and `Open`, which differ in the function that
opens the handles (`sqlx.Connect` or `sqlx.Open`): register the driver, open
the master handle, wrap it and store it, then run the replica loop. -/
def DB.connectWith (env : ConnEnv) (dial : String → String → List ConnStep → Option String)
    (step : String → String → ConnStep) (db : DB Wrapper) (t : List ConnStep) :
    Option GoError × DB Wrapper × List ConnStep :=
  let reg := ConnStep.register db.config.DriverName (dbSystemOf db.config.DriverName)
  match env.otelRegister db.config.DriverName (dbSystemOf db.config.DriverName) t with
  | Except.error msg => (some (GoError.external msg), db, t ++ [reg])
  | Except.ok driverName =>
    match dial driverName db.config.URI (t ++ [reg]) with
    | some msg =>
      (some (GoError.new ("unable to connect to '" ++ db.config.URI ++ "', error: " ++ msg)), db,
        t ++ [reg, step driverName db.config.URI])
    | none =>
      match newDBWithLogger env driverName db.config.URI db.config driverName
          (t ++ [reg, step driverName db.config.URI]) with
      | (Except.error e, t1) => (some e, db, t1)
      | (Except.ok wrappedMasterDB, t1) =>
        connectReplicas env dial step driverName db.config.ReplicaURIs
          { db with master := some wrappedMasterDB } t1

/-- Method `Connect`: the handles are opened with `sqlx.Connect`. -/
def DB.Connect (env : ConnEnv) (db : DB Wrapper) (t : List ConnStep) :
    Option GoError × DB Wrapper × List ConnStep :=
  DB.connectWith env env.sqlxConnect ConnStep.sqlxConnect db t

/-- Method `Open`: the handles are opened with `sqlx.Open`. -/
def DB.Open (env : ConnEnv) (db : DB Wrapper) (t : List ConnStep) :
    Option GoError × DB Wrapper × List ConnStep :=
  DB.connectWith env env.sqlxOpen ConnStep.sqlxOpen db t

/-! ## Files, strings and numbers of the standard library -/

/-- A directory entry, with its `Name()` and `IsDir()`. -/
structure DirEntry where
  name : String
  isDir : Bool
  deriving DecidableEq, Repr

/-- A file system as read by `ReadDir` and `ReadFile` (`ioutil` or an
`embed.FS`); an error is given by its message. -/
structure FS where
  ReadDir : String → Except String (List DirEntry)
  ReadFile : String → Except String String

/-- The function `strings.HasSuffix`. -/
def HasSuffix (s suffix : String) : Bool := suffix.toList.isSuffixOf s.toList

/-- The pieces of a list of characters between the occurrences of `sep`. -/
def splitChars (sep : Char) : List Char → List (List Char)
  | [] => [[]]
  | c :: cs =>
    if c = sep then [] :: splitChars sep cs
    else
      match splitChars sep cs with
      | [] => [[c]]
      | piece :: pieces => (c :: piece) :: pieces

/-- The function `strings.Split` for a separator of one character, the only
use made of it in this repository. -/
def Split (s : String) (sep : Char) : List String := (splitChars sep s.toList).map String.mk

/-- The sign and the digits of a numeral: a leading `-` or `+` is taken off. -/
def signAndDigits : List Char → Bool × List Char
  | [] => (false, [])
  | c :: cs => if c = '-' then (true, cs) else if c = '+' then (false, cs) else (false, c :: cs)

/-- One or more ASCII digits and nothing else. -/
def isDigits (ds : List Char) : Bool := !ds.isEmpty && ds.all Char.isDigit

/-- The value of a run of ASCII digits in base 10. -/
def digitsValue (ds : List Char) : Nat := ds.foldl (fun acc c => 10 * acc + (c.toNat - 48)) 0

/-- The signed value written by a sign and digits. -/
def signedValue (sd : Bool × List Char) : Int :=
  if sd.1 then -(digitsValue sd.2 : Int) else (digitsValue sd.2 : Int)

/-- The function `strconv.Atoi` on a 64-bit platform: an optional sign and
one or more decimal digits, with a value that fits an `int`; otherwise an
error (the messages, which in Go also quote the input, are shortened). -/
def Atoi (s : String) : Except GoError Int :=
  let sd := signAndDigits s.toList
  if !isDigits sd.2 then Except.error (GoError.external "strconv.Atoi: invalid syntax")
  else if signedValue sd < -(2 : Int) ^ 63 ∨ (2 : Int) ^ 63 ≤ signedValue sd then
    Except.error (GoError.external "strconv.Atoi: value out of range")
  else Except.ok (signedValue sd)

/-- The conversion `int(v)` of a `uint` on a 64-bit platform. -/
def intOfUint (v : Nat) : Int :=
  if v % 2 ^ 64 < 2 ^ 63 then ((v % 2 ^ 64 : Nat) : Int) else ((v % 2 ^ 64 : Nat) : Int) - 2 ^ 64

/-- The order of `sort.Strings`: strings compare as their sequences of
characters (the order of the UTF-8 bytes is the order of the characters). -/
def strLE (a b : String) : Prop := a.toList ≤ b.toList

instance strLE.decidable : DecidableRel strLE :=
  fun a b => inferInstanceAs (Decidable (a.toList ≤ b.toList))

/-- The function `sort.Strings`: the strings in increasing order. -/
def sortStrings (files : List String) : List String := List.insertionSort strLE files

/-! ## migrate.go -/

/-- The fields of `migrateDriver` inside `Migrate`; the embedded
`*migrate.Migrate` of golang-migrate is external. -/
structure Migrate (W : Type) where
  migratePath : String
  seedPath : String
  db : DB W

/-- The constructor `NewMigrate`: the two paths are stored as given;
`migrateNew` gives the message of the error of golang-migrate's `migrate.New`
for the source URL and the database URI, `none` being success. -/
def NewMigrate {W : Type} (migrateNew : String → String → Option String) (db : DB W)
    (migrateDBPath seedDBPath : String) : Except GoError (Migrate W) :=
  match migrateNew ("file://" ++ migrateDBPath) db.config.URI with
  | some msg => Except.error (GoError.external msg)
  | none => Except.ok { migratePath := migrateDBPath, seedPath := seedDBPath, db := db }

/-- The loop `for _, entry := range files` of `MigrateStatus`, with the status
rows built so far. -/
def migrateStatusLoop (migratePath : String) (lastMigratedVersion : Nat) :
    List DirEntry → List (List String) → List (List String) × Option GoError
  | [], status => (status, none)
  | entry :: rest, status =>
    if !entry.isDir then
      let fn := entry.name
      let splits := Split fn '_'
      if HasSuffix fn ".up.sql" && splits.length > 1 then
        match Atoi (splits.headD "") with
        | Except.error err => ([], some err)
        | Except.ok version =>
          let state := if version ≤ intOfUint lastMigratedVersion then "yes" else "no"
          migrateStatusLoop migratePath lastMigratedVersion rest
            (status ++ [[migratePath ++ "/" ++ fn, state]])
      else migrateStatusLoop migratePath lastMigratedVersion rest status
    else migrateStatusLoop migratePath lastMigratedVersion rest status

/-- Method `MigrateStatus`. `lastMigratedVersion` is the version returned by
`m.Migrate.Version()`, whose error is ignored; the directory read is
`m.seedPath`. The nil slice is the empty list. -/
def Migrate.MigrateStatus {W : Type} (os : FS) (m : Migrate W) (lastMigratedVersion : Nat) :
    List (List String) × Option GoError :=
  match os.ReadDir m.seedPath with
  | Except.error msg => ([], some (GoError.external msg))
  | Except.ok files => migrateStatusLoop m.migratePath lastMigratedVersion files []

/-- The loop `for _, file := range files` of `SeedDB`: a file that cannot be
read ends the run with its error; the result and the error of `m.db.Exec` are
both discarded. `pathJoin` is `path.Join`. -/
def seedDBLoop {W R E : Type} (env : Env W String R E) (os : FS)
    (pathJoin : String → String → String) (seedPath : String) :
    List DirEntry → DB W → Trace W String → Outcome W String (Option GoError)
  | [], db, t => some (none, db, t)
  | file :: rest, db, t =>
    match os.ReadFile (pathJoin seedPath file.name) with
    | Except.error msg => some (some (GoError.external msg), db, t)
    | Except.ok content =>
      match DB.Exec env db content t with
      | none => none
      | some (_, db1, t1) => seedDBLoop env os pathJoin seedPath rest db1 t1

/-- Method `SeedDB`: it returns the error, the client after the run and the
effects on the wrappers. -/
def Migrate.SeedDB {W R E : Type} (env : Env W String R E) (os : FS)
    (pathJoin : String → String → String) (m : Migrate W) (t : Trace W String) :
    Outcome W String (Option GoError) :=
  match os.ReadDir m.seedPath with
  | Except.error msg => some (some (GoError.external msg), m.db, t)
  | Except.ok files => seedDBLoop env os pathJoin m.seedPath files m.db t

/-! ## seed.go -/

/-- The variable `DBSeedPath`. -/
def DBSeedPath : String := "db/seed"

/-- The variable `embedInit` of `config.go`. -/
def embedInit : String := "init.sql"

/-- The seeder (`type Seed struct`); its `db` handle is represented by the
answers to `Exec` given to `Run`. -/
structure Seed where
  config : Config
  embedFS : FS
  files : List String

/-- An `Exec` call made by `Run`: the statements sent and the file they were
read from. -/
structure ExecCall where
  file : String
  content : String
  deriving DecidableEq, Repr

/-- The loop `for _, entry := range entries` of `NewSeed`, with the files
collected so far. -/
def seedFiles (dir : String) : List DirEntry → List String → List String
  | [], files => files
  | entry :: rest, files =>
    if !entry.isDir && HasSuffix entry.name ".sql" && entry.name != embedInit then
      seedFiles dir rest (files ++ [dir ++ "/" ++ entry.name])
    else seedFiles dir rest files

/-- The constructor `NewSeed`. `sqlxOpen` gives the message of the error of
`sqlx.Open`, `none` being success. -/
def NewSeed (embedFS : FS) (sqlxOpen : String → String → Option String) (config : Config) :
    Except GoError Seed :=
  let dir := DBSeedPath ++ "/" ++ config.Name
  match embedFS.ReadDir dir with
  | Except.error msg => Except.error (GoError.external msg)
  | Except.ok entries =>
    let files := seedFiles dir entries []
    if files.length < 1 then Except.error (GoError.new "no seed files found")
    else
      match sqlxOpen config.DriverName config.URI with
      | some msg => Except.error (GoError.external msg)
      | none => Except.ok { config := config, embedFS := embedFS, files := sortStrings files }

/-- The loop `for _, file := range s.files` of `Run`. `exec` gives the message
of the error of `s.db.Exec` for the statements sent, after the calls made so
far. -/
def runFiles (fs : FS) (exec : String → List ExecCall → Option String) :
    List String → List ExecCall → Option GoError × List ExecCall
  | [], t => (none, t)
  | file :: rest, t =>
    match fs.ReadFile file with
    | Except.error msg => (some (GoError.external msg), t)
    | Except.ok b =>
      if b.length = 0 then runFiles fs exec rest t
      else
        match exec b t with
        | some msg =>
          (some (GoError.wrap ("unable to seed: '" ++ file ++ "'. error: " ++ msg)
            (GoError.external msg)), t ++ [ExecCall.mk file b])
        | none => runFiles fs exec rest (t ++ [ExecCall.mk file b])

/-- Method `Run`. -/
def Seed.Run (exec : String → List ExecCall → Option String) (s : Seed) (t : List ExecCall) :
    Option GoError × List ExecCall :=
  runFiles s.embedFS exec s.files t

/-! ## db.go: pool setters, Ping and successive selections -/

/-- The four setters of the pool of a wrapper. -/
inductive Setter
  | SetMaxIdleConns | SetMaxOpenConns | SetConnMaxLifetime | SetConnMaxIdleTime
  deriving DecidableEq, Repr

/-- A setter call on a wrapper, with its argument (an `int` or a
`time.Duration`). -/
structure SetCall (W : Type) where
  w : W
  setter : Setter
  value : Int
  deriving DecidableEq, Repr

/-- The loop `for i := range db.replicas` of a setter: the setter is called on
each replica in list order. -/
def setReplicas {W : Type} (s : Setter) (v : Int) : List W → List (SetCall W) → List (SetCall W)
  | [], t => t
  | r :: rs, t => setReplicas s v rs (t ++ [SetCall.mk r s v])

/-- The common body of the four setters: the setter is called on master (a
panic when master is nil), then on the replicas; the result is the client and
the setter calls made so far. -/
def DB.applySetter {W : Type} (s : Setter) (db : DB W) (v : Int) (t : List (SetCall W)) :
    Option (DB W × List (SetCall W)) :=
  match db.master with
  | none => none
  | some m => some (db, setReplicas s v db.replicas (t ++ [SetCall.mk m s v]))

/-- Method `SetMaxIdleConns`. -/
def DB.SetMaxIdleConns {W : Type} (db : DB W) (max : Int) (t : List (SetCall W)) :=
  DB.applySetter Setter.SetMaxIdleConns db max t

/-- Method `SetMaxOpenConns`. -/
def DB.SetMaxOpenConns {W : Type} (db : DB W) (n : Int) (t : List (SetCall W)) :=
  DB.applySetter Setter.SetMaxOpenConns db n t

/-- Method `SetConnMaxLifetime`. -/
def DB.SetConnMaxLifetime {W : Type} (db : DB W) (d : Int) (t : List (SetCall W)) :=
  DB.applySetter Setter.SetConnMaxLifetime db d t

/-- Method `SetConnMaxIdleTime`. -/
def DB.SetConnMaxIdleTime {W : Type} (db : DB W) (d : Int) (t : List (SetCall W)) :=
  DB.applySetter Setter.SetConnMaxIdleTime db d t

/-- The indices returned by the first `n` of a series of successive
`replica()` calls, and the client after the last one. -/
def DB.replicaIndices {W : Type} : Nat → DB W → List Nat × DB W
  | 0, db => ([], db)
  | n + 1, db =>
    let sel := db.replica
    let rest := DB.replicaIndices n sel.2
    (sel.1 :: rest.1, rest.2)

/-- The loop `for i := range db.replicas` of `Ping`, from index `i` on: a failed
ping is reported with `db.config.ReplicaURIs[i]`, a lookup that panics when
`i` is out of range. -/
def pingReplicas (env : ConnEnv) (replicaURIs : List String) :
    Nat → List Wrapper → List ConnStep → Option (Option GoError × List ConnStep)
  | _, [], t => some (none, t)
  | i, r :: rs, t =>
    match env.ping r t with
    | some msg =>
      match replicaURIs[i]? with
      | none => none
      | some uri =>
        some (some (GoError.new ("unable to ping '" ++ uri ++ "', error: " ++ msg)),
          t ++ [ConnStep.ping r])
    | none => pingReplicas env replicaURIs (i + 1) rs (t ++ [ConnStep.ping r])

/-- Method `Ping`: master is pinged first, then the replicas; `none` is a
panic (nil master, or index out of range). -/
def DB.Ping (env : ConnEnv) (db : DB Wrapper) (t : List ConnStep) :
    Option (Option GoError × List ConnStep) :=
  match db.master with
  | none => none
  | some m =>
    match env.ping m t with
    | some msg =>
      some (some (GoError.new ("unable to ping '" ++ db.config.URI ++ "', error: " ++ msg)),
        t ++ [ConnStep.ping m])
    | none => pingReplicas env db.config.ReplicaURIs 0 db.replicas (t ++ [ConnStep.ping m])

/-! ## sql.go: pagination -/

/-- A value stored in a request map (`interface{}`): nil, a string, a
`float64` (given by its conversion `int(f)`, the only use made of it here) or
a value of another type. A key that is absent reads as nil. -/
inductive Value
  | null
  | str (s : String)
  | float (asInt : Int)
  | other
  deriving DecidableEq, Repr

/-- The struct `PaginationRequest`; its field `Sort` is written `sort`, `Sort`
being a reserved word. -/
structure PaginationRequest where
  PerPage : Int
  CurrentPage : Int
  Search : String
  sort : String
  deriving DecidableEq, Repr

/-- The call `regexp.MatchString` with the pattern `^[a-zA-Z0-9_]+$`, which
compiles: one or more ASCII letters, digits or underscores and nothing else. -/
def matchIdent (s : String) : Bool :=
  !s.toList.isEmpty && s.toList.all (fun c => c.isAlphanum || c == '_')

/-- The `else` branch of `parsePaginationModel` for a `sort` string: the
variable `sort` stays empty unless one of the two forms is met. -/
def sortClause (s : String) : String :=
  let checkSort := Split s ','
  if checkSort.length = 2 ∧ (checkSort.getD 1 "" = "asc" ∨ checkSort.getD 1 "" = "desc") then
    if matchIdent (checkSort.getD 0 "") then checkSort.getD 0 "" ++ " " ++ checkSort.getD 1 ""
    else ""
  else if checkSort.length = 4 ∧ (checkSort.getD 1 "" = "asc" ∨ checkSort.getD 1 "" = "desc") ∧
      checkSort.getD 2 "" = "nulls" ∧ checkSort.getD 3 "" = "last" then
    if matchIdent (checkSort.getD 0 "") then
      checkSort.getD 0 "" ++ " " ++ checkSort.getD 1 "" ++ " " ++ checkSort.getD 2 "" ++ " " ++
        checkSort.getD 3 ""
    else ""
  else ""

/-- The function `parsePaginationModel`; `none` is the panic of a failed type
assertion (`.(float64)` or `.(string)`). -/
def parsePaginationModel (request : String → Value) : Option PaginationRequest :=
  match (match request "per_page" with
      | Value.null => some (5 : Int)
      | Value.float i => some i
      | _ => none) with
  | none => none
  | some perPage =>
    match (match request "page" with
        | Value.null => some (1 : Int)
        | Value.float i => some i
        | _ => none) with
    | none => none
    | some currentPage =>
      match (match request "search" with
          | Value.null => some ""
          | Value.str v => some v
          | _ => none) with
      | none => none
      | some search =>
        match (match request "sort" with
            | Value.null => some "id ASC"
            | Value.str v => some (sortClause v)
            | _ => none) with
        | none => none
        | some sort =>
          some { PerPage := perPage, CurrentPage := currentPage, Search := search, sort := sort }

/-- The value of an `int` expression after overflow on a 64-bit platform. -/
def wrapInt64 (x : Int) : Int := (x + 2 ^ 63) % 2 ^ 64 - 2 ^ 63

/-- The verb `%d` of `fmt.Sprintf`. -/
def fmtInt (i : Int) : String := toString i

/-- The string returned by `Paginate`. The fields it writes to `pagination`
and the URLs of `composePageUrl` do not enter that string and are left out. -/
def Paginate (request : String → Value) : Option String :=
  match parsePaginationModel request with
  | none => none
  | some requestData =>
    let page := if requestData.CurrentPage = 0 then 1 else requestData.CurrentPage
    let pageSize := requestData.PerPage
    let offset := wrapInt64 (wrapInt64 (page - 1) * pageSize)
    some ("ORDER BY " ++ requestData.sort ++ " OFFSET " ++ fmtInt offset ++ " LIMIT " ++
      fmtInt pageSize)

/-! ## repository/postgre/ecommerce.go and service/ecommerce.go -/

/-- An argument bound to a statement (`interface{}`): a string, an integer, a
`float64` (by its bits) or a `sql.NullString`. -/
inductive Arg
  | str (s : String)
  | int (i : Int)
  | float (bits : Nat)
  | nullString (s : String) (valid : Bool)
  deriving DecidableEq, Repr

/-- A statement as sent to a wrapper: the SQL text and the bound arguments. -/
structure Query where
  text : String
  args : List Arg
  deriving DecidableEq, Repr

/-- The struct `entity.Product`; a `float64` is given by its bits and a
`time.Time` by an integer. -/
structure Product where
  ID : Int
  UserID : Int
  Sku : String
  Title : String
  Description : String
  Category : String
  Etalase : String
  Weight : Nat
  Price : Int
  Rating : Nat
  CreatedAt : Int
  UpdatedAt : Int
  deriving DecidableEq, Repr

/-- The zero value `entity.Product{}`. -/
def Product.zero : Product :=
  { ID := 0, UserID := 0, Sku := "", Title := "", Description := "", Category := "",
    Etalase := "", Weight := 0, Price := 0, Rating := 0, CreatedAt := 0, UpdatedAt := 0 }

/-- The struct `entity.ProductImage`, with its `sql.NullString` as the string
and the flag `Valid`. -/
structure ProductImage where
  ID : Int
  ProductID : Int
  ImageUrl : String
  ShortDescription : String × Bool
  CreatedAt : Int
  UpdatedAt : Int
  deriving DecidableEq, Repr

/-- The struct `request.FilterProduct`; its field `Sort` is written `sort`. -/
structure FilterProduct where
  Search : String
  sort : String
  IsAsc : Bool
  deriving DecidableEq, Repr

/-- An element of `ProductImages` in `request.UpsertProduct`. -/
structure ImageInput where
  ImageUrl : String
  ShortDescription : String
  deriving DecidableEq, Repr

/-- The struct `request.UpsertProduct`. -/
structure UpsertProduct where
  UserID : Int
  Sku : String
  Title : String
  Description : String
  Category : String
  Etalase : String
  Weight : Nat
  Price : Int
  ProductImages : List ImageInput
  deriving DecidableEq, Repr

/-- What a wrapper scanned into the destination of a call. -/
inductive Scanned
  | nothing
  | int (i : Int)
  | product (p : Product)
  | products (ps : List Product)
  deriving DecidableEq, Repr

/-- The answer of a wrapper to a call: its error (`none` being nil) and what
it scanned into the destination. -/
structure Reply where
  err : Option GoError
  scanned : Scanned
  deriving DecidableEq, Repr

/-- The fixed text of the query of `GetProductList`, before the `ORDER BY`. -/
def selectProductsSQL : String :=
  "\n" ++
    "\t\tSELECT\n" ++
    "\t\t\t*\n" ++
    "\t\tFROM\n" ++
    "\t\t\tproducts\n" ++
    "\t\tWHERE \n" ++
    "\t\t\tsku ilike '%' || $1 || '%'\n" ++
    "\t\tOR \n" ++
    "\t\t\tcategory ilike '%' || $1 || '%'\n" ++
    "\t\tOR \n" ++
    "\t\t\tetalase ilike '%' || $1 || '%'\n" ++
    "\t\tOR \n" ++
    "\t\t\ttitle ilike '%' || $1 || '%'\n" ++
    "\t"

/-- The statement of `CreateProduct`. -/
def insertProductSQL : String :=
  "INSERT INTO \n" ++
    "\t\tproducts ( sku, title, description, category, etalase, weight, price, user_id) \n" ++
    "\t\tVALUES \n" ++
    "\t\t\t($1, $2, $3, $4, $5, $6, $7, $8)\n" ++
    "\t\tRETURNING id"

/-- The statement of the repository method `UpdateProduct`. -/
def updateProductSQL : String :=
  "UPDATE\n" ++
    "\t\tproducts\n" ++
    "\tSET\n" ++
    "\t\tsku=$1,\n" ++
    "\t\ttitle=$2,\n" ++
    "\t\tdescription=$3,\n" ++
    "\t\tcategory=$4,\n" ++
    "\t\tetalase=$5,\n" ++
    "\t\tweight=$6,\n" ++
    "\t\tprice=$7,\n" ++
    "\t\trating=$8\n" ++
    "\tWHERE\n" ++
    "\t\tid=$9"

/-- The query of `GetProductByID`. -/
def selectProductByIDSQL : String :=
  "\n" ++
    "\t\tSELECT\n" ++
    "\t\t\t*\n" ++
    "\t\tFROM\n" ++
    "\t\t\tproducts\n" ++
    "\t\tWHERE\n" ++
    "\t\t\tid = $1\n" ++
    "\t"

/-- The statement of `CreateProductImages`. -/
def insertImageSQL : String :=
  "INSERT INTO \n" ++
    "\t\t\tproduct_images ( product_id, image_url, short_description) \n" ++
    "\t\tVALUES \n" ++
    "\t\t\t($1, $2, $3)"

/-- The statement of `DeleteProductImagesByID`. -/
def deleteImagesSQL : String :=
  "\n" ++
    "\tDELETE FROM \n" ++
    "\t\tproduct_images\n" ++
    "\tWHERE\n" ++
    "\t\tproduct_id = $1"

/-- Method `GetProductList` of the repository: the text of the query is the
fixed text followed by `fmt.Sprintf(" ORDER BY %s %s", payload.Sort, sort)`;
`payload.Search` is the one bound argument. -/
def ecommerceRepo.GetProductList {W E : Type} (env : Env W Query Reply E) (db : DB W)
    (payload : FilterProduct) (t : Trace W Query) :
    Outcome W Query (List Product × Option GoError) :=
  let sort := if payload.IsAsc then "ASC" else "DESC"
  let selectQuery := selectProductsSQL ++ (" ORDER BY " ++ payload.sort ++ " " ++ sort)
  match DB.SelectContext env db (Query.mk selectQuery [Arg.str payload.Search]) t with
  | none => none
  | some (reply, db1, t1) =>
    match reply.err with
    | some err => some (([], some err), db1, t1)
    | none =>
      match reply.scanned with
      | Scanned.products ps => some ((ps, none), db1, t1)
      | _ => some (([], none), db1, t1)

/-- Method `CreateProduct` of the repository: the INSERT is sent with
`e.db.GetContext`, which scans the returned id. -/
def ecommerceRepo.CreateProduct {W E : Type} (env : Env W Query Reply E) (db : DB W)
    (payload : Product) (t : Trace W Query) : Outcome W Query (Int × Option GoError) :=
  match DB.GetContext env db (Query.mk insertProductSQL
      [Arg.str payload.Sku, Arg.str payload.Title, Arg.str payload.Description,
        Arg.str payload.Category, Arg.str payload.Etalase, Arg.float payload.Weight,
        Arg.int payload.Price, Arg.int payload.UserID]) t with
  | none => none
  | some (reply, db1, t1) =>
    match reply.err with
    | some err => some ((0, some err), db1, t1)
    | none =>
      match reply.scanned with
      | Scanned.int lastInsertId => some ((lastInsertId, none), db1, t1)
      | _ => some ((0, none), db1, t1)

/-- Method `UpdateProduct` of the repository. -/
def ecommerceRepo.UpdateProduct {W E : Type} (env : Env W Query Reply E) (db : DB W)
    (payload : Product) (t : Trace W Query) : Outcome W Query (Option GoError) :=
  match DB.ExecContext env db (Query.mk updateProductSQL
      [Arg.str payload.Sku, Arg.str payload.Title, Arg.str payload.Description,
        Arg.str payload.Category, Arg.str payload.Etalase, Arg.float payload.Weight,
        Arg.int payload.Price, Arg.float payload.Rating, Arg.int payload.ID]) t with
  | none => none
  | some (reply, db1, t1) => some (reply.err, db1, t1)

/-- Method `GetProductByID` of the repository. -/
def ecommerceRepo.GetProductByID {W E : Type} (env : Env W Query Reply E) (db : DB W)
    (id : Int) (t : Trace W Query) : Outcome W Query (Product × Option GoError) :=
  match DB.GetContext env db (Query.mk selectProductByIDSQL [Arg.int id]) t with
  | none => none
  | some (reply, db1, t1) =>
    match reply.err with
    | some err => some ((Product.zero, some err), db1, t1)
    | none =>
      match reply.scanned with
      | Scanned.product p => some ((p, none), db1, t1)
      | _ => some ((Product.zero, none), db1, t1)

/-- Method `CreateProductImages` of the repository. -/
def ecommerceRepo.CreateProductImages {W E : Type} (env : Env W Query Reply E) (db : DB W)
    (payload : ProductImage) (t : Trace W Query) : Outcome W Query (Option GoError) :=
  match DB.ExecContext env db (Query.mk insertImageSQL
      [Arg.int payload.ProductID, Arg.str payload.ImageUrl,
        Arg.nullString payload.ShortDescription.1 payload.ShortDescription.2]) t with
  | none => none
  | some (reply, db1, t1) => some (reply.err, db1, t1)

/-- Method `DeleteProductImagesByID` of the repository: the error of
`ExecContext` is assigned to `err`, and the method ends with `return nil`. -/
def ecommerceRepo.DeleteProductImagesByID {W E : Type} (env : Env W Query Reply E) (db : DB W)
    (productID : Int) (t : Trace W Query) : Outcome W Query (Option GoError) :=
  match DB.ExecContext env db (Query.mk deleteImagesSQL [Arg.int productID]) t with
  | none => none
  | some (_, db1, t1) => some (none, db1, t1)

/-- The loop `for _, v := range request.ProductImages` of the service method
`UpdateProduct`. -/
def createImagesLoop {W E : Type} (env : Env W Query Reply E) (id : Int) :
    List ImageInput → DB W → Trace W Query → Outcome W Query (Option GoError)
  | [], db, t => some (none, db, t)
  | v :: rest, db, t =>
    let productImage : ProductImage :=
      { ID := 0, ProductID := id, ImageUrl := v.ImageUrl,
        ShortDescription := if v.ShortDescription != "" then (v.ShortDescription, true)
          else ("", false),
        CreatedAt := 0, UpdatedAt := 0 }
    match ecommerceRepo.CreateProductImages env db productImage t with
    | none => none
    | some (some err, db1, t1) => some (some err, db1, t1)
    | some (none, db1, t1) => createImagesLoop env id rest db1 t1

/-- Method `UpdateProduct` of the service, over the repository above. -/
def ecommerceService.UpdateProduct {W E : Type} (env : Env W Query Reply E) (db : DB W)
    (id : Int) (request : UpsertProduct) (t : Trace W Query) :
    Outcome W Query (Option GoError) :=
  match ecommerceRepo.GetProductByID env db id t with
  | none => none
  | some ((_, some err), db1, t1) => some (some err, db1, t1)
  | some ((product, none), db1, t1) =>
    let productRequest : Product :=
      { ID := id, UserID := request.UserID, Sku := request.Sku, Title := request.Title,
        Category := request.Category, Description := request.Description,
        Etalase := request.Etalase, Price := request.Price, Weight := request.Weight,
        Rating := product.Rating, CreatedAt := 0, UpdatedAt := 0 }
    match ecommerceRepo.UpdateProduct env db1 productRequest t1 with
    | none => none
    | some (some err, db2, t2) => some (some err, db2, t2)
    | some (none, db2, t2) =>
      match ecommerceRepo.DeleteProductImagesByID env db2 id t2 with
      | none => none
      | some (some err, db3, t3) => some (some err, db3, t3)
      | some (none, db3, t3) => createImagesLoop env id request.ProductImages db3 t3

/-! ## Vocabulary of the statements -/

/-- The outcome of a client method that does nothing but call method `m` of
wrapper `w` once with arguments `a`, after the effects `t`, and returns what
the wrapper returned, the client being `db` afterwards. -/
def calledOnce {W A R E : Type} (env : Env W A R E) (w : W) (m : Method) (a : A)
    (db : DB W) (t : Trace W A) : Outcome W A R :=
  some (env.call w m a t, db, t ++ [Event.call w m a])

/-- The `Close()` effects on the wrappers `ws`, in list order. -/
def closes {W A : Type} (ws : List W) : Trace W A := ws.map Event.close

/-- The version segment of a file name: the text before its first `_`. -/
def versionSegment (fn : String) : String :=
  String.mk (fn.toList.takeWhile (fun c => c != '_'))

/-- A file name of the form `<version>_<name>.up.sql`, where `<version>` is
read by `strconv.Atoi` as the number `version`. -/
def NamedUpMigration (fn : String) (version : Int) : Prop :=
  ∃ ver name : String, fn = ver ++ "_" ++ name ++ ".up.sql" ∧ Atoi ver = Except.ok version

/-- A listed `.up.sql` file with a version segment: an entry that is not a
directory and whose name ends in `.up.sql` and contains a `_`. -/
def isUpFile (e : DirEntry) : Bool :=
  !e.isDir && HasSuffix e.name ".up.sql" && decide ('_' ∈ e.name.toList)

/-- A numeric text: an optional sign followed by one or more decimal digits. -/
def isNumeral (s : String) : Bool := isDigits (signAndDigits s.toList).2

/-- A plain decimal number: one or more decimal digits and nothing else. -/
def isPlainDecimal (s : String) : Bool := isDigits s.toList

/-- An eligible seed entry: not a directory, with a name that ends in `.sql`
and is not `init.sql`. -/
def isSeedEntry (e : DirEntry) : Bool :=
  !e.isDir && HasSuffix e.name ".sql" && e.name != embedInit

/-- The `Exec` calls for the files of a list that can be read and are not
empty, in list order. -/
def seedCalls (fs : FS) (files : List String) : List ExecCall :=
  files.filterMap fun file =>
    match fs.ReadFile file with
    | Except.ok b => if b.length = 0 then none else some (ExecCall.mk file b)
    | Except.error _ => none

/-- The data source dialled by an attempt: the URI given to `sqlx.Connect` or
`sqlx.Open`; a registration or a ping dials nothing. -/
def ConnStep.dialed : ConnStep → Option String
  | ConnStep.sqlxConnect _ uri => some uri
  | ConnStep.sqlxOpen _ uri => some uri
  | ConnStep.register _ _ => none
  | ConnStep.ping _ => none

/-- The URIs dialled by a list of attempts, in order. -/
def dialedURIs (t : List ConnStep) : List String := t.filterMap ConnStep.dialed

/-- Whether an attempt, made after the attempts `pre`, fails. -/
def ConnEnv.failed (env : ConnEnv) (pre : List ConnStep) : ConnStep → Bool
  | ConnStep.register driverName dbSystem =>
    match env.otelRegister driverName dbSystem pre with
    | Except.error _ => true
    | Except.ok _ => false
  | ConnStep.sqlxConnect driverName uri => (env.sqlxConnect driverName uri pre).isSome
  | ConnStep.sqlxOpen driverName uri => (env.sqlxOpen driverName uri pre).isSome
  | ConnStep.ping w => (env.ping w pre).isSome

/-! ## Concrete inputs -/

/-- A sample environment over wrappers numbered by `Nat`: a call answers with
the wrapper number and the number of effects before it; closing wrapper 2
fails. -/
def envSample : Env Nat Nat (Nat × Nat) String :=
  { call := fun w _ _ t => (w, t.length)
    close := fun w _ => if w = 2 then some "closed pipe" else none }

/-- A configuration with every field omitted. -/
def cfgZero : Config :=
  { ConnMaxLifetime := 0, ConnMaxIdleTime := 0, DriverName := "", MaxIdleConns := 0,
    MaxOpenConns := 0, Name := "", SchemaSearchPath := "", SchemaMigrationsTable := "",
    URI := "", ReplicaURIs := [] }

/-- Idle limit 5 with the open limit omitted. -/
def cfgIdle5Open0 : Config := { cfgZero with MaxIdleConns := 5 }

/-- Idle limit 20 above an open limit of 8. -/
def cfgIdle20Open8 : Config := { cfgZero with MaxIdleConns := 20, MaxOpenConns := 8 }

/-- Idle limit omitted with an open limit of 8. -/
def cfgIdle0Open8 : Config := { cfgZero with MaxOpenConns := 8 }

/-- A connected client without replicas. -/
def dbNoReplica : DB Nat :=
  { master := some 0, replicas := [], config := defaultConfig cfgZero, currReplicaIdx := 7 }

/-- A connected client with one replica. -/
def dbOneReplica : DB Nat :=
  { master := some 0, replicas := [1], config := defaultConfig cfgZero, currReplicaIdx := 7 }

/-- A connected client with three replicas and counter 4. -/
def dbThree : DB Nat :=
  { master := some 0, replicas := [1, 2, 3], config := defaultConfig cfgZero,
    currReplicaIdx := 4 }

/-- A client with three replicas whose counter is the largest `uint64`. -/
def dbWrap : DB Nat :=
  { master := some 0, replicas := [1, 2, 3], config := defaultConfig cfgZero,
    currReplicaIdx := 2 ^ 64 - 1 }

/-- A configuration with a non-default schema search path. -/
def cfgTenant : Config := { cfgZero with SchemaSearchPath := "tenant" }

/-- A configuration with a master and two replicas. -/
def cfgReplicas : Config :=
  { cfgZero with DriverName := "postgres", URI := "master", ReplicaURIs := ["replica1", "replica2"] }

/-- An environment in which every registration, connection and ping succeeds. -/
def connOk : ConnEnv :=
  { otelRegister := fun driverName _ _ => Except.ok ("otel-" ++ driverName)
    sqlxConnect := fun _ _ _ => none
    sqlxOpen := fun _ _ _ => none
    newDbNil := fun _ _ _ => false
    ping := fun _ _ => none }

/-- An environment in which the ping of a wrapper fails once three or more
attempts have been made: the ping of the master wrapper (after two attempts)
succeeds, the one of the first replica wrapper (after four) fails. -/
def connReplicaPingFails : ConnEnv :=
  { connOk with ping := fun _ t => if 3 ≤ t.length then some "connection refused" else none }

/-- The limits of `defaultConfig cfgReplicas` on a wrapper for `uri`. -/
def wrapperFor (uri : String) : Wrapper :=
  { driverName := "otel-postgres", uri := uri, driver := "otel-postgres",
    connMaxIdleTime := 300000000000, connMaxLifetime := 300000000000,
    maxIdleConns := 16, maxOpenConns := 16 }

/-- A wrapper environment whose `Exec` fails on the statements `INSERT bad`;
the answer of a call is its error. -/
def envExecFails : Env Nat String (Option String) String :=
  { call := fun _ _ a _ => if a = "INSERT bad" then some "relation does not exist" else none
    close := fun _ _ => none }

/-- A seed directory `db/seed` with two files, the first holding statements
that fail. -/
def osTwoSeeds : FS :=
  { ReadDir := fun dir =>
      if dir = "db/seed" then Except.ok [DirEntry.mk "a.sql" false, DirEntry.mk "b.sql" false]
      else Except.error "no such directory"
    ReadFile := fun file =>
      if file = "db/seed/a.sql" then Except.ok "INSERT bad"
      else if file = "db/seed/b.sql" then Except.ok "INSERT 2"
      else Except.error "no such file" }

/-- The join of a directory and a file name with a slash, which is what
`path.Join` returns for a clean directory path and a plain file name. -/
def joinSlash (dir name : String) : String := dir ++ "/" ++ name

/-- A migrator over `db/migrate` and `db/seed` on the client without replicas. -/
def migrateSample : Migrate Nat :=
  { migratePath := "db/migrate", seedPath := "db/seed", db := dbNoReplica }

/-- A directory `db/seed` listing two up migrations, a down migration, an
`.up.sql` file without version segment and a directory. -/
def osUpFiles : FS :=
  { ReadDir := fun dir =>
      if dir = "db/seed" then
        Except.ok [DirEntry.mk "001_a.up.sql" false, DirEntry.mk "001_a.down.sql" false,
          DirEntry.mk "003_c.up.sql" false, DirEntry.mk "notes.up.sql" false,
          DirEntry.mk "5_d.up.sql" true]
      else Except.error "no such directory"
    ReadFile := fun _ => Except.error "no such file" }

/-- A directory `db/seed` listing one up migration whose version has twenty
digits. -/
def osBigVersion : FS :=
  { ReadDir := fun dir =>
      if dir = "db/seed" then Except.ok [DirEntry.mk "99999999999999999999_big.up.sql" false]
      else Except.error "no such directory"
    ReadFile := fun _ => Except.error "no such file" }

/-- A configuration for the database named `shop`. -/
def cfgShop : Config := { cfgZero with Name := "shop" }

/-- The seed directory of `shop` with the files `002_b.sql`, `001_a.sql` and
`init.sql`, each holding statements. -/
def fsShop : FS :=
  { ReadDir := fun dir =>
      if dir = "db/seed/shop" then
        Except.ok [DirEntry.mk "002_b.sql" false, DirEntry.mk "001_a.sql" false,
          DirEntry.mk "init.sql" false]
      else Except.error "no such directory"
    ReadFile := fun file =>
      if file = "db/seed/shop/001_a.sql" then Except.ok "INSERT 1"
      else if file = "db/seed/shop/002_b.sql" then Except.ok "INSERT 2"
      else if file = "db/seed/shop/init.sql" then Except.ok "CREATE"
      else Except.error "no such file" }

/-- The same seed directory, in which `001_a.sql` is an empty file. -/
def fsShopEmpty : FS :=
  { ReadDir := fsShop.ReadDir
    ReadFile := fun file =>
      if file = "db/seed/shop/001_a.sql" then Except.ok "" else fsShop.ReadFile file }

/-- A seed directory of `shop` without eligible entries. -/
def fsShopInitOnly : FS :=
  { ReadDir := fun dir =>
      if dir = "db/seed/shop" then
        Except.ok [DirEntry.mk "init.sql" false, DirEntry.mk "old.sql" true,
          DirEntry.mk "README.md" false]
      else Except.error "no such directory"
    ReadFile := fun _ => Except.error "no such file" }

/-- A `sqlx.Open` that succeeds. -/
def sqlxOpenOk : String → String → Option String := fun _ _ => none

/-- An `Exec` that always succeeds. -/
def execOk : String → List ExecCall → Option String := fun _ _ => none

/-- An `Exec` that fails on the statements `INSERT 2`. -/
def execFailsOn2 : String → List ExecCall → Option String :=
  fun c _ => if c = "INSERT 2" then some "duplicate key" else none

/-- A seeder over `fsShop` with a third file after `002_b.sql`. -/
def seedThree : Seed :=
  { config := cfgShop, embedFS := fsShop,
    files := ["db/seed/shop/001_a.sql", "db/seed/shop/002_b.sql", "db/seed/shop/init.sql"] }

/-- A seeder over `fsShopEmpty`, as built by `NewSeed`. -/
def seedEmptyFirst : Seed :=
  { config := cfgShop, embedFS := fsShopEmpty,
    files := ["db/seed/shop/001_a.sql", "db/seed/shop/002_b.sql"] }

/-- A configuration with negative connection times. -/
def cfgNegTimes : Config := { cfgZero with ConnMaxLifetime := -1, ConnMaxIdleTime := -5 }

/-- A configuration with a master and one replica. -/
def cfgOneReplicaURI : Config :=
  { cfgZero with DriverName := "postgres", URI := "master", ReplicaURIs := ["replica1"] }

/-- An environment in which the third ping of a series fails. -/
def connThirdPingFails : ConnEnv :=
  { connOk with ping := fun _ t => if t.length = 2 then some "timeout" else none }

/-- A migration directory `db/migrate` and a seed directory `db/seed`, each
holding one `.up.sql` file of its own. -/
def osTwoDirs : FS :=
  { ReadDir := fun dir =>
      if dir = "db/seed" then Except.ok [DirEntry.mk "001_seed.up.sql" false]
      else if dir = "db/migrate" then Except.ok [DirEntry.mk "002_real.up.sql" false]
      else Except.error "no such directory"
    ReadFile := fun _ => Except.error "no such file" }

/-- A `migrate.New` that succeeds. -/
def migrateNewOk : String → String → Option String := fun _ _ => none

/-- A wrapper environment for the repository: the DELETE on the product
images fails, the INSERT of a product returns the id 42, and the query for a
product returns the zero product. -/
def envReplies : Env Nat Query Reply String :=
  { call := fun _ _ q _ =>
      if q.text = deleteImagesSQL then
        Reply.mk (some (GoError.external "deadlock detected")) Scanned.nothing
      else if q.text = insertProductSQL then Reply.mk none (Scanned.int 42)
      else if q.text = selectProductByIDSQL then Reply.mk none (Scanned.product Product.zero)
      else Reply.mk none Scanned.nothing
    close := fun _ _ => none }

/-- A filter whose `sort` text is not a column name. -/
def payloadInjection : FilterProduct :=
  { Search := "shoe", sort := "id; DROP TABLE products; --", IsAsc := false }

/-- A product to create. -/
def productSample : Product :=
  { Product.zero with Sku := "SKU-1", Title := "Shoe", Price := 100, UserID := 9 }

/-- An update with one image. -/
def upsertSample : UpsertProduct :=
  { UserID := 9, Sku := "SKU-1", Title := "Shoe", Description := "", Category := "",
    Etalase := "", Weight := 0, Price := 100,
    ProductImages := [ImageInput.mk "http://img/1" "front"] }

/-- A request map with a `sort` of the two-part form. -/
def requestSortDesc : String → Value :=
  fun key => if key = "sort" then Value.str "name,desc" else Value.null

/-- A request map with a `sort` that is not a string. -/
def requestSortNumber : String → Value :=
  fun key => if key = "sort" then Value.float 1 else Value.null

/-- An environment in which `sqlx.Connect` cannot reach `replica1`; everything
else succeeds. -/
def connReplicaDialFails : ConnEnv :=
  { connOk with
    sqlxConnect := fun _ uri _ => if uri = "replica1" then some "no route to host" else none }

/-- A directory `db/seed` listing an up migration and an `.up.sql` file whose
version segment `v2` is not a number. -/
def osBadVersion : FS :=
  { ReadDir := fun dir =>
      if dir = "db/seed" then
        Except.ok [DirEntry.mk "001_a.up.sql" false, DirEntry.mk "v2_b.up.sql" false]
      else Except.error "no such directory"
    ReadFile := fun _ => Except.error "no such file" }

/-! ## Theorems: configuration defaults -/

/-- A closed form of `defaultConfig`: every field of the result in terms of
the input fields. -/
theorem defaultConfig_eq (c : Config) :
    defaultConfig c =
      { c with
        ConnMaxIdleTime := if c.ConnMaxIdleTime = 0 then 5 * Minute else c.ConnMaxIdleTime
        ConnMaxLifetime := if c.ConnMaxLifetime = 0 then 5 * Minute else c.ConnMaxLifetime
        MaxOpenConns := if c.MaxOpenConns = 0 then 16 else c.MaxOpenConns
        MaxIdleConns := min (if c.MaxIdleConns = 0 then 16 else c.MaxIdleConns)
          (if c.MaxOpenConns = 0 then 16 else c.MaxOpenConns)
        SchemaSearchPath := if c.SchemaSearchPath = "" then "public" else c.SchemaSearchPath
        SchemaMigrationsTable :=
          if c.SchemaMigrationsTable = "" then "schema_migrations"
          else c.SchemaMigrationsTable } := by
  obtain ⟨lt, it, dn, mi, mo, nm, sp, mt, uri, rs⟩ := c
  by_cases h1 : it = 0 <;> by_cases h2 : lt = 0 <;> by_cases h3 : mi = 0 <;>
    by_cases h4 : mo = 0 <;> by_cases h5 : sp = "" <;> by_cases h6 : mt = "" <;>
    simp [defaultConfig, h1, h2, h3, h4, h5, h6] <;>
    (try split_ifs) <;> (try simp_all [min_def]) <;> (try omega)

/-- The pool limits after `defaultConfig`, in terms of the input limits. -/
theorem defaultConfig_limits (c : Config) :
    (defaultConfig c).MaxOpenConns = (if c.MaxOpenConns = 0 then 16 else c.MaxOpenConns) ∧
    (defaultConfig c).MaxIdleConns =
      min (if c.MaxIdleConns = 0 then 16 else c.MaxIdleConns)
        (if c.MaxOpenConns = 0 then 16 else c.MaxOpenConns) := by
  rw [defaultConfig_eq]
  exact ⟨rfl, rfl⟩

/-- The connection times after `defaultConfig`, in terms of the input times. -/
theorem defaultConfig_times (c : Config) :
    (defaultConfig c).ConnMaxIdleTime =
      (if c.ConnMaxIdleTime = 0 then 5 * Minute else c.ConnMaxIdleTime) ∧
    (defaultConfig c).ConnMaxLifetime =
      (if c.ConnMaxLifetime = 0 then 5 * Minute else c.ConnMaxLifetime) := by
  rw [defaultConfig_eq]
  exact ⟨rfl, rfl⟩

/-- C7: for every input configuration, zero and negative limits included, the
configuration returned by `defaultConfig`, which is the one a client built by
`NewDB` holds, has `MaxIdleConns <= MaxOpenConns`. -/
theorem defaultConfig_idle_le_open (c : Config) :
    (defaultConfig c).MaxIdleConns ≤ (defaultConfig c).MaxOpenConns ∧
    ∀ W : Type, (NewDB c : DB W).config = defaultConfig c ∧
      (NewDB c : DB W).config.MaxIdleConns ≤ (NewDB c : DB W).config.MaxOpenConns := by
  have h := defaultConfig_limits c
  have key : (defaultConfig c).MaxIdleConns ≤ (defaultConfig c).MaxOpenConns := by
    rw [h.1, h.2]; exact min_le_right _ _
  exact ⟨key, fun W => ⟨rfl, key⟩⟩

/-- C8, as stated, fails: with idle limit 5 and the open limit omitted, the
configured idle limit exceeds the configured open limit (5 > 0), yet
`defaultConfig` returns idle limit 5 and open limit 16. -/
theorem defaultConfig_idle_clamp_counterexample :
    cfgIdle5Open0.MaxIdleConns > cfgIdle5Open0.MaxOpenConns ∧
    (defaultConfig cfgIdle5Open0).MaxIdleConns = 5 ∧
    (defaultConfig cfgIdle5Open0).MaxOpenConns = 16 ∧
    (defaultConfig cfgIdle5Open0).MaxIdleConns ≠ (defaultConfig cfgIdle5Open0).MaxOpenConns := by
  decide

/-- C8, amended: for every input configuration whose configured `MaxIdleConns`
exceeds its configured `MaxOpenConns`, the returned `MaxIdleConns` equals the
returned `MaxOpenConns` exactly when the open limit was not omitted (is not
zero) or the configured idle limit is at least the default open limit 16. -/
theorem defaultConfig_idle_clamp (c : Config) (h : c.MaxIdleConns > c.MaxOpenConns) :
    (defaultConfig c).MaxIdleConns = (defaultConfig c).MaxOpenConns ↔
      (c.MaxOpenConns ≠ 0 ∨ 16 ≤ c.MaxIdleConns) := by
  have hl := defaultConfig_limits c
  rw [hl.1, hl.2]
  by_cases h0 : c.MaxOpenConns = 0 <;> by_cases h1 : c.MaxIdleConns = 0 <;>
    simp only [h0, h1, if_true, if_false, min_def] <;> split_ifs <;> omega

/-- Sample run for C8 as amended: idle 20 above open 8 gives 8 and 8. -/
theorem defaultConfig_idle_clamp_witness :
    cfgIdle20Open8.MaxIdleConns > cfgIdle20Open8.MaxOpenConns ∧
    (defaultConfig cfgIdle20Open8).MaxOpenConns = 8 ∧
    (defaultConfig cfgIdle20Open8).MaxIdleConns = (defaultConfig cfgIdle20Open8).MaxOpenConns :=
  ⟨by decide, by decide,
    (defaultConfig_idle_clamp cfgIdle20Open8 (by decide)).mpr (Or.inl (by decide))⟩

/-- C9, as stated, fails for `MaxIdleConns`: with the idle limit omitted and an
open limit of 8, `defaultConfig` returns idle limit 8, not 16. -/
theorem defaultConfig_defaults_counterexample :
    cfgIdle0Open8.MaxIdleConns = 0 ∧
    (defaultConfig cfgIdle0Open8).MaxIdleConns = 8 ∧
    (defaultConfig cfgIdle0Open8).MaxIdleConns ≠ 16 := by
  decide

/-- C9, amended: for every input configuration, an omitted (zero)
`ConnMaxIdleTime`, `ConnMaxLifetime` or `MaxOpenConns` is returned as 5
minutes, 5 minutes and 16, whatever the other fields; an omitted
`MaxIdleConns` is returned as the smaller of 16 and the returned
`MaxOpenConns`, hence as 16 whenever the returned `MaxOpenConns` is at
least 16. -/
theorem defaultConfig_defaults (c : Config) :
    (c.ConnMaxIdleTime = 0 → (defaultConfig c).ConnMaxIdleTime = 300000000000) ∧
    (c.ConnMaxLifetime = 0 → (defaultConfig c).ConnMaxLifetime = 300000000000) ∧
    (c.MaxOpenConns = 0 → (defaultConfig c).MaxOpenConns = 16) ∧
    (c.MaxIdleConns = 0 →
      (defaultConfig c).MaxIdleConns = min 16 (defaultConfig c).MaxOpenConns) ∧
    (c.MaxIdleConns = 0 → 16 ≤ (defaultConfig c).MaxOpenConns →
      (defaultConfig c).MaxIdleConns = 16) := by
  have hl := defaultConfig_limits c
  have ht := defaultConfig_times c
  refine ⟨fun h => ?_, fun h => ?_, fun h => ?_, fun h => ?_, fun h h16 => ?_⟩
  · rw [ht.1, if_pos h]; decide
  · rw [ht.2, if_pos h]; decide
  · rw [hl.1, if_pos h]
  · rw [hl.2, hl.1, if_pos h]
  · rw [hl.1] at h16
    rw [hl.2, if_pos h]
    exact min_eq_left h16

/-- Sample run for C9 as amended: with every field omitted the four values
are 5 minutes, 5 minutes, 16 and 16. -/
theorem defaultConfig_defaults_witness :
    (defaultConfig cfgZero).ConnMaxIdleTime = 300000000000 ∧
    (defaultConfig cfgZero).ConnMaxLifetime = 300000000000 ∧
    (defaultConfig cfgZero).MaxOpenConns = 16 ∧
    (defaultConfig cfgZero).MaxIdleConns = 16 :=
  ⟨(defaultConfig_defaults cfgZero).1 (by decide),
    (defaultConfig_defaults cfgZero).2.1 (by decide),
    (defaultConfig_defaults cfgZero).2.2.1 (by decide),
    (defaultConfig_defaults cfgZero).2.2.2.2 (by decide) (by decide)⟩

/-! ## Theorems: replica selection -/

/-- With no replica, `Replica` returns the master interface value without
touching the client, and logs the fallback warning. -/
theorem Replica_of_nil {W A : Type} (db : DB W) (t : Trace W A) (hr : db.replicas = []) :
    db.Replica t = some (db.master, db, t ++ [Event.warn fallbackWarning]) := by
  simp [DB.Replica, hr]

/-- With two or more replicas, the index computed by `replica` is at least 1
and smaller than the number of replicas. -/
theorem replica_bounds {W : Type} (db : DB W) (hN : 2 ≤ db.replicas.length) :
    1 ≤ db.replica.1 ∧ db.replica.1 < db.replicas.length ∧
    db.replica.2.replicas = db.replicas := by
  have hlt : ¬ db.replicas.length ≤ 1 := by omega
  have hpos : 0 < db.replicas.length - 1 := by omega
  have hmod := Nat.mod_lt (addUint64One db.currReplicaIdx) hpos
  simp only [DB.replica, hlt, if_false]
  refine ⟨by omega, by omega, trivial⟩

/-- C2: with N >= 2 replicas and a counter c with c+1 < 2^64, one call of
`replica` returns the index 1 + ((c+1) mod (N-1)) and leaves the counter at c+1
(nothing else in the client changes). -/
theorem replica_round_robin {W : Type} (db : DB W) (hN : 2 ≤ db.replicas.length)
    (hc : db.currReplicaIdx + 1 < 2 ^ 64) :
    db.replica.1 = 1 + (db.currReplicaIdx + 1) % (db.replicas.length - 1) ∧
    db.replica.2.currReplicaIdx = db.currReplicaIdx + 1 ∧
    db.replica.2 = { db with currReplicaIdx := db.currReplicaIdx + 1 } := by
  have hlt : ¬ db.replicas.length ≤ 1 := by omega
  have hnext : addUint64One db.currReplicaIdx = db.currReplicaIdx + 1 := by
    unfold addUint64One
    exact Nat.mod_eq_of_lt hc
  simp only [DB.replica, hlt, if_false, hnext]
  exact ⟨trivial, trivial, trivial⟩

/-- With two or more replicas, `Replica` returns the replica at the index
computed by `replica`, which is in range. -/
theorem Replica_of_two_le {W A : Type} (db : DB W) (hN : 2 ≤ db.replicas.length)
    (t : Trace W A) :
    ∃ r, db.replicas[db.replica.1]? = some r ∧
      db.Replica t = some (some r, db.replica.2, t) := by
  obtain ⟨_, h2, _⟩ := replica_bounds db hN
  refine ⟨db.replicas[db.replica.1], List.getElem?_eq_getElem h2, ?_⟩
  have hlen : ¬ db.replicas.length < 1 := by omega
  simp only [DB.Replica, hlen, if_false, List.getElem?_eq_getElem h2]

/-- C3: with N >= 2 replicas and any counter value, also one at which the
increment wraps around 2^64, `replica` returns an index i with
1 <= i <= N-1, and the lookup `db.replicas[i]` of `Replica` is in range:
`Replica` returns that replica and does not panic. -/
theorem replica_index_in_range {W A : Type} (db : DB W) (hN : 2 ≤ db.replicas.length) :
    1 ≤ db.replica.1 ∧ db.replica.1 ≤ db.replicas.length - 1 ∧
    ∃ r, db.replicas[db.replica.1]? = some r ∧
      ∀ t : Trace W A, db.Replica t = some (some r, db.replica.2, t) := by
  obtain ⟨h1, h2, _⟩ := replica_bounds db hN
  obtain ⟨r, hr, _⟩ := Replica_of_two_le db hN ([] : Trace W A)
  refine ⟨h1, by omega, r, hr, fun t => ?_⟩
  obtain ⟨r1, hr1, ht⟩ := Replica_of_two_le db hN t
  rw [hr] at hr1
  rw [ht, ← Option.some.inj hr1]

/-- C4: with exactly one replica, any number of successive `Replica` calls
return that replica each time, whatever the counter value, and leave the
client, its rotation counter included, and the effects unchanged. -/
theorem Replica_single {W A : Type} (db : DB W) (r : W) (h : db.replicas = [r]) (n : Nat)
    (t : Trace W A) :
    db.replica = (0, db) ∧
    db.Replica t = some (some r, db, t) ∧
    DB.ReplicaTimes n db t = some (List.replicate n (some r), db, t) := by
  have hsel : db.replica = (0, db) := by simp [DB.replica, h]
  have hone : ∀ t1 : Trace W A, db.Replica t1 = some (some r, db, t1) := by
    intro t1
    simp [DB.Replica, hsel, h]
  refine ⟨hsel, hone t, ?_⟩
  induction n with
  | zero => rfl
  | succ k ih => simp [DB.ReplicaTimes, hone t, ih, List.replicate_succ]

/-- Sample run for C2: three replicas, counter 4: index 1 + 5 mod 2 = 2 and
counter 5. -/
theorem replica_round_robin_witness :
    2 ≤ dbThree.replicas.length ∧ dbThree.currReplicaIdx + 1 < 2 ^ 64 ∧
    dbThree.replica.1 = 2 ∧ dbThree.replica.2.currReplicaIdx = 5 :=
  ⟨by decide, by decide,
    (replica_round_robin dbThree (by decide) (by decide)).1,
    (replica_round_robin dbThree (by decide) (by decide)).2.1⟩

/-- Sample run for C3: three replicas with the counter at 2^64 - 1: the
increment wraps to 0 and the index is 1. -/
theorem replica_index_in_range_witness :
    2 ≤ dbWrap.replicas.length ∧ dbWrap.replica.1 = 1 ∧
    (1 ≤ dbWrap.replica.1 ∧ dbWrap.replica.1 ≤ dbWrap.replicas.length - 1 ∧
      ∃ r, dbWrap.replicas[dbWrap.replica.1]? = some r ∧
        ∀ t : Trace Nat Nat, dbWrap.Replica t = some (some r, dbWrap.replica.2, t)) :=
  ⟨by decide, by decide, replica_index_in_range dbWrap (by decide)⟩

/-- Sample run for C4: five successive selections on a one-replica client. -/
theorem Replica_single_witness :
    dbOneReplica.replicas = [1] ∧
    DB.ReplicaTimes 5 dbOneReplica ([] : Trace Nat Nat) =
      some ([some 1, some 1, some 1, some 1, some 1], dbOneReplica, []) :=
  ⟨rfl, (Replica_single dbOneReplica 1 rfl 5 []).2.2⟩

/-! ## Theorems: routing of reads and writes -/

/-- A read operation is one call of its method on the wrapper that `Replica`
returned, after the effects of `Replica`, on the client left by `Replica`. -/
theorem onReplica_of_Replica {W A R E : Type} (env : Env W A R E) (m : Method) (db db1 : DB W)
    (a : A) (t t1 : Trace W A) (w : W) (h : db.Replica t = some (some w, db1, t1)) :
    DB.onReplica env m db a t = calledOnce env w m a db1 t1 := by
  simp [DB.onReplica, h, invoke, calledOnce]

/-- C1: on a client whose replica list is empty, `Replica` returns the master
wrapper and never an error (it returns normally, logging the fallback
warning, and leaves the client unchanged), and each of the ten read operations
is one call of its method on master, whose result is returned unchanged. -/
theorem reads_fall_back_to_master {W A R E : Type} (env : Env W A R E) (db : DB W) (m : W)
    (a : A) (t : Trace W A) (hr : db.replicas = []) (hm : db.master = some m) :
    db.Replica t = some (some m, db, t ++ [Event.warn fallbackWarning]) ∧
    DB.Get env db a t =
      calledOnce env m Method.Get a db (t ++ [Event.warn fallbackWarning]) ∧
    DB.GetContext env db a t =
      calledOnce env m Method.GetContext a db (t ++ [Event.warn fallbackWarning]) ∧
    DB.Select env db a t =
      calledOnce env m Method.Select a db (t ++ [Event.warn fallbackWarning]) ∧
    DB.SelectContext env db a t =
      calledOnce env m Method.SelectContext a db (t ++ [Event.warn fallbackWarning]) ∧
    DB.Query env db a t =
      calledOnce env m Method.Queryx a db (t ++ [Event.warn fallbackWarning]) ∧
    DB.QueryContext env db a t =
      calledOnce env m Method.QueryxContext a db (t ++ [Event.warn fallbackWarning]) ∧
    DB.QueryRow env db a t =
      calledOnce env m Method.QueryRowx a db (t ++ [Event.warn fallbackWarning]) ∧
    DB.QueryRowContext env db a t =
      calledOnce env m Method.QueryRowxContext a db (t ++ [Event.warn fallbackWarning]) ∧
    DB.NamedQuery env db a t =
      calledOnce env m Method.NamedQuery a db (t ++ [Event.warn fallbackWarning]) ∧
    DB.NamedQueryContext env db a t =
      calledOnce env m Method.NamedQueryContext a db (t ++ [Event.warn fallbackWarning]) := by
  have h : db.Replica t = some (some m, db, t ++ [Event.warn fallbackWarning]) := by
    rw [Replica_of_nil db t hr, hm]
  exact ⟨h, onReplica_of_Replica env _ db db a t _ m h, onReplica_of_Replica env _ db db a t _ m h,
    onReplica_of_Replica env _ db db a t _ m h, onReplica_of_Replica env _ db db a t _ m h,
    onReplica_of_Replica env _ db db a t _ m h, onReplica_of_Replica env _ db db a t _ m h,
    onReplica_of_Replica env _ db db a t _ m h, onReplica_of_Replica env _ db db a t _ m h,
    onReplica_of_Replica env _ db db a t _ m h, onReplica_of_Replica env _ db db a t _ m h⟩

/-- Sample run for C1: a `Get` on a client without replicas is answered by
master (wrapper 0) after the warning. -/
theorem reads_fall_back_to_master_witness :
    dbNoReplica.replicas = [] ∧ dbNoReplica.master = some 0 ∧
    DB.Get envSample dbNoReplica 9 [] =
      some ((0, 1), dbNoReplica, [Event.warn fallbackWarning, Event.call 0 Method.Get 9]) :=
  ⟨rfl, rfl, (reads_fall_back_to_master envSample dbNoReplica 0 9 [] rfl rfl).2.1⟩

/-- C5: in every client state with a master wrapper (any replicas, any
counter), each of the ten write, prepare and begin operations is one call of
its method on master and on no other wrapper, returns what master returned,
and leaves the client, its rotation counter included, unchanged. -/
theorem writes_run_on_master {W A R E : Type} (env : Env W A R E) (db : DB W) (m : W)
    (a : A) (t : Trace W A) (hm : db.master = some m) :
    DB.Exec env db a t = calledOnce env m Method.Exec a db t ∧
    DB.ExecContext env db a t = calledOnce env m Method.ExecContext a db t ∧
    DB.NamedExec env db a t = calledOnce env m Method.NamedExec a db t ∧
    DB.NamedExecContext env db a t = calledOnce env m Method.NamedExecContext a db t ∧
    DB.Prepare env db a t = calledOnce env m Method.Preparex a db t ∧
    DB.PrepareContext env db a t = calledOnce env m Method.PreparexContext a db t ∧
    DB.PrepareNamed env db a t = calledOnce env m Method.PrepareNamed a db t ∧
    DB.PrepareNamedContext env db a t = calledOnce env m Method.PrepareNamedContext a db t ∧
    DB.Begin env db a t = calledOnce env m Method.Beginx a db t ∧
    DB.BeginContext env db a t = calledOnce env m Method.BeginTxx a db t := by
  have h : ∀ k : Method, DB.onMaster env k db a t = calledOnce env m k a db t := by
    intro k
    simp [DB.onMaster, hm, invoke, calledOnce]
  exact ⟨h _, h _, h _, h _, h _, h _, h _, h _, h _, h _⟩

/-- Sample run for C5: an `Exec` on a client with three replicas goes to
master (wrapper 0) and the counter stays 4. -/
theorem writes_run_on_master_witness :
    dbThree.master = some 0 ∧
    DB.Exec envSample dbThree 9 [] = some ((0, 0), dbThree, [Event.call 0 Method.Exec 9]) :=
  ⟨rfl, (writes_run_on_master envSample dbThree 0 9 [] rfl).1⟩

/-- In every client state `Replica` returns normally. -/
theorem Replica_returns {W A : Type} (db : DB W) (t : Trace W A) :
    ∃ sel db1 t1, db.Replica t = some (sel, db1, t1) := by
  by_cases h : 2 ≤ db.replicas.length
  · obtain ⟨r, _, hr⟩ := Replica_of_two_le db h t
    exact ⟨_, _, _, hr⟩
  · match hl : db.replicas with
    | [] => exact ⟨_, _, _, Replica_of_nil db t hl⟩
    | [r] => exact ⟨some r, db, t, by simp [DB.Replica, DB.replica, hl]⟩
    | _ :: _ :: _ => simp [hl] at h

/-- C6: in every client state `Replica` returns normally, and each of `Get`,
`GetContext`, `Select`, `SelectContext`, `Query`, `QueryContext`, `QueryRow`
and `QueryRowContext` makes exactly one replica selection (the client after
the operation is the one left by a single `Replica` call on the state before
it) and is one call of its method on the wrapper that this `Replica` call
returned, whose result is returned unchanged. -/
theorem reads_run_on_selected {W A R E : Type} (env : Env W A R E) (db : DB W) (a : A)
    (t : Trace W A) :
    (∃ sel db1 t1, db.Replica t = some (sel, db1, t1)) ∧
    ∀ (w : W) (db1 : DB W) (t1 : Trace W A), db.Replica t = some (some w, db1, t1) →
      DB.Get env db a t = calledOnce env w Method.Get a db1 t1 ∧
      DB.GetContext env db a t = calledOnce env w Method.GetContext a db1 t1 ∧
      DB.Select env db a t = calledOnce env w Method.Select a db1 t1 ∧
      DB.SelectContext env db a t = calledOnce env w Method.SelectContext a db1 t1 ∧
      DB.Query env db a t = calledOnce env w Method.Queryx a db1 t1 ∧
      DB.QueryContext env db a t = calledOnce env w Method.QueryxContext a db1 t1 ∧
      DB.QueryRow env db a t = calledOnce env w Method.QueryRowx a db1 t1 ∧
      DB.QueryRowContext env db a t = calledOnce env w Method.QueryRowxContext a db1 t1 := by
  refine ⟨Replica_returns db t, fun w db1 t1 h => ?_⟩
  exact ⟨onReplica_of_Replica env _ db db1 a t t1 w h, onReplica_of_Replica env _ db db1 a t t1 w h,
    onReplica_of_Replica env _ db db1 a t t1 w h, onReplica_of_Replica env _ db db1 a t t1 w h,
    onReplica_of_Replica env _ db db1 a t t1 w h, onReplica_of_Replica env _ db db1 a t t1 w h,
    onReplica_of_Replica env _ db db1 a t t1 w h, onReplica_of_Replica env _ db db1 a t t1 w h⟩

/-- Sample run for C6: with three replicas and counter 4 the selection is
index 2 (wrapper 3) with counter 5, and `Get` is answered by wrapper 3. -/
theorem reads_run_on_selected_witness :
    dbThree.Replica ([] : Trace Nat Nat) =
      some (some 3, { dbThree with currReplicaIdx := 5 }, []) ∧
    DB.Get envSample dbThree 9 [] =
      some ((3, 0), { dbThree with currReplicaIdx := 5 }, [Event.call 3 Method.Get 9]) :=
  ⟨rfl, ((reads_run_on_selected envSample dbThree 9 []).2 3
    { dbThree with currReplicaIdx := 5 } [] rfl).1⟩

/-! ## Theorems: Close -/

/-- The close loop over a list of wrappers: it closes a prefix of the list, in
order; every close but the last one made returned nil; a returned error is the
one of the last close made; nil is returned only after every wrapper was
closed without error. -/
theorem closeReplicas_spec {W A R E : Type} (env : Env W A R E) :
    ∀ (ws : List W) (t : Trace W A), ∃ n, n ≤ ws.length ∧
      (closeReplicas env ws t).2 = t ++ closes (ws.take n) ∧
      (∀ i w, i + 1 < n → ws[i]? = some w → env.close w (t ++ closes (ws.take i)) = none) ∧
      ((closeReplicas env ws t).1 = none → n = ws.length ∧
        ∀ i w, ws[i]? = some w → env.close w (t ++ closes (ws.take i)) = none) ∧
      (∀ e, (closeReplicas env ws t).1 = some e → ∃ w, 0 < n ∧ ws[n - 1]? = some w ∧
        env.close w (t ++ closes (ws.take (n - 1))) = some e) := by
  intro ws
  induction ws with
  | nil =>
    intro t
    refine ⟨0, le_refl _, by simp [closeReplicas, closes], ?_, ?_, ?_⟩
    · intro i w hi; omega
    · intro _; exact ⟨rfl, by simp⟩
    · intro e he; simp [closeReplicas] at he
  | cons r rs ih =>
    intro t
    cases hc : env.close r t with
    | some e =>
      refine ⟨1, by simp, by simp [closeReplicas, hc, closes], ?_, ?_, ?_⟩
      · intro i w hi; omega
      · intro h; simp [closeReplicas, hc] at h
      · intro e1 he
        simp only [closeReplicas, hc] at he
        refine ⟨r, Nat.one_pos, by simp, ?_⟩
        simp only [Nat.sub_self, List.take_zero, closes, List.map_nil, List.append_nil, hc]
        exact he
    | none =>
      obtain ⟨n, hn, htr, hpre, hnil, herr⟩ := ih (t ++ [Event.close r])
      have hstep : ∀ i : Nat, t ++ closes (List.take (i + 1) (r :: rs)) =
          (t ++ [Event.close r]) ++ closes (List.take i rs) := by
        intro i
        simp [closes]
      have hall : ∀ i w, (i = 0 ∨ ∃ j, i = j + 1 ∧ (j + 1 < n ∨
            (closeReplicas env rs (t ++ [Event.close r])).1 = none)) →
          (r :: rs)[i]? = some w → env.close w (t ++ closes (List.take i (r :: rs))) = none := by
        intro i w hi hw
        rcases hi with rfl | ⟨j, rfl, hj⟩
        · simp only [List.getElem?_cons_zero, Option.some.injEq] at hw
          subst hw
          simpa [closes] using hc
        · rw [hstep]
          rw [List.getElem?_cons_succ] at hw
          rcases hj with hj | hj
          · exact hpre j w hj hw
          · exact (hnil hj).2 j w hw
      refine ⟨n + 1, by simpa using hn, ?_, ?_, ?_, ?_⟩
      · simp only [closeReplicas, hc]
        rw [htr, hstep]
      · intro i w hi hw
        cases i with
        | zero => exact hall 0 w (Or.inl rfl) hw
        | succ j => exact hall (j + 1) w (Or.inr ⟨j, rfl, Or.inl (by omega)⟩) hw
      · intro h
        simp only [closeReplicas, hc] at h
        refine ⟨by simp [(hnil h).1], fun i w hw => ?_⟩
        cases i with
        | zero => exact hall 0 w (Or.inl rfl) hw
        | succ j => exact hall (j + 1) w (Or.inr ⟨j, rfl, Or.inr h⟩) hw
      · intro e he
        simp only [closeReplicas, hc] at he
        obtain ⟨w, hpos, hw, hclose⟩ := herr e he
        obtain ⟨k, rfl⟩ : ∃ k, n = k + 1 := ⟨n - 1, by omega⟩
        refine ⟨w, by omega, ?_, ?_⟩
        · simpa using hw
        · have hk : k + 1 + 1 - 1 = k + 1 := by omega
          rw [hk, hstep]
          simpa using hclose

/-- With a master wrapper, `Close` is the close loop over master followed by
the replicas. -/
theorem Close_eq_loop {W A R E : Type} (env : Env W A R E) (db : DB W) (m : W)
    (t : Trace W A) (hm : db.master = some m) :
    DB.Close env db t = some ((closeReplicas env (m :: db.replicas) t).1, db,
      (closeReplicas env (m :: db.replicas) t).2) := by
  cases hc : env.close m t <;> simp [DB.Close, invokeClose, hm, closeReplicas, hc]

/-- C10: on a client with a master wrapper, `Close` makes n >= 1 close calls,
on the first n wrappers of master followed by the replicas in list order.
Every call but the last returned nil; `Close` returns what the last call
returned, so an error is the one of the first close that fails and no wrapper
after it is closed. `Close` returns nil if and only if every close succeeds,
and then every wrapper has been closed. -/
theorem Close_stops_at_first_error {W A R E : Type} (env : Env W A R E) (db : DB W) (m : W)
    (t : Trace W A) (hm : db.master = some m) :
    ∃ n e, 1 ≤ n ∧ n ≤ (m :: db.replicas).length ∧
      DB.Close env db t = some (e, db, t ++ closes ((m :: db.replicas).take n)) ∧
      (∀ i w, i + 1 < n → (m :: db.replicas)[i]? = some w →
        env.close w (t ++ closes ((m :: db.replicas).take i)) = none) ∧
      (∃ w, (m :: db.replicas)[n - 1]? = some w ∧
        env.close w (t ++ closes ((m :: db.replicas).take (n - 1))) = e) ∧
      (e = none → n = (m :: db.replicas).length) ∧
      (e = none ↔ ∀ i w, (m :: db.replicas)[i]? = some w →
        env.close w (t ++ closes ((m :: db.replicas).take i)) = none) := by
  obtain ⟨n, hn, htr, hpre, hnil, herr⟩ := closeReplicas_spec env (m :: db.replicas) t
  have hlast : 1 ≤ n ∧ ∃ w, (m :: db.replicas)[n - 1]? = some w ∧
      env.close w (t ++ closes ((m :: db.replicas).take (n - 1))) =
        (closeReplicas env (m :: db.replicas) t).1 := by
    cases he : (closeReplicas env (m :: db.replicas) t).1 with
    | some e =>
      obtain ⟨w, hpos, hw, hclose⟩ := herr e he
      exact ⟨hpos, w, hw, hclose⟩
    | none =>
      obtain ⟨hlen, hall⟩ := hnil he
      have hpos : 1 ≤ n := by rw [hlen]; simp
      have hidx : n - 1 < (m :: db.replicas).length := by omega
      exact ⟨hpos, (m :: db.replicas)[n - 1], List.getElem?_eq_getElem hidx,
        hall _ _ (List.getElem?_eq_getElem hidx)⟩
  refine ⟨n, (closeReplicas env (m :: db.replicas) t).1, hlast.1, hn, ?_, hpre, hlast.2,
    fun h => (hnil h).1, fun h => (hnil h).2, fun hall => ?_⟩
  · rw [Close_eq_loop env db m t hm, htr]
  · obtain ⟨w, hw, hclose⟩ := hlast.2
    rw [← hclose]
    exact hall _ w hw

/-- Sample run for C10: master 0 and replicas 1, 2, 3, where closing wrapper 2
fails: wrappers 0, 1 and 2 are closed, wrapper 3 is not, and the error of
wrapper 2 is returned. -/
theorem Close_stops_at_first_error_witness :
    dbThree.master = some 0 ∧
    DB.Close envSample dbThree ([] : Trace Nat Nat) =
      some (some "closed pipe", dbThree, [Event.close 0, Event.close 1, Event.close 2]) ∧
    ∃ n e, 1 ≤ n ∧ n ≤ (0 :: dbThree.replicas).length ∧
      DB.Close envSample dbThree ([] : Trace Nat Nat) =
        some (e, dbThree, [] ++ closes ((0 :: dbThree.replicas).take n)) ∧
      (∀ i w, i + 1 < n → (0 :: dbThree.replicas)[i]? = some w →
        envSample.close w ([] ++ closes ((0 :: dbThree.replicas).take i)) = none) ∧
      (∃ w, (0 :: dbThree.replicas)[n - 1]? = some w ∧
        envSample.close w ([] ++ closes ((0 :: dbThree.replicas).take (n - 1))) = e) ∧
      (e = none → n = (0 :: dbThree.replicas).length) ∧
      (e = none ↔ ∀ i w, (0 :: dbThree.replicas)[i]? = some w →
        envSample.close w ([] ++ closes ((0 :: dbThree.replicas).take i)) = none) :=
  ⟨rfl, rfl, Close_stops_at_first_error envSample dbThree 0 [] rfl⟩

/-- C11, as stated, fails: with master 0 and replicas 1, 2, 3, where closing
wrapper 2 fails, `Close` surfaces the error but never closes replica 3. -/
theorem Close_remaining_counterexample :
    dbThree.master = some 0 ∧ dbThree.replicas = [1, 2, 3] ∧
    DB.Close envSample dbThree ([] : Trace Nat Nat) =
      some (some "closed pipe", dbThree, [Event.close 0, Event.close 1, Event.close 2]) ∧
    List.count (Event.close 3 : Event Nat Nat) [Event.close 0, Event.close 1, Event.close 2] = 0 := by
  refine ⟨rfl, rfl, rfl, by decide⟩

/-- C11, amended: when some close call fails during `Close`, the error is
surfaced and `Close` stops there. On a client with a master wrapper the
effects of `Close` are one close call on each of the first n wrappers of
master followed by the replicas, in order, with n >= 1, and no call on a later
wrapper. The number n is fixed by the first failing close: every close before
the n-th returned nil, the n-th returned the result e of `Close`, and whenever
a wrapper is left unclosed (n is less than their number) e is an error, so the
n-th close is the first one that fails. Close is called on master and on every
replica exactly when no close before the one of the last wrapper fails. -/
theorem Close_calls_until_first_error {W A R E : Type} (env : Env W A R E) (db : DB W) (m : W)
    (t : Trace W A) (hm : db.master = some m) :
    ∃ n e, 1 ≤ n ∧ n ≤ (m :: db.replicas).length ∧
      DB.Close env db t = some (e, db, t ++ closes ((m :: db.replicas).take n)) ∧
      (∀ i w, i + 1 < n → (m :: db.replicas)[i]? = some w →
        env.close w (t ++ closes ((m :: db.replicas).take i)) = none) ∧
      (∃ w, (m :: db.replicas)[n - 1]? = some w ∧
        env.close w (t ++ closes ((m :: db.replicas).take (n - 1))) = e) ∧
      (n < (m :: db.replicas).length → e ≠ none) ∧
      (∀ k w, k < (m :: db.replicas).length → (m :: db.replicas)[k]? = some w →
        env.close w (t ++ closes ((m :: db.replicas).take k)) ≠ none →
        (∀ i v, i < k → (m :: db.replicas)[i]? = some v →
          env.close v (t ++ closes ((m :: db.replicas).take i)) = none) → n = k + 1) ∧
      (n = (m :: db.replicas).length ↔
        ∀ i w, i + 1 < (m :: db.replicas).length → (m :: db.replicas)[i]? = some w →
          env.close w (t ++ closes ((m :: db.replicas).take i)) = none) := by
  obtain ⟨n, hn, htr, hpre, hnil, herr⟩ := closeReplicas_spec env (m :: db.replicas) t
  have hlast : 1 ≤ n ∧ ∃ w, (m :: db.replicas)[n - 1]? = some w ∧
      env.close w (t ++ closes ((m :: db.replicas).take (n - 1))) =
        (closeReplicas env (m :: db.replicas) t).1 := by
    cases he : (closeReplicas env (m :: db.replicas) t).1 with
    | some e =>
      obtain ⟨w, hpos, hw, hclose⟩ := herr e he
      exact ⟨hpos, w, hw, hclose⟩
    | none =>
      obtain ⟨hlen, hall⟩ := hnil he
      have hpos : 1 ≤ n := by rw [hlen]; simp
      have hidx : n - 1 < (m :: db.replicas).length := by omega
      exact ⟨hpos, (m :: db.replicas)[n - 1], List.getElem?_eq_getElem hidx,
        hall _ _ (List.getElem?_eq_getElem hidx)⟩
  have hpos : 1 ≤ n := hlast.1
  have hshort : n < (m :: db.replicas).length →
      (closeReplicas env (m :: db.replicas) t).1 ≠ none := by
    intro hlt he
    have := (hnil he).1
    omega
  refine ⟨n, (closeReplicas env (m :: db.replicas) t).1, hpos, hn, ?_, hpre, hlast.2, hshort,
    ?_, ?_, ?_⟩
  · rw [Close_eq_loop env db m t hm, htr]
  · intro k w hk hw hfail hbefore
    obtain ⟨v, hv, hclose⟩ := hlast.2
    rcases Nat.lt_trichotomy n (k + 1) with h | h | h
    · exfalso
      have hlt : n < (m :: db.replicas).length := by omega
      apply hshort hlt
      rw [← hclose]
      exact hbefore (n - 1) v (by omega) hv
    · exact h
    · exact absurd (hpre k w (by omega) hw) hfail
  · intro hlen i w hi hw
    exact hpre i w (by omega) hw
  · intro hall
    by_contra hne
    have hlt : n < (m :: db.replicas).length := by omega
    obtain ⟨w, hw, hclose⟩ := hlast.2
    apply hshort hlt
    rw [← hclose]
    exact hall (n - 1) w (by omega) hw

/-- Sample run for C11 as amended: closing wrapper 2 fails, so n = 3 of the
four wrappers are closed and the error is returned. -/
theorem Close_calls_until_first_error_witness :
    dbThree.master = some 0 ∧
    ∃ n e, 1 ≤ n ∧ n ≤ (0 :: dbThree.replicas).length ∧
      DB.Close envSample dbThree ([] : Trace Nat Nat) =
        some (e, dbThree, [] ++ closes ((0 :: dbThree.replicas).take n)) ∧
      (∀ i w, i + 1 < n → (0 :: dbThree.replicas)[i]? = some w →
        envSample.close w ([] ++ closes ((0 :: dbThree.replicas).take i)) = none) ∧
      (∃ w, (0 :: dbThree.replicas)[n - 1]? = some w ∧
        envSample.close w ([] ++ closes ((0 :: dbThree.replicas).take (n - 1))) = e) ∧
      (n < (0 :: dbThree.replicas).length → e ≠ none) ∧
      (∀ k w, k < (0 :: dbThree.replicas).length → (0 :: dbThree.replicas)[k]? = some w →
        envSample.close w ([] ++ closes ((0 :: dbThree.replicas).take k)) ≠ none →
        (∀ i v, i < k → (0 :: dbThree.replicas)[i]? = some v →
          envSample.close v ([] ++ closes ((0 :: dbThree.replicas).take i)) = none) → n = k + 1) ∧
      (n = (0 :: dbThree.replicas).length ↔
        ∀ i w, i + 1 < (0 :: dbThree.replicas).length → (0 :: dbThree.replicas)[i]? = some w →
          envSample.close w ([] ++ closes ((0 :: dbThree.replicas).take i)) = none) :=
  ⟨rfl, Close_calls_until_first_error envSample dbThree 0 [] rfl⟩

/-! ## Theorems: schema defaults -/

/-- C20: `defaultConfig` sets an empty `SchemaSearchPath` to "public" and an
empty `SchemaMigrationsTable` to "schema_migrations", and leaves a non-empty
value of either field unchanged. -/
theorem defaultConfig_schema (c : Config) :
    (c.SchemaSearchPath = "" → (defaultConfig c).SchemaSearchPath = "public") ∧
    (c.SchemaSearchPath ≠ "" → (defaultConfig c).SchemaSearchPath = c.SchemaSearchPath) ∧
    (c.SchemaMigrationsTable = "" →
      (defaultConfig c).SchemaMigrationsTable = "schema_migrations") ∧
    (c.SchemaMigrationsTable ≠ "" →
      (defaultConfig c).SchemaMigrationsTable = c.SchemaMigrationsTable) := by
  rw [defaultConfig_eq]
  refine ⟨fun h => ?_, fun h => ?_, fun h => ?_, fun h => ?_⟩
  · simp [h]
  · simp [h]
  · simp [h]
  · simp [h]

/-- Sample run for C20: a search path `tenant` is kept and the omitted
migrations table becomes `schema_migrations`. -/
theorem defaultConfig_schema_witness :
    (defaultConfig cfgTenant).SchemaSearchPath = "tenant" ∧
    (defaultConfig cfgTenant).SchemaMigrationsTable = "schema_migrations" :=
  ⟨(defaultConfig_schema cfgTenant).2.1 (by decide),
    (defaultConfig_schema cfgTenant).2.2.1 (by decide)⟩

/-! ## Theorems: Connect and Open -/

/-- A wrapper returned by `newDBWithLogger` is for the `uri` given to it. -/
theorem newDBWithLogger_uri (env : ConnEnv) (driverName uri : String) (config : Config)
    (driver : String) (t t1 : List ConnStep) (w : Wrapper)
    (h : newDBWithLogger env driverName uri config driver t = (Except.ok w, t1)) :
    w.uri = uri := by
  unfold newDBWithLogger at h
  split_ifs at h with h1
  · cases h
  · simp only [] at h
    split at h
    · simp at h
    · simp only [Prod.mk.injEq, Except.ok.injEq] at h
      rw [← h.1]

/-- When the replica loop of `Connect` and `Open` ends without error, it has
added one wrapper for each replica URI, each of them for the master URI of the
configuration, and has changed nothing else in the client. -/
theorem connectReplicas_spec (env : ConnEnv)
    (dial : String → String → List ConnStep → Option String)
    (step : String → String → ConnStep) (driverName : String) :
    ∀ (uris : List String) (db : DB Wrapper) (t : List ConnStep),
      (connectReplicas env dial step driverName uris db t).1 = none →
      ∃ added : List Wrapper,
        (connectReplicas env dial step driverName uris db t).2.1 =
          { db with replicas := db.replicas ++ added } ∧
        added.length = uris.length ∧ ∀ w ∈ added, w.uri = db.config.URI := by
  intro uris
  induction uris with
  | nil =>
    intro db t _
    exact ⟨[], by simp [connectReplicas], rfl, by simp⟩
  | cons uri rest ih =>
    intro db t h
    rw [connectReplicas] at h ⊢
    cases hd : dial driverName uri t with
    | some msg => simp [hd] at h
    | none =>
      simp only [hd] at h ⊢
      cases hw : newDBWithLogger env driverName db.config.URI db.config driverName
          (t ++ [step driverName uri]) with
      | mk res t1 =>
        cases res with
        | error e => simp [hw] at h
        | ok w =>
          simp only [hw] at h ⊢
          obtain ⟨added, hdb, hlen, hall⟩ :=
            ih { db with replicas := db.replicas ++ [w] } t1 h
          refine ⟨w :: added, ?_, by simp [hlen], ?_⟩
          · rw [hdb]
            simp
          · intro x hx
            rcases List.mem_cons.mp hx with rfl | hx
            · exact newDBWithLogger_uri env _ _ _ _ _ _ _ hw
            · exact hall x hx

/-- When `Connect` or `Open` ends without error, the client has a master
wrapper for the master URI and, after the replicas it had before, one more
wrapper for each replica URI, each of them for the master URI. -/
theorem connectWith_spec (env : ConnEnv)
    (dial : String → String → List ConnStep → Option String)
    (step : String → String → ConnStep) (db : DB Wrapper) (t : List ConnStep)
    (h : (DB.connectWith env dial step db t).1 = none) :
    ∃ (m : Wrapper) (added : List Wrapper),
      (DB.connectWith env dial step db t).2.1 =
        { db with master := some m, replicas := db.replicas ++ added } ∧
      m.uri = db.config.URI ∧ added.length = db.config.ReplicaURIs.length ∧
      ∀ w ∈ added, w.uri = db.config.URI := by
  unfold DB.connectWith at h ⊢
  simp only [] at h ⊢
  cases hr : env.otelRegister db.config.DriverName (dbSystemOf db.config.DriverName) t with
  | error msg => simp [hr] at h
  | ok driverName =>
    simp only [hr] at h ⊢
    cases hd : dial driverName db.config.URI
        (t ++ [ConnStep.register db.config.DriverName (dbSystemOf db.config.DriverName)]) with
    | some msg => simp [hd] at h
    | none =>
      simp only [hd] at h ⊢
      cases hw : newDBWithLogger env driverName db.config.URI db.config driverName
          (t ++ [ConnStep.register db.config.DriverName (dbSystemOf db.config.DriverName),
            step driverName db.config.URI]) with
      | mk res t1 =>
        cases res with
        | error e => simp [hw] at h
        | ok m =>
          simp only [hw] at h ⊢
          obtain ⟨added, hdb, hlen, hall⟩ := connectReplicas_spec env dial step driverName
            db.config.ReplicaURIs { db with master := some m } t1 h
          exact ⟨m, added, hdb, newDBWithLogger_uri env _ _ _ _ _ _ _ hw, hlen, hall⟩

/-- C12 on the code: with master URI `master` and replica URIs `replica1` and
`replica2`, a successful `Connect` (and likewise `Open`) on a fresh client
stores two replica wrappers, but each of them is built by `newDBWithLogger`
over `db.Config().URI` and so is opened against `master`; a replica URI is
given to `sqlx.Connect` (`sqlx.Open`) only. -/
theorem Connect_replica_wrappers_use_master_uri :
    (NewDB cfgReplicas : DB Wrapper).config.URI = "master" ∧
    (NewDB cfgReplicas : DB Wrapper).config.ReplicaURIs = ["replica1", "replica2"] ∧
    DB.Connect connOk (NewDB cfgReplicas) [] =
      (none,
        { (NewDB cfgReplicas : DB Wrapper) with
          master := some (wrapperFor "master")
          replicas := [wrapperFor "master", wrapperFor "master"] },
        [ConnStep.register "postgres" "postgresql",
          ConnStep.sqlxConnect "otel-postgres" "master", ConnStep.ping (wrapperFor "master"),
          ConnStep.sqlxConnect "otel-postgres" "replica1", ConnStep.ping (wrapperFor "master"),
          ConnStep.sqlxConnect "otel-postgres" "replica2", ConnStep.ping (wrapperFor "master")]) ∧
    (DB.Connect connOk (NewDB cfgReplicas) []).2.1.replicas.map Wrapper.uri = ["master", "master"] ∧
    (DB.Open connOk (NewDB cfgReplicas) []).1 = none ∧
    (DB.Open connOk (NewDB cfgReplicas) []).2.1.replicas.map Wrapper.uri = ["master", "master"] := by
  refine ⟨rfl, rfl, rfl, rfl, rfl, rfl⟩

/-- The URIs dialled by a list of attempts that starts with a ping are those
of the rest. -/
theorem dialedURIs_ping (w : Wrapper) (l : List ConnStep) :
    dialedURIs (ConnStep.ping w :: l) = dialedURIs l := by
  simp [dialedURIs, ConnStep.dialed]

/-- The URIs dialled by a list of attempts that starts with a dial of `u` are
`u` and those of the rest. -/
theorem dialedURIs_dial (s : ConnStep) (u : String) (l : List ConnStep)
    (h : ConnStep.dialed s = some u) : dialedURIs (s :: l) = u :: dialedURIs l := by
  simp [dialedURIs, h]

/-- When `newDBWithLogger` returns a wrapper, the wrapper is for `uri`, its
ping was the one attempt made, and the ping succeeded. -/
theorem newDBWithLogger_ok (env : ConnEnv) (driverName uri : String) (config : Config)
    (driver : String) (t t1 : List ConnStep) (w : Wrapper)
    (h : newDBWithLogger env driverName uri config driver t = (Except.ok w, t1)) :
    w.uri = uri ∧ t1 = t ++ [ConnStep.ping w] ∧ env.ping w t = none := by
  unfold newDBWithLogger at h
  split_ifs at h with h1
  · cases h
  · simp only [] at h
    split at h
    · simp at h
    · rename_i hp
      simp only [Prod.mk.injEq, Except.ok.injEq] at h
      obtain ⟨hw, ht⟩ := h
      subst hw
      exact ⟨rfl, ht.symm, hp⟩

/-- When `newDBWithLogger` fails, either `sqlx.NewDb` returned nil and no
attempt was made, or the ping of the wrapper for `uri` was the one attempt made
and failed; the error names `uri`. -/
theorem newDBWithLogger_error (env : ConnEnv) (driverName uri : String) (config : Config)
    (driver : String) (t t1 : List ConnStep) (e : GoError)
    (h : newDBWithLogger env driverName uri config driver t = (Except.error e, t1)) :
    (env.newDbNil driverName uri t = true ∧ t1 = t ∧
      e = GoError.new ("unable to create sqlx.DB with logger for '" ++ uri ++ "'")) ∨
    (∃ w msg, w.uri = uri ∧ t1 = t ++ [ConnStep.ping w] ∧ env.ping w t = some msg ∧
      e = GoError.new ("unable to ping '" ++ uri ++ "', error: " ++ msg)) := by
  unfold newDBWithLogger at h
  split_ifs at h with h1
  · simp only [Prod.mk.injEq, Except.error.injEq] at h
    exact Or.inl ⟨h1, h.2.symm, h.1.symm⟩
  · simp only [] at h
    split at h
    · rename_i msg hp
      simp only [Prod.mk.injEq, Except.error.injEq] at h
      exact Or.inr ⟨_, msg, rfl, h.2.symm, hp, h.1.symm⟩
    · simp at h

/-- When the replica loop of `Connect` and `Open` ends with an error, the
attempts it made dial the first k + 1 replica URIs, in order; every attempt
but the last succeeded; and the error comes from the last one: the dial of
the replica URI k, named in the message, or the ping of the wrapper built
after it, a wrapper for the master URI, named in the message, or a nil
`sqlx.NewDb`. -/
theorem connectReplicas_error (env : ConnEnv)
    (dial : String → String → List ConnStep → Option String)
    (step : String → String → ConnStep) (driverName : String)
    (hstep : ∀ d u, ConnStep.dialed (step d u) = some u)
    (hfail : ∀ d u pre, env.failed pre (step d u) = (dial d u pre).isSome) :
    ∀ (uris : List String) (db : DB Wrapper) (t : List ConnStep) (err : GoError),
      (connectReplicas env dial step driverName uris db t).1 = some err →
      ∃ (k : Nat) (uri : String) (steps : List ConnStep),
        uris[k]? = some uri ∧
        (connectReplicas env dial step driverName uris db t).2.2 = t ++ steps ∧
        dialedURIs steps = uris.take (k + 1) ∧
        (∀ i s, i + 1 < steps.length → steps[i]? = some s →
          env.failed (t ++ steps.take i) s = false) ∧
        ((∃ pre msg, t ++ steps = pre ++ [step driverName uri] ∧
            dial driverName uri pre = some msg ∧
            err = GoError.new ("unable to connect to '" ++ uri ++ "', error: " ++ msg)) ∨
          (∃ w pre msg, t ++ steps = pre ++ [ConnStep.ping w] ∧ env.ping w pre = some msg ∧
            w.uri = db.config.URI ∧
            err = GoError.new ("unable to ping '" ++ w.uri ++ "', error: " ++ msg)) ∨
          (env.newDbNil driverName db.config.URI (t ++ steps) = true ∧
            err = GoError.new
              ("unable to create sqlx.DB with logger for '" ++ db.config.URI ++ "'"))) := by
  intro uris
  induction uris with
  | nil =>
    intro db t err h
    simp [connectReplicas] at h
  | cons uri rest ih =>
    intro db t err h
    rw [connectReplicas] at h ⊢
    cases hd : dial driverName uri t with
    | some msg =>
      simp only [hd, Option.some.injEq] at h ⊢
      refine ⟨0, uri, [step driverName uri], by simp, rfl, ?_, ?_,
        Or.inl ⟨t, msg, rfl, hd, h.symm⟩⟩
      · rw [dialedURIs_dial _ uri _ (hstep _ _)]; simp [dialedURIs]
      · intro i s hi
        simp at hi
    | none =>
      simp only [hd] at h ⊢
      have hdial : env.failed t (step driverName uri) = false := by
        rw [hfail, hd]; rfl
      cases hw : newDBWithLogger env driverName db.config.URI db.config driverName
          (t ++ [step driverName uri]) with
      | mk res t1 =>
        cases res with
        | error e =>
          simp only [hw, Option.some.injEq] at h ⊢
          subst h
          rcases newDBWithLogger_error env _ _ _ _ _ _ _ hw with
            ⟨hnil, ht1, he⟩ | ⟨w, msg, hwuri, ht1, hp, he⟩
          · refine ⟨0, uri, [step driverName uri], by simp, ht1, ?_, ?_, Or.inr (Or.inr ⟨hnil, he⟩)⟩
            · rw [dialedURIs_dial _ uri _ (hstep _ _)]; simp [dialedURIs]
            · intro i s hi
              simp at hi
          · refine ⟨0, uri, [step driverName uri, ConnStep.ping w], by simp, ?_, ?_, ?_,
              Or.inr (Or.inl ⟨w, t ++ [step driverName uri], msg, ?_, hp, hwuri, ?_⟩)⟩
            · rw [ht1]; simp
            · rw [dialedURIs_dial _ _ _ (hstep _ _), dialedURIs_ping]; simp [dialedURIs]
            · intro i s hi hs
              have hi0 : i = 0 := by simp at hi; omega
              subst hi0
              simp only [List.getElem?_cons_zero, Option.some.injEq] at hs
              subst hs
              simpa using hdial
            · simp
            · rw [he, hwuri]
        | ok w =>
          simp only [hw] at h ⊢
          obtain ⟨hwuri, ht1, hp⟩ := newDBWithLogger_ok env _ _ _ _ _ _ _ hw
          obtain ⟨k, u, steps, hk, htr, hdialed, hpre, hlast⟩ :=
            ih { db with replicas := db.replicas ++ [w] } t1 err h
          have happ : t1 ++ steps = t ++ (step driverName uri :: ConnStep.ping w :: steps) := by
            rw [ht1]; simp
          refine ⟨k + 1, u, step driverName uri :: ConnStep.ping w :: steps, ?_, ?_, ?_, ?_, ?_⟩
          · simpa using hk
          · rw [htr, happ]
          · rw [dialedURIs_dial _ _ _ (hstep _ _), dialedURIs_ping, hdialed]
            simp
          · intro i s hi hs
            match i, hi, hs with
            | 0, _, hs =>
              simp only [List.getElem?_cons_zero, Option.some.injEq] at hs
              subst hs
              simpa using hdial
            | 1, _, hs =>
              simp only [List.getElem?_cons_succ, List.getElem?_cons_zero,
                Option.some.injEq] at hs
              subst hs
              simpa [ConnEnv.failed] using hp
            | j + 2, hi, hs =>
              simp only [List.getElem?_cons_succ] at hs
              have := hpre j s (by simp at hi; omega) hs
              rw [ht1] at this
              simpa using this
          · rw [← happ]
            exact hlast

/-- When `Connect` or `Open` ends with an error, either the registration of
the driver failed, or the attempts made after it dial the first k + 1 of the
master URI followed by the replica URIs, in order; every attempt but the last
succeeded; and the error comes from the last one and names its URI. -/
theorem connectWith_error (env : ConnEnv)
    (dial : String → String → List ConnStep → Option String)
    (step : String → String → ConnStep)
    (hstep : ∀ d u, ConnStep.dialed (step d u) = some u)
    (hfail : ∀ d u pre, env.failed pre (step d u) = (dial d u pre).isSome)
    (db : DB Wrapper) (t : List ConnStep) (err : GoError)
    (h : (DB.connectWith env dial step db t).1 = some err) :
    (∃ msg, env.otelRegister db.config.DriverName (dbSystemOf db.config.DriverName) t =
          Except.error msg ∧ err = GoError.external msg ∧
        (DB.connectWith env dial step db t).2.2 =
          t ++ [ConnStep.register db.config.DriverName (dbSystemOf db.config.DriverName)]) ∨
    ∃ (d : String) (k : Nat) (uri : String) (steps : List ConnStep),
      env.otelRegister db.config.DriverName (dbSystemOf db.config.DriverName) t = Except.ok d ∧
      (db.config.URI :: db.config.ReplicaURIs)[k]? = some uri ∧
      (DB.connectWith env dial step db t).2.2 =
        t ++ ConnStep.register db.config.DriverName (dbSystemOf db.config.DriverName) :: steps ∧
      dialedURIs steps = (db.config.URI :: db.config.ReplicaURIs).take (k + 1) ∧
      (∀ i s, i + 1 < steps.length → steps[i]? = some s →
        env.failed (t ++ ConnStep.register db.config.DriverName
          (dbSystemOf db.config.DriverName) :: steps.take i) s = false) ∧
      ((∃ pre msg, (DB.connectWith env dial step db t).2.2 = pre ++ [step d uri] ∧
          dial d uri pre = some msg ∧
          err = GoError.new ("unable to connect to '" ++ uri ++ "', error: " ++ msg)) ∨
        (∃ w pre msg, (DB.connectWith env dial step db t).2.2 = pre ++ [ConnStep.ping w] ∧
          env.ping w pre = some msg ∧ w.uri = db.config.URI ∧
          err = GoError.new ("unable to ping '" ++ w.uri ++ "', error: " ++ msg)) ∨
        (env.newDbNil d db.config.URI (DB.connectWith env dial step db t).2.2 = true ∧
          err = GoError.new
            ("unable to create sqlx.DB with logger for '" ++ db.config.URI ++ "'"))) := by
  unfold DB.connectWith at h ⊢
  simp only [] at h ⊢
  cases hr : env.otelRegister db.config.DriverName (dbSystemOf db.config.DriverName) t with
  | error msg =>
    simp only [hr, Option.some.injEq] at h ⊢
    exact Or.inl ⟨msg, rfl, h.symm, trivial⟩
  | ok driverName =>
    simp only [hr] at h ⊢
    right
    cases hd : dial driverName db.config.URI
        (t ++ [ConnStep.register db.config.DriverName (dbSystemOf db.config.DriverName)]) with
    | some msg =>
      simp only [hd, Option.some.injEq] at h ⊢
      refine ⟨driverName, 0, db.config.URI, [step driverName db.config.URI], rfl, by simp, ?_, ?_,
        ?_, Or.inl ⟨_, msg, ?_, hd, h.symm⟩⟩
      · simp
      · rw [dialedURIs_dial _ _ _ (hstep _ _)]; simp [dialedURIs]
      · intro i s hi
        simp at hi
      · simp
    | none =>
      simp only [hd] at h ⊢
      have hdial : env.failed
          (t ++ [ConnStep.register db.config.DriverName (dbSystemOf db.config.DriverName)])
          (step driverName db.config.URI) = false := by
        rw [hfail, hd]; rfl
      cases hw : newDBWithLogger env driverName db.config.URI db.config driverName
          (t ++ [ConnStep.register db.config.DriverName (dbSystemOf db.config.DriverName),
            step driverName db.config.URI]) with
      | mk res t1 =>
        cases res with
        | error e =>
          simp only [hw, Option.some.injEq] at h ⊢
          subst h
          rcases newDBWithLogger_error env _ _ _ _ _ _ _ hw with
            ⟨hnil, ht1, he⟩ | ⟨w, msg, hwuri, ht1, hp, he⟩
          · refine ⟨driverName, 0, db.config.URI, [step driverName db.config.URI], rfl, by simp,
              ?_, ?_, ?_, Or.inr (Or.inr ⟨?_, he⟩)⟩
            · rw [ht1]
            · rw [dialedURIs_dial _ _ _ (hstep _ _)]; simp [dialedURIs]
            · intro i s hi
              simp at hi
            · rw [ht1]; exact hnil
          · refine ⟨driverName, 0, db.config.URI,
              [step driverName db.config.URI, ConnStep.ping w], rfl, by simp, ?_, ?_, ?_,
              Or.inr (Or.inl ⟨w, _, msg, ht1, hp, hwuri, ?_⟩)⟩
            · rw [ht1]; simp
            · rw [dialedURIs_dial _ _ _ (hstep _ _), dialedURIs_ping]; simp [dialedURIs]
            · intro i s hi hs
              have hi0 : i = 0 := by simp at hi; omega
              subst hi0
              simp only [List.getElem?_cons_zero, Option.some.injEq] at hs
              subst hs
              simpa using hdial
            · rw [he, hwuri]
        | ok m =>
          simp only [hw] at h ⊢
          obtain ⟨hwuri, ht1, hp⟩ := newDBWithLogger_ok env _ _ _ _ _ _ _ hw
          obtain ⟨k, u, steps, hk, htr, hdialed, hpre, hlast⟩ :=
            connectReplicas_error env dial step driverName hstep hfail db.config.ReplicaURIs
              { db with master := some m } t1 err h
          have happ : t1 ++ steps =
              t ++ ConnStep.register db.config.DriverName (dbSystemOf db.config.DriverName) ::
                (step driverName db.config.URI :: ConnStep.ping m :: steps) := by
            rw [ht1]; simp
          refine ⟨driverName, k + 1, u, step driverName db.config.URI :: ConnStep.ping m :: steps,
            rfl, ?_, ?_, ?_, ?_, ?_⟩
          · simpa using hk
          · rw [htr, happ]
          · rw [dialedURIs_dial _ _ _ (hstep _ _), dialedURIs_ping, hdialed]
            simp
          · intro i s hi hs
            match i, hi, hs with
            | 0, _, hs =>
              simp only [List.getElem?_cons_zero, Option.some.injEq] at hs
              subst hs
              simpa using hdial
            | 1, _, hs =>
              simp only [List.getElem?_cons_succ, List.getElem?_cons_zero,
                Option.some.injEq] at hs
              subst hs
              simpa [ConnEnv.failed] using hp
            | j + 2, hi, hs =>
              simp only [List.getElem?_cons_succ] at hs
              have := hpre j s (by simp at hi; omega) hs
              rw [ht1] at this
              simpa using this
          · rw [htr]
            exact hlast

/-- C13: whenever `Connect` returns an error, either the registration of the
driver failed, before any URI was tried, or the attempts made after it have
dialled the first k + 1 of the master URI followed by the replica URIs, in
order, and no later URI; every attempt but the last succeeded; and the error
comes from the last attempt made and names its URI: a failed `sqlx.Connect`
to the URI k, with the message "unable to connect to '<that URI>', error:
...", or a failed ping of the wrapper built after it, with the message "unable
to ping '<the URI of that wrapper>', error: ...", or a nil `sqlx.NewDb` for
the master URI. The wrapper pinged is always one for the master URI, also in
the replica loop. -/
theorem Connect_error_names_failing_uri (env : ConnEnv) (db : DB Wrapper) (t : List ConnStep)
    (err : GoError) (h : (DB.Connect env db t).1 = some err) :
    (∃ msg, env.otelRegister db.config.DriverName (dbSystemOf db.config.DriverName) t =
          Except.error msg ∧ err = GoError.external msg ∧
        (DB.Connect env db t).2.2 =
          t ++ [ConnStep.register db.config.DriverName (dbSystemOf db.config.DriverName)]) ∨
    ∃ (d : String) (k : Nat) (uri : String) (steps : List ConnStep),
      env.otelRegister db.config.DriverName (dbSystemOf db.config.DriverName) t = Except.ok d ∧
      (db.config.URI :: db.config.ReplicaURIs)[k]? = some uri ∧
      (DB.Connect env db t).2.2 =
        t ++ ConnStep.register db.config.DriverName (dbSystemOf db.config.DriverName) :: steps ∧
      dialedURIs steps = (db.config.URI :: db.config.ReplicaURIs).take (k + 1) ∧
      (∀ i s, i + 1 < steps.length → steps[i]? = some s →
        env.failed (t ++ ConnStep.register db.config.DriverName
          (dbSystemOf db.config.DriverName) :: steps.take i) s = false) ∧
      ((∃ pre msg, (DB.Connect env db t).2.2 = pre ++ [ConnStep.sqlxConnect d uri] ∧
          env.sqlxConnect d uri pre = some msg ∧
          err = GoError.new ("unable to connect to '" ++ uri ++ "', error: " ++ msg)) ∨
        (∃ w pre msg, (DB.Connect env db t).2.2 = pre ++ [ConnStep.ping w] ∧
          env.ping w pre = some msg ∧ w.uri = db.config.URI ∧
          err = GoError.new ("unable to ping '" ++ w.uri ++ "', error: " ++ msg)) ∨
        (env.newDbNil d db.config.URI (DB.Connect env db t).2.2 = true ∧
          err = GoError.new
            ("unable to create sqlx.DB with logger for '" ++ db.config.URI ++ "'"))) :=
  connectWith_error env env.sqlxConnect ConnStep.sqlxConnect (fun _ _ => rfl)
    (fun _ _ _ => rfl) db t err h

/-- Sample runs for C13, with master URI `master` and replica URIs `replica1`
and `replica2`. When `sqlx.Connect` cannot reach `replica1`, the error names
`replica1` and `replica2` is never dialled. When the ping made after the dial
of `replica1` fails, the error names `master`, the URI of the wrapper pinged,
and `replica2` is never dialled. -/
theorem Connect_error_names_failing_uri_witness :
    DB.Connect connReplicaDialFails (NewDB cfgReplicas) [] =
      (some (GoError.new "unable to connect to 'replica1', error: no route to host"),
        { (NewDB cfgReplicas : DB Wrapper) with master := some (wrapperFor "master") },
        [ConnStep.register "postgres" "postgresql",
          ConnStep.sqlxConnect "otel-postgres" "master", ConnStep.ping (wrapperFor "master"),
          ConnStep.sqlxConnect "otel-postgres" "replica1"]) ∧
    DB.Connect connReplicaPingFails (NewDB cfgReplicas) [] =
      (some (GoError.new "unable to ping 'master', error: connection refused"),
        { (NewDB cfgReplicas : DB Wrapper) with master := some (wrapperFor "master") },
        [ConnStep.register "postgres" "postgresql",
          ConnStep.sqlxConnect "otel-postgres" "master", ConnStep.ping (wrapperFor "master"),
          ConnStep.sqlxConnect "otel-postgres" "replica1",
          ConnStep.ping (wrapperFor "master")]) ∧
    ((∃ msg, connReplicaDialFails.otelRegister (NewDB cfgReplicas : DB Wrapper).config.DriverName
          (dbSystemOf (NewDB cfgReplicas : DB Wrapper).config.DriverName) [] =
            Except.error msg ∧
        GoError.new "unable to connect to 'replica1', error: no route to host" =
          GoError.external msg ∧
        (DB.Connect connReplicaDialFails (NewDB cfgReplicas) []).2.2 =
          [] ++ [ConnStep.register (NewDB cfgReplicas : DB Wrapper).config.DriverName
            (dbSystemOf (NewDB cfgReplicas : DB Wrapper).config.DriverName)]) ∨
    ∃ (d : String) (k : Nat) (uri : String) (steps : List ConnStep),
      connReplicaDialFails.otelRegister (NewDB cfgReplicas : DB Wrapper).config.DriverName
        (dbSystemOf (NewDB cfgReplicas : DB Wrapper).config.DriverName) [] = Except.ok d ∧
      ((NewDB cfgReplicas : DB Wrapper).config.URI ::
        (NewDB cfgReplicas : DB Wrapper).config.ReplicaURIs)[k]? = some uri ∧
      (DB.Connect connReplicaDialFails (NewDB cfgReplicas) []).2.2 =
        [] ++ ConnStep.register (NewDB cfgReplicas : DB Wrapper).config.DriverName
          (dbSystemOf (NewDB cfgReplicas : DB Wrapper).config.DriverName) :: steps ∧
      dialedURIs steps = ((NewDB cfgReplicas : DB Wrapper).config.URI ::
        (NewDB cfgReplicas : DB Wrapper).config.ReplicaURIs).take (k + 1) ∧
      (∀ i s, i + 1 < steps.length → steps[i]? = some s →
        connReplicaDialFails.failed
          ([] ++ ConnStep.register (NewDB cfgReplicas : DB Wrapper).config.DriverName
            (dbSystemOf (NewDB cfgReplicas : DB Wrapper).config.DriverName) :: steps.take i)
          s = false) ∧
      ((∃ pre msg, (DB.Connect connReplicaDialFails (NewDB cfgReplicas) []).2.2 =
            pre ++ [ConnStep.sqlxConnect d uri] ∧
          connReplicaDialFails.sqlxConnect d uri pre = some msg ∧
          GoError.new "unable to connect to 'replica1', error: no route to host" =
            GoError.new ("unable to connect to '" ++ uri ++ "', error: " ++ msg)) ∨
        (∃ w pre msg, (DB.Connect connReplicaDialFails (NewDB cfgReplicas) []).2.2 =
            pre ++ [ConnStep.ping w] ∧
          connReplicaDialFails.ping w pre = some msg ∧
          w.uri = (NewDB cfgReplicas : DB Wrapper).config.URI ∧
          GoError.new "unable to connect to 'replica1', error: no route to host" =
            GoError.new ("unable to ping '" ++ w.uri ++ "', error: " ++ msg)) ∨
        (connReplicaDialFails.newDbNil d (NewDB cfgReplicas : DB Wrapper).config.URI
            (DB.Connect connReplicaDialFails (NewDB cfgReplicas) []).2.2 = true ∧
          GoError.new "unable to connect to 'replica1', error: no route to host" =
            GoError.new ("unable to create sqlx.DB with logger for '" ++
              (NewDB cfgReplicas : DB Wrapper).config.URI ++ "'")))) :=
  ⟨rfl, rfl,
    Connect_error_names_failing_uri connReplicaDialFails (NewDB cfgReplicas) []
      (GoError.new "unable to connect to 'replica1', error: no route to host") rfl⟩

/-! ## Theorems: SeedDB -/

/-- C19 on the code: with seed files `a.sql` and `b.sql`, where the statements
of `a.sql` fail, `SeedDB` goes on to execute `b.sql` and returns nil. -/
theorem SeedDB_ignores_exec_error :
    envExecFails.call 0 Method.Exec "INSERT bad" [] = some "relation does not exist" ∧
    Migrate.SeedDB envExecFails osTwoSeeds joinSlash migrateSample [] =
      some (none, dbNoReplica,
        [Event.call 0 Method.Exec "INSERT bad", Event.call 0 Method.Exec "INSERT 2"]) := by
  refine ⟨rfl, rfl⟩

/-! ## Theorems: strings and numbers -/

/-- The pieces of a split are never none at all. -/
theorem splitChars_ne_nil (sep : Char) (l : List Char) : splitChars sep l ≠ [] := by
  cases l with
  | nil => simp [splitChars]
  | cons c cs =>
    by_cases h : c = sep
    · simp [splitChars, h]
    · cases hs : splitChars sep cs <;> simp [splitChars, h, hs]

/-- The first piece of a split is the text before the first separator. -/
theorem splitChars_headD (sep : Char) (l : List Char) :
    (splitChars sep l).headD [] = l.takeWhile (fun c => c != sep) := by
  induction l with
  | nil => simp [splitChars]
  | cons c cs ih =>
    by_cases h : c = sep
    · simp [splitChars, h]
    · cases hs : splitChars sep cs with
      | nil => exact absurd hs (splitChars_ne_nil sep cs)
      | cons piece pieces =>
        rw [hs] at ih
        simp only [List.headD_cons] at ih
        simp [splitChars, h, hs, ih]

/-- A split has more than one piece exactly when the separator occurs. -/
theorem splitChars_length (sep : Char) (l : List Char) :
    1 < (splitChars sep l).length ↔ sep ∈ l := by
  induction l with
  | nil => simp [splitChars]
  | cons c cs ih =>
    by_cases h : c = sep
    · have hne := splitChars_ne_nil sep cs
      have hpos : 0 < (splitChars sep cs).length := List.length_pos.mpr hne
      simp only [splitChars, h, if_true, List.length_cons, List.mem_cons, true_or, iff_true]
      omega
    · have hne : ¬ sep = c := fun e => h e.symm
      cases hs : splitChars sep cs with
      | nil => exact absurd hs (splitChars_ne_nil sep cs)
      | cons piece pieces =>
        rw [hs] at ih
        simp only [splitChars, h, if_false, hs, List.length_cons, List.mem_cons, hne, false_or]
        simpa using ih

/-- The element `splits[0]` of `MigrateStatus` is the version segment. -/
theorem Split_head (fn : String) : (Split fn '_').headD "" = versionSegment fn := by
  have h := splitChars_headD '_' fn.toList
  unfold Split versionSegment
  cases hs : splitChars '_' fn.toList with
  | nil => exact absurd hs (splitChars_ne_nil _ _)
  | cons piece pieces =>
    rw [hs] at h
    simp only [List.headD_cons] at h
    simp [h]

/-- The test `len(splits) > 1` of `MigrateStatus` holds exactly when the name
contains a `_`. -/
theorem Split_length (fn : String) : (Split fn '_').length > 1 ↔ '_' ∈ fn.toList := by
  unfold Split
  rw [List.length_map]
  exact splitChars_length '_' fn.toList

/-- The function `Atoi` succeeds exactly on a numeric text whose value fits an
`int`, and returns that value. -/
theorem Atoi_ok_iff (s : String) (v : Int) :
    Atoi s = Except.ok v ↔
      isNumeral s = true ∧ -(2 : Int) ^ 63 ≤ signedValue (signAndDigits s.toList) ∧
        signedValue (signAndDigits s.toList) < (2 : Int) ^ 63 ∧
        v = signedValue (signAndDigits s.toList) := by
  unfold Atoi isNumeral
  simp only []
  split_ifs with h1 h2
  · constructor
    · intro h; cases h
    · rintro ⟨hd, _⟩
      rw [hd] at h1
      exact absurd h1 (by decide)
  · constructor
    · intro h; cases h
    · rintro ⟨_, h3, h4, _⟩
      rcases h2 with h2 | h2 <;> omega
  · have hd : isDigits (signAndDigits s.toList).2 = true := by
      cases hx : isDigits (signAndDigits s.toList).2 with
      | true => rfl
      | false => rw [hx] at h1; exact absurd rfl h1
    constructor
    · intro h
      have hv : signedValue (signAndDigits s.toList) = v := Except.ok.inj h
      exact ⟨hd, by omega, by omega, hv.symm⟩
    · rintro ⟨_, _, _, hv⟩
      rw [hv]

/-- An error of `Atoi` on anything else. -/
theorem Atoi_error_of_not_ok (s : String) (h : ∀ v, Atoi s ≠ Except.ok v) :
    ∃ err, Atoi s = Except.error err := by
  cases hs : Atoi s with
  | error err => exact ⟨err, rfl⟩
  | ok v => exact absurd hs (h v)

/-- A text that `Atoi` reads contains no `_`. -/
theorem Atoi_ok_no_sep (s : String) (v : Int) (h : Atoi s = Except.ok v) : '_' ∉ s.toList := by
  have hd : isDigits (signAndDigits s.toList).2 = true := ((Atoi_ok_iff s v).mp h).1
  intro hmem
  have hall : ∀ l : List Char, isDigits l = true → '_' ∉ l := by
    intro l hl hin
    unfold isDigits at hl
    simp only [Bool.and_eq_true, List.all_eq_true] at hl
    exact absurd (hl.2 _ hin) (by decide)
  cases hl : s.toList with
  | nil => rw [hl] at hmem; simp at hmem
  | cons c cs =>
    rw [hl] at hd hmem
    unfold signAndDigits at hd
    by_cases h1 : c = '-'
    · simp only [h1, if_true] at hd
      rcases List.mem_cons.mp hmem with e | e
      · rw [h1] at e; exact absurd e (by decide)
      · exact hall cs hd e
    · by_cases h2 : c = '+'
      · simp only [h1, h2, if_true, if_false] at hd
        rcases List.mem_cons.mp hmem with e | e
        · rw [h2] at e; exact absurd e (by decide)
        · exact hall cs hd e
      · simp only [h1, h2, if_false] at hd
        exact hall (c :: cs) hd hmem

/-- A suffix without the character `c` of a text `a ++ c :: r` lies within `r`. -/
theorem suffix_after_sep {c : Char} (s r : List Char) (hc : c ∉ s) :
    ∀ a : List Char, s <:+ a ++ c :: r → s <:+ r := by
  intro a
  induction a with
  | nil =>
    intro h
    rcases List.suffix_cons_iff.mp h with e | e
    · rw [e] at hc; simp at hc
    · exact e
  | cons x a ih =>
    intro h
    rcases List.suffix_cons_iff.mp h with e | e
    · rw [e] at hc; simp at hc
    · exact ih e

/-- The text before the first `c` of `a ++ c :: r`, when `c` is not in `a`. -/
theorem takeWhile_before_sep {c : Char} (r : List Char) :
    ∀ a : List Char, c ∉ a → (a ++ c :: r).takeWhile (fun x => x != c) = a := by
  intro a
  induction a with
  | nil => intro _; simp
  | cons x a ih =>
    intro h
    have hx : x ≠ c := fun e => h (by simp [e])
    have ha : c ∉ a := fun e => h (List.mem_cons_of_mem _ e)
    simp [hx, ih ha]

/-- A text in which `c` occurs is the text before its first `c`, then `c`,
then the rest. -/
theorem split_at_first {c : Char} :
    ∀ l : List Char, c ∈ l → ∃ r, l = l.takeWhile (fun x => x != c) ++ c :: r := by
  intro l
  induction l with
  | nil => intro h; simp at h
  | cons x l ih =>
    intro h
    by_cases hx : x = c
    · exact ⟨l, by simp [hx]⟩
    · have hl : c ∈ l := by
        rcases List.mem_cons.mp h with e | e
        · exact absurd e.symm hx
        · exact e
      obtain ⟨r, hr⟩ := ih hl
      refine ⟨r, ?_⟩
      have : (x != c) = true := by simp [hx]
      rw [List.takeWhile_cons, this]
      simp only [if_true, List.cons_append]
      rw [← hr]

/-- A name has the form `<version>_<name>.up.sql` with version `v` exactly when
it passes the tests of `MigrateStatus` and `Atoi` reads `v` from its version
segment. -/
theorem namedUp_iff (fn : String) (v : Int) :
    NamedUpMigration fn v ↔
      HasSuffix fn ".up.sql" = true ∧ '_' ∈ fn.toList ∧
        Atoi (versionSegment fn) = Except.ok v := by
  constructor
  · rintro ⟨ver, name, hfn, hv⟩
    have hno := Atoi_ok_no_sep ver v hv
    have hl : fn.toList = ver.toList ++ '_' :: (name.toList ++ ".up.sql".toList) := by
      rw [hfn]
      simp [String.toList]
    refine ⟨?_, ?_, ?_⟩
    · unfold HasSuffix
      rw [List.isSuffixOf_iff_suffix, hl]
      exact ⟨ver.toList ++ '_' :: name.toList, by simp⟩
    · rw [hl]; simp
    · have hseg : versionSegment fn = ver := by
        unfold versionSegment
        rw [hl, takeWhile_before_sep _ _ hno]
        rfl
      rw [hseg]; exact hv
  · rintro ⟨hsuf, hmem, hv⟩
    obtain ⟨r, hr⟩ := split_at_first fn.toList hmem
    unfold HasSuffix at hsuf
    rw [List.isSuffixOf_iff_suffix, hr] at hsuf
    obtain ⟨name, hname⟩ := suffix_after_sep _ r (by decide) _ hsuf
    refine ⟨versionSegment fn, String.mk name, ?_, hv⟩
    apply String.ext
    have hd : fn.data = fn.toList := rfl
    rw [hd, hr, ← hname]
    simp [versionSegment, String.toList]

/-! ## Theorems: MigrateStatus -/

/-- The tests made on an entry by `MigrateStatus` select the listed `.up.sql`
files with a version segment. -/
theorem isUpFile_iff (e : DirEntry) :
    isUpFile e = true ↔
      e.isDir = false ∧ HasSuffix e.name ".up.sql" = true ∧ '_' ∈ e.name.toList := by
  unfold isUpFile
  simp [and_assoc]

/-- One turn of the loop of `MigrateStatus`. -/
theorem migrateStatusLoop_cons (mp : String) (V : Nat) (e : DirEntry) (rest : List DirEntry)
    (status : List (List String)) :
    migrateStatusLoop mp V (e :: rest) status =
      if isUpFile e = true then
        match Atoi (versionSegment e.name) with
        | Except.error err => ([], some err)
        | Except.ok version =>
          migrateStatusLoop mp V rest
            (status ++ [[mp ++ "/" ++ e.name, if version ≤ intOfUint V then "yes" else "no"]])
      else migrateStatusLoop mp V rest status := by
  have hlen : decide ((Split e.name '_').length > 1) = decide ('_' ∈ e.name.toList) := by
    rw [Bool.eq_iff_iff]
    simp only [decide_eq_true_eq]
    exact Split_length e.name
  unfold isUpFile
  rw [migrateStatusLoop]
  simp only [Split_head, hlen]
  cases hd : e.isDir <;> cases hs : HasSuffix e.name ".up.sql" <;>
    cases hc : decide ('_' ∈ e.name.toList) <;> simp

/-- The conversion `int(v)` keeps a version below 2^63. -/
theorem intOfUint_of_lt (V : Nat) (hV : V < 2 ^ 63) : intOfUint V = (V : Int) := by
  unfold intOfUint
  have h1 : V % 2 ^ 64 = V := Nat.mod_eq_of_lt (by omega)
  rw [h1, if_pos hV]

/-- When `Atoi` reads the version segment of every listed `.up.sql` file, the
loop of `MigrateStatus` ends without error, having added one row for each
non-directory entry named `<version>_<name>.up.sql`, in listing order. -/
theorem migrateStatusLoop_ok (mp : String) (V : Nat) :
    ∀ (entries : List DirEntry) (status : List (List String)),
      (∀ e ∈ entries, isUpFile e = true → ∃ v, Atoi (versionSegment e.name) = Except.ok v) →
      ∃ rows, migrateStatusLoop mp V entries status = (status ++ rows, none) ∧
        List.Forall₂
          (fun e row => ∃ v, NamedUpMigration e.name v ∧
            row = [mp ++ "/" ++ e.name, if v ≤ intOfUint V then "yes" else "no"])
          (entries.filter (fun e =>
            @decide (e.isDir = false ∧ ∃ v, NamedUpMigration e.name v)
              (Classical.propDecidable _))) rows := by
  intro entries
  induction entries with
  | nil =>
    intro status _
    exact ⟨[], by simp [migrateStatusLoop], by simp⟩
  | cons e rest ih =>
    intro status hnum
    have hrest : ∀ x ∈ rest, isUpFile x = true →
        ∃ v, Atoi (versionSegment x.name) = Except.ok v :=
      fun x hx => hnum x (List.mem_cons_of_mem _ hx)
    rw [migrateStatusLoop_cons]
    by_cases hup : isUpFile e = true
    · obtain ⟨v, hv⟩ := hnum e (List.mem_cons_self _ _) hup
      obtain ⟨hdir, hsuf, hmem⟩ := (isUpFile_iff e).mp hup
      have hnamed : NamedUpMigration e.name v := (namedUp_iff e.name v).mpr ⟨hsuf, hmem, hv⟩
      obtain ⟨rows, hrows, hall⟩ := ih
        (status ++ [[mp ++ "/" ++ e.name, if v ≤ intOfUint V then "yes" else "no"]]) hrest
      refine ⟨[mp ++ "/" ++ e.name, if v ≤ intOfUint V then "yes" else "no"] :: rows, ?_, ?_⟩
      · simp only [hup, if_true, hv]
        rw [hrows]
        simp
      · have hP : @decide (e.isDir = false ∧ ∃ v, NamedUpMigration e.name v)
            (Classical.propDecidable _) = true := by
          simp only [decide_eq_true_eq]
          exact ⟨hdir, v, hnamed⟩
        rw [List.filter_cons, if_pos hP]
        exact List.Forall₂.cons ⟨v, hnamed, rfl⟩ hall
    · obtain ⟨rows, hrows, hall⟩ := ih status hrest
      refine ⟨rows, ?_, ?_⟩
      · simp only [hup, if_false]
        exact hrows
      · have hP : ¬ (@decide (e.isDir = false ∧ ∃ v, NamedUpMigration e.name v)
            (Classical.propDecidable _) = true) := by
          simp only [decide_eq_true_eq]
          rintro ⟨hdir, v, hnamed⟩
          obtain ⟨hsuf, hmem, _⟩ := (namedUp_iff e.name v).mp hnamed
          exact hup ((isUpFile_iff e).mpr ⟨hdir, hsuf, hmem⟩)
        rw [List.filter_cons, if_neg hP]
        exact hall

/-- When `Atoi` rejects the version segment of some listed `.up.sql` file, the
loop of `MigrateStatus` ends with an error and no rows. -/
theorem migrateStatusLoop_fail (mp : String) (V : Nat) :
    ∀ (entries : List DirEntry) (status : List (List String)),
      (∃ e ∈ entries, isUpFile e = true ∧ ∀ v, Atoi (versionSegment e.name) ≠ Except.ok v) →
      ∃ err, migrateStatusLoop mp V entries status = ([], some err) := by
  intro entries
  induction entries with
  | nil =>
    rintro status ⟨e, he, _⟩
    simp at he
  | cons x rest ih =>
    rintro status ⟨e, he, hup, hbad⟩
    rw [migrateStatusLoop_cons]
    by_cases hx : isUpFile x = true
    · simp only [hx, if_true]
      cases hv : Atoi (versionSegment x.name) with
      | error err => exact ⟨err, rfl⟩
      | ok v =>
        rcases List.mem_cons.mp he with rfl | hin
        · exact absurd hv (hbad v)
        · exact ih _ ⟨e, hin, hup, hbad⟩
    · simp only [hx, if_false]
      rcases List.mem_cons.mp he with rfl | hin
      · exact absurd hup hx
      · exact ih _ ⟨e, hin, hup, hbad⟩

/-- A plain decimal number has no sign to take off. -/
theorem signAndDigits_of_isDigits (l : List Char) (h : isDigits l = true) :
    signAndDigits l = (false, l) := by
  cases l with
  | nil => rfl
  | cons c cs =>
    unfold isDigits at h
    simp only [Bool.and_eq_true, List.all_eq_true] at h
    have hc : c.isDigit = true := h.2 c (List.mem_cons_self _ _)
    have h1 : c ≠ '-' := fun e => absurd (e ▸ hc) (by decide)
    have h2 : c ≠ '+' := fun e => absurd (e ▸ hc) (by decide)
    simp [signAndDigits, h1, h2]

/-- C14, as stated, fails: the listing holds the up migration `001_a.up.sql`,
of version 1, and the file `v2_b.up.sql`, which is not of the form
`<version>_<name>.up.sql` because `v2` is not a number. With last-applied
version 2 the claim gives the one row for `001_a.up.sql`; `MigrateStatus`
returns no row and the error of `Atoi`. -/
theorem MigrateStatus_bad_version_counterexample :
    osBadVersion.ReadDir migrateSample.seedPath =
      Except.ok [DirEntry.mk "001_a.up.sql" false, DirEntry.mk "v2_b.up.sql" false] ∧
    NamedUpMigration "001_a.up.sql" 1 ∧
    (¬ ∃ v, NamedUpMigration "v2_b.up.sql" v) ∧
    Migrate.MigrateStatus osBadVersion migrateSample 2 =
      ([], some (GoError.external "strconv.Atoi: invalid syntax")) ∧
    Migrate.MigrateStatus osBadVersion migrateSample 2 ≠
      ([["db/migrate/001_a.up.sql", "yes"]], none) ∧
    ¬ ∃ rows, Migrate.MigrateStatus osBadVersion migrateSample 2 = (rows, none) ∧
      List.Forall₂
        (fun e row => ∃ v, NamedUpMigration e.name v ∧
          row = [migrateSample.migratePath ++ "/" ++ e.name,
            if v ≤ ((2 : Nat) : Int) then "yes" else "no"])
        ([DirEntry.mk "001_a.up.sql" false, DirEntry.mk "v2_b.up.sql" false].filter (fun e =>
          @decide (e.isDir = false ∧ ∃ v, NamedUpMigration e.name v)
            (Classical.propDecidable _))) rows := by
  have hval : Migrate.MigrateStatus osBadVersion migrateSample 2 =
      ([], some (GoError.external "strconv.Atoi: invalid syntax")) := rfl
  refine ⟨rfl, (namedUp_iff _ _).mpr ⟨by decide, by decide, rfl⟩, ?_, hval, ?_, ?_⟩
  · rintro ⟨v, hv⟩
    have h := ((namedUp_iff _ v).mp hv).2.2
    have herr : Atoi (versionSegment "v2_b.up.sql") =
        Except.error (GoError.external "strconv.Atoi: invalid syntax") := rfl
    rw [herr] at h
    cases h
  · rw [hval]
    intro h
    cases h
  · rintro ⟨rows, h, _⟩
    rw [hval] at h
    cases h

/-- C14, amended: given a readable directory listing and a last-applied
version V (a version reported by golang-migrate, below 2^63), when `Atoi`
reads the version segment of every listed `.up.sql` file (every entry that is
not a directory and whose name ends in `.up.sql` and contains a `_`), so that
`MigrateStatus` does not fail, `MigrateStatus` returns, in listing order,
exactly one row `[migratePath/<file name>, flag]` for every non-directory
entry named `<version>_<name>.up.sql` and no other row, with flag "yes" if the
version is at most V and "no" otherwise. -/
theorem MigrateStatus_lists_up_migrations {W : Type} (os : FS) (m : Migrate W) (V : Nat)
    (entries : List DirEntry) (hread : os.ReadDir m.seedPath = Except.ok entries)
    (hV : V < 2 ^ 63)
    (hnum : ∀ e ∈ entries, isUpFile e = true →
      ∃ v, Atoi (versionSegment e.name) = Except.ok v) :
    ∃ rows, Migrate.MigrateStatus os m V = (rows, none) ∧
      List.Forall₂
        (fun e row => ∃ v, NamedUpMigration e.name v ∧
          row = [m.migratePath ++ "/" ++ e.name, if v ≤ (V : Int) then "yes" else "no"])
        (entries.filter (fun e =>
          @decide (e.isDir = false ∧ ∃ v, NamedUpMigration e.name v)
            (Classical.propDecidable _))) rows := by
  obtain ⟨rows, hrows, hall⟩ := migrateStatusLoop_ok m.migratePath V entries [] hnum
  refine ⟨rows, ?_, ?_⟩
  · unfold Migrate.MigrateStatus
    rw [hread]
    simpa using hrows
  · rw [intOfUint_of_lt V hV] at hall
    exact hall

/-- Sample run for C14 as amended: with last-applied version 2, the listing of
`osUpFiles` gives a "yes" row for `001_a.up.sql` and a "no" row for
`003_c.up.sql`; the down migration, the file without version segment and the
directory give no row. -/
theorem MigrateStatus_lists_up_migrations_witness :
    Migrate.MigrateStatus osUpFiles migrateSample 2 =
      ([["db/migrate/001_a.up.sql", "yes"], ["db/migrate/003_c.up.sql", "no"]], none) ∧
    ∃ rows, Migrate.MigrateStatus osUpFiles migrateSample 2 = (rows, none) ∧
      List.Forall₂
        (fun e row => ∃ v, NamedUpMigration e.name v ∧
          row = [migrateSample.migratePath ++ "/" ++ e.name,
            if v ≤ ((2 : Nat) : Int) then "yes" else "no"])
        ([DirEntry.mk "001_a.up.sql" false, DirEntry.mk "001_a.down.sql" false,
          DirEntry.mk "003_c.up.sql" false, DirEntry.mk "notes.up.sql" false,
          DirEntry.mk "5_d.up.sql" true].filter (fun e =>
          @decide (e.isDir = false ∧ ∃ v, NamedUpMigration e.name v)
            (Classical.propDecidable _))) rows :=
  ⟨rfl, MigrateStatus_lists_up_migrations osUpFiles migrateSample 2 _ rfl (by decide) (by
    intro e he hup
    simp only [List.mem_cons, List.mem_singleton, List.not_mem_nil, or_false] at he
    rcases he with rfl | rfl | rfl | rfl | rfl
    · exact ⟨1, rfl⟩
    · exact absurd hup (by decide)
    · exact ⟨3, rfl⟩
    · exact absurd hup (by decide)
    · exact absurd hup (by decide))⟩

/-- C15, as stated, fails: the directory is readable and the version segment
of its only `.up.sql` file is a plain decimal number, of twenty digits, yet
`MigrateStatus` fails, because `Atoi` reports a value out of range. -/
theorem MigrateStatus_big_version_counterexample :
    osBigVersion.ReadDir migrateSample.seedPath =
      Except.ok [DirEntry.mk "99999999999999999999_big.up.sql" false] ∧
    isUpFile (DirEntry.mk "99999999999999999999_big.up.sql" false) = true ∧
    isPlainDecimal (versionSegment "99999999999999999999_big.up.sql") = true ∧
    Migrate.MigrateStatus osBigVersion migrateSample 2 =
      ([], some (GoError.external "strconv.Atoi: value out of range")) := by
  refine ⟨rfl, by decide, by decide, rfl⟩

/-- C15, amended: `MigrateStatus` fails with an error and no status rows
whenever the directory cannot be read or the version segment of some listed
`.up.sql` file is not numeric; it succeeds when the directory is readable and
every such version segment is a plain decimal number below 2^63. For a
readable directory it succeeds exactly when every such version segment is
numeric (an optional sign and decimal digits) with a value that fits an
`int`. -/
theorem MigrateStatus_fails_iff {W : Type} (os : FS) (m : Migrate W) (V : Nat) :
    (∀ msg, os.ReadDir m.seedPath = Except.error msg →
      Migrate.MigrateStatus os m V = ([], some (GoError.external msg))) ∧
    ∀ entries, os.ReadDir m.seedPath = Except.ok entries →
      ((∃ e ∈ entries, isUpFile e = true ∧ isNumeral (versionSegment e.name) = false) →
        ∃ err, Migrate.MigrateStatus os m V = ([], some err)) ∧
      ((∀ e ∈ entries, isUpFile e = true →
          isPlainDecimal (versionSegment e.name) = true ∧
            digitsValue (versionSegment e.name).toList < 2 ^ 63) →
        (Migrate.MigrateStatus os m V).2 = none) ∧
      ((Migrate.MigrateStatus os m V).2 = none ↔
        ∀ e ∈ entries, isUpFile e = true →
          isNumeral (versionSegment e.name) = true ∧
            -(2 : Int) ^ 63 ≤ signedValue (signAndDigits (versionSegment e.name).toList) ∧
            signedValue (signAndDigits (versionSegment e.name).toList) < (2 : Int) ^ 63) := by
  refine ⟨fun msg h => ?_, fun entries hread => ?_⟩
  · unfold Migrate.MigrateStatus
    rw [h]
  have hMS : Migrate.MigrateStatus os m V = migrateStatusLoop m.migratePath V entries [] := by
    unfold Migrate.MigrateStatus
    rw [hread]
  have hiff : (Migrate.MigrateStatus os m V).2 = none ↔
      ∀ e ∈ entries, isUpFile e = true →
        isNumeral (versionSegment e.name) = true ∧
          -(2 : Int) ^ 63 ≤ signedValue (signAndDigits (versionSegment e.name).toList) ∧
          signedValue (signAndDigits (versionSegment e.name).toList) < (2 : Int) ^ 63 := by
    constructor
    · intro hnone e he hup
      by_contra hbad
      obtain ⟨err, herr⟩ := migrateStatusLoop_fail m.migratePath V entries []
        ⟨e, he, hup, fun v hv => hbad (by
          obtain ⟨h1, h2, h3, _⟩ := (Atoi_ok_iff _ v).mp hv
          exact ⟨h1, h2, h3⟩)⟩
      rw [hMS, herr] at hnone
      exact Option.noConfusion hnone
    · intro hall
      obtain ⟨rows, hrows, _⟩ := migrateStatusLoop_ok m.migratePath V entries [] (by
        intro e he hup
        obtain ⟨h1, h2, h3⟩ := hall e he hup
        exact ⟨_, (Atoi_ok_iff _ _).mpr ⟨h1, h2, h3, rfl⟩⟩)
      rw [hMS, hrows]
  refine ⟨?_, ?_, hiff⟩
  · rintro ⟨e, he, hup, hbad⟩
    rw [hMS]
    exact migrateStatusLoop_fail m.migratePath V entries [] ⟨e, he, hup, fun v hv => by
      have := ((Atoi_ok_iff _ v).mp hv).1
      rw [hbad] at this
      exact Bool.noConfusion this⟩
  · intro hall
    refine hiff.mpr (fun e he hup => ?_)
    obtain ⟨hdec, hlt⟩ := hall e he hup
    unfold isPlainDecimal at hdec
    have hsd := signAndDigits_of_isDigits _ hdec
    unfold isNumeral
    rw [hsd]
    refine ⟨hdec, ?_, ?_⟩
    · simp only [signedValue]
      have : (0 : Int) ≤ (digitsValue (versionSegment e.name).toList : Int) := Int.natCast_nonneg _
      simp only [Bool.false_eq_true, if_false]
      omega
    · simp only [signedValue, Bool.false_eq_true, if_false]
      exact_mod_cast hlt

/-- Sample run for C15 as amended: the listing of `osUpFiles` is readable and
its two `.up.sql` files with a version segment have the plain decimal versions
001 and 003, so `MigrateStatus` succeeds; an unreadable directory gives the
error of `ReadDir`. -/
theorem MigrateStatus_fails_iff_witness :
    (Migrate.MigrateStatus osUpFiles migrateSample 2).2 = none ∧
    Migrate.MigrateStatus osUpFiles { migrateSample with seedPath := "missing" } 2 =
      ([], some (GoError.external "no such directory")) :=
  ⟨((MigrateStatus_fails_iff osUpFiles migrateSample 2).2 _ rfl).2.1 (by decide),
    (MigrateStatus_fails_iff osUpFiles { migrateSample with seedPath := "missing" } 2).1 _ rfl⟩

/-! ## Theorems: NewSeed and Run -/

/-- Strings with a common beginning are equal only if their ends are. -/
theorem string_append_left_cancel (a b c : String) (h : a ++ b = a ++ c) : b = c := by
  have hd := congrArg String.data h
  simp only [String.data_append] at hd
  exact String.ext (List.append_cancel_left hd)

/-- The loop of `NewSeed` adds the paths of the eligible entries, in listing
order. -/
theorem seedFiles_eq (dir : String) :
    ∀ (entries : List DirEntry) (files : List String),
      seedFiles dir entries files =
        files ++ (entries.filter (fun e => isSeedEntry e)).map (fun e => dir ++ "/" ++ e.name) := by
  intro entries
  induction entries with
  | nil => intro files; simp [seedFiles]
  | cons e rest ih =>
    intro files
    by_cases h : isSeedEntry e = true
    · have h1 : (!e.isDir && HasSuffix e.name ".sql" && e.name != embedInit) = true := h
      rw [seedFiles, if_pos h1, ih, List.filter_cons, if_pos h]
      simp
    · have h1 : ¬ (!e.isDir && HasSuffix e.name ".sql" && e.name != embedInit) = true := h
      rw [seedFiles, if_neg h1, ih, List.filter_cons, if_neg h]

/-- The result of `sort.Strings` is in increasing order. -/
theorem sortStrings_sorted (files : List String) : (sortStrings files).Sorted strLE := by
  haveI : IsTotal String strLE := ⟨fun a b => le_total a.toList b.toList⟩
  haveI : IsTrans String strLE := ⟨fun a b c h1 h2 => le_trans h1 h2⟩
  exact List.sorted_insertionSort strLE files

/-- The result of `sort.Strings` holds the same strings. -/
theorem sortStrings_perm (files : List String) : (sortStrings files).Perm files :=
  List.perm_insertionSort strLE files

/-- For a readable seed directory, `NewSeed` fails for want of eligible
entries, or with the error of `sqlx.Open`, or returns the sorted paths of the
eligible entries. -/
theorem NewSeed_eq (fs : FS) (sqlxOpen : String → String → Option String) (config : Config)
    (entries : List DirEntry)
    (hdir : fs.ReadDir (DBSeedPath ++ "/" ++ config.Name) = Except.ok entries) :
    NewSeed fs sqlxOpen config =
      if entries.filter (fun e => isSeedEntry e) = [] then
        Except.error (GoError.new "no seed files found")
      else
        match sqlxOpen config.DriverName config.URI with
        | some msg => Except.error (GoError.external msg)
        | none =>
          Except.ok
            { config := config, embedFS := fs,
              files := sortStrings ((entries.filter (fun e => isSeedEntry e)).map
                (fun e => DBSeedPath ++ "/" ++ config.Name ++ "/" ++ e.name)) } := by
  unfold NewSeed
  simp only [hdir, seedFiles_eq, List.nil_append, List.length_map]
  by_cases h : entries.filter (fun e => isSeedEntry e) = []
  · simp [h]
  · have hlen : ¬ (entries.filter (fun e => isSeedEntry e)).length < 1 := by
      have := List.length_pos.mpr h
      omega
    simp only [hlen, h, if_false]

/-- The `Exec` calls for no file. -/
theorem seedCalls_nil (fs : FS) : seedCalls fs [] = [] := rfl

/-- The `Exec` calls for a list that starts with an empty file. -/
theorem seedCalls_cons_empty (fs : FS) (f c : String) (rest : List String)
    (hc : fs.ReadFile f = Except.ok c) (he : c.length = 0) :
    seedCalls fs (f :: rest) = seedCalls fs rest := by
  simp [seedCalls, List.filterMap_cons, hc, he]

/-- The `Exec` calls for a list that starts with a file that is not empty. -/
theorem seedCalls_cons_full (fs : FS) (f c : String) (rest : List String)
    (hc : fs.ReadFile f = Except.ok c) (he : c.length ≠ 0) :
    seedCalls fs (f :: rest) = ExecCall.mk f c :: seedCalls fs rest := by
  simp [seedCalls, List.filterMap_cons, hc, he]

/-- When the first files of a list can be read and the execution of each one
that is not empty succeeds, the loop of `Run` goes through them, making one
`Exec` call for each one that is not empty, and carries on with the rest. -/
theorem runFiles_pre (fs : FS) (exec : String → List ExecCall → Option String)
    (rest : List String) :
    ∀ (pre : List String) (t : List ExecCall),
      (∀ f ∈ pre, ∃ c, fs.ReadFile f = Except.ok c) →
      (∀ i f c, pre[i]? = some f → fs.ReadFile f = Except.ok c → c.length ≠ 0 →
        exec c (t ++ seedCalls fs (pre.take i)) = none) →
      runFiles fs exec (pre ++ rest) t = runFiles fs exec rest (t ++ seedCalls fs pre) := by
  intro pre
  induction pre with
  | nil => intro t _ _; simp [seedCalls_nil]
  | cons f pre ih =>
    intro t hread hexec
    obtain ⟨c, hc⟩ := hread f (List.mem_cons_self _ _)
    have hread1 : ∀ g ∈ pre, ∃ c, fs.ReadFile g = Except.ok c :=
      fun g hg => hread g (List.mem_cons_of_mem _ hg)
    by_cases he : c.length = 0
    · have hexec1 : ∀ i g d, pre[i]? = some g → fs.ReadFile g = Except.ok d → d.length ≠ 0 →
          exec d (t ++ seedCalls fs (pre.take i)) = none := by
        intro i g d hg hd hne
        have := hexec (i + 1) g d (by simpa using hg) hd hne
        rwa [List.take_succ_cons, seedCalls_cons_empty fs f c _ hc he] at this
      rw [List.cons_append, runFiles]
      simp only [hc, he, if_true]
      rw [ih t hread1 hexec1, seedCalls_cons_empty fs f c _ hc he]
    · have h0 : exec c t = none := by
        have := hexec 0 f c (by simp) hc he
        simpa [seedCalls_nil] using this
      have hexec1 : ∀ i g d, pre[i]? = some g → fs.ReadFile g = Except.ok d → d.length ≠ 0 →
          exec d ((t ++ [ExecCall.mk f c]) ++ seedCalls fs (pre.take i)) = none := by
        intro i g d hg hd hne
        have := hexec (i + 1) g d (by simpa using hg) hd hne
        rw [List.take_succ_cons, seedCalls_cons_full fs f c _ hc he] at this
        simpa using this
      rw [List.cons_append, runFiles]
      simp only [hc, he, if_false, h0]
      rw [ih (t ++ [ExecCall.mk f c]) hread1 hexec1, seedCalls_cons_full fs f c _ hc he]
      simp

/-- C16, as stated, fails: with `002_b.sql`, an empty `001_a.sql` and
`init.sql` in the seed directory, `NewSeed` selects `001_a.sql` and
`002_b.sql`, but `Run` executes `002_b.sql` only: the empty file is skipped. -/
theorem Run_skips_empty_counterexample :
    (NewSeed fsShopEmpty sqlxOpenOk cfgShop).toOption.map
        (fun s => (s.files, Seed.Run execOk s [])) =
      some (["db/seed/shop/001_a.sql", "db/seed/shop/002_b.sql"],
        (none, [ExecCall.mk "db/seed/shop/002_b.sql" "INSERT 2"])) ∧
    fsShopEmpty.ReadFile "db/seed/shop/001_a.sql" = Except.ok "" := by
  refine ⟨rfl, rfl⟩

/-- C16, amended: for a readable seed directory with some eligible entry and a
successful `sqlx.Open`, `NewSeed` selects exactly the non-directory entries of
`db/seed/<Name>` whose names end in `.sql` and are not `init.sql` and orders
their paths lexicographically, so that `init.sql` is not among them; when
every selected file can be read and every execution succeeds, `Run` executes
the selected files that are not empty, in that order, and returns nil (an
empty file is skipped). -/
theorem NewSeed_Run_in_order (fs : FS) (sqlxOpen : String → String → Option String)
    (exec : String → List ExecCall → Option String) (config : Config)
    (entries : List DirEntry) (t : List ExecCall)
    (hdir : fs.ReadDir (DBSeedPath ++ "/" ++ config.Name) = Except.ok entries)
    (helig : ∃ e ∈ entries, isSeedEntry e = true)
    (hopen : sqlxOpen config.DriverName config.URI = none)
    (hread : ∀ e ∈ entries, isSeedEntry e = true →
      ∃ b, fs.ReadFile (DBSeedPath ++ "/" ++ config.Name ++ "/" ++ e.name) = Except.ok b)
    (hexec : ∀ c h, exec c h = none) :
    ∃ seed, NewSeed fs sqlxOpen config = Except.ok seed ∧
      seed.files.Perm ((entries.filter (fun e => isSeedEntry e)).map
        (fun e => DBSeedPath ++ "/" ++ config.Name ++ "/" ++ e.name)) ∧
      seed.files.Sorted strLE ∧
      (∀ f ∈ seed.files, f ≠ DBSeedPath ++ "/" ++ config.Name ++ "/" ++ embedInit) ∧
      Seed.Run exec seed t = (none, t ++ seedCalls fs seed.files) := by
  have hne : entries.filter (fun e => isSeedEntry e) ≠ [] := by
    obtain ⟨e, he, hs⟩ := helig
    intro h
    have : e ∈ entries.filter (fun e => isSeedEntry e) := List.mem_filter.mpr ⟨he, hs⟩
    rw [h] at this
    simp at this
  have hnew := NewSeed_eq fs sqlxOpen config entries hdir
  rw [if_neg hne, hopen] at hnew
  have hperm := sortStrings_perm ((entries.filter (fun e => isSeedEntry e)).map
    (fun e => DBSeedPath ++ "/" ++ config.Name ++ "/" ++ e.name))
  have hmem : ∀ f ∈ sortStrings ((entries.filter (fun e => isSeedEntry e)).map
      (fun e => DBSeedPath ++ "/" ++ config.Name ++ "/" ++ e.name)),
      ∃ e ∈ entries, isSeedEntry e = true ∧
        f = DBSeedPath ++ "/" ++ config.Name ++ "/" ++ e.name := by
    intro f hf
    obtain ⟨e, he, rfl⟩ := List.mem_map.mp (hperm.mem_iff.mp hf)
    obtain ⟨h1, h2⟩ := List.mem_filter.mp he
    exact ⟨e, h1, h2, rfl⟩
  refine ⟨_, hnew, hperm, sortStrings_sorted _, ?_, ?_⟩
  · intro f hf heq
    obtain ⟨e, _, hs, rfl⟩ := hmem f hf
    have hname : e.name = embedInit := string_append_left_cancel _ _ _ heq
    unfold isSeedEntry at hs
    simp [hname] at hs
  · have hrun := runFiles_pre fs exec [] (sortStrings ((entries.filter
        (fun e => isSeedEntry e)).map
        (fun e => DBSeedPath ++ "/" ++ config.Name ++ "/" ++ e.name))) t
      (by
        intro f hf
        obtain ⟨e, he, hs, rfl⟩ := hmem f hf
        exact hread e he hs)
      (fun _ _ c _ _ _ => hexec c _)
    rw [List.append_nil] at hrun
    unfold Seed.Run
    rw [hrun]
    rfl

/-- Sample run for C16 as amended: with `002_b.sql`, `001_a.sql` and
`init.sql`, all holding statements, `Run` executes `001_a.sql` and then
`002_b.sql`. -/
theorem NewSeed_Run_in_order_witness :
    (NewSeed fsShop sqlxOpenOk cfgShop).toOption.map
        (fun s => (s.files, Seed.Run execOk s [])) =
      some (["db/seed/shop/001_a.sql", "db/seed/shop/002_b.sql"],
        (none, [ExecCall.mk "db/seed/shop/001_a.sql" "INSERT 1",
          ExecCall.mk "db/seed/shop/002_b.sql" "INSERT 2"])) ∧
    ∃ seed, NewSeed fsShop sqlxOpenOk cfgShop = Except.ok seed ∧
      seed.files.Perm (([DirEntry.mk "002_b.sql" false, DirEntry.mk "001_a.sql" false,
        DirEntry.mk "init.sql" false].filter (fun e => isSeedEntry e)).map
        (fun e => DBSeedPath ++ "/" ++ cfgShop.Name ++ "/" ++ e.name)) ∧
      seed.files.Sorted strLE ∧
      (∀ f ∈ seed.files, f ≠ DBSeedPath ++ "/" ++ cfgShop.Name ++ "/" ++ embedInit) ∧
      Seed.Run execOk seed [] = (none, [] ++ seedCalls fsShop seed.files) :=
  ⟨rfl, NewSeed_Run_in_order fsShop sqlxOpenOk execOk cfgShop _ [] rfl
    ⟨DirEntry.mk "002_b.sql" false, by simp, by decide⟩ rfl
    (by
      intro e he hs
      simp only [List.mem_cons, List.mem_singleton, List.not_mem_nil, or_false] at he
      rcases he with rfl | rfl | rfl
      · exact ⟨"INSERT 2", rfl⟩
      · exact ⟨"INSERT 1", rfl⟩
      · exact ⟨"CREATE", rfl⟩)
    (fun _ _ => rfl)⟩

/-- C17, as stated, fails: with an empty `001_a.sql` before `002_b.sql`, whose
execution fails, `Run` returns the error that names `002_b.sql`, but the
earlier file `001_a.sql` has not been executed: the call for `002_b.sql` is
the only one made. -/
theorem Run_earlier_empty_counterexample :
    seedEmptyFirst.files = ["db/seed/shop/001_a.sql", "db/seed/shop/002_b.sql"] ∧
    seedEmptyFirst.embedFS.ReadFile "db/seed/shop/001_a.sql" = Except.ok "" ∧
    Seed.Run execFailsOn2 seedEmptyFirst [] =
      (some (GoError.wrap "unable to seed: 'db/seed/shop/002_b.sql'. error: duplicate key"
        (GoError.external "duplicate key")),
        [ExecCall.mk "db/seed/shop/002_b.sql" "INSERT 2"]) := by
  refine ⟨rfl, rfl, rfl⟩

/-- C17, amended: if the files before the k-th can be read and the execution
of each of them that is not empty succeeds, and the execution of the k-th
file, which is not empty, fails, then `Run` returns an error whose message
names that file and wraps the error of `Exec`; the calls made are one `Exec`
for every earlier file that is not empty, in order, followed by the failing
one, and nothing else: no earlier execution is undone and no file after the
k-th is executed (an earlier empty file is skipped). -/
theorem Run_stops_at_failing_file (exec : String → List ExecCall → Option String) (s : Seed)
    (pre post : List String) (file b msg : String) (t : List ExecCall)
    (hfiles : s.files = pre ++ file :: post)
    (hread : ∀ f ∈ pre, ∃ c, s.embedFS.ReadFile f = Except.ok c)
    (hexec : ∀ i f c, pre[i]? = some f → s.embedFS.ReadFile f = Except.ok c → c.length ≠ 0 →
      exec c (t ++ seedCalls s.embedFS (pre.take i)) = none)
    (hb : s.embedFS.ReadFile file = Except.ok b) (hne : b.length ≠ 0)
    (hfail : exec b (t ++ seedCalls s.embedFS pre) = some msg) :
    Seed.Run exec s t =
      (some (GoError.wrap ("unable to seed: '" ++ file ++ "'. error: " ++ msg)
        (GoError.external msg)),
        t ++ seedCalls s.embedFS pre ++ [ExecCall.mk file b]) ∧
    (∀ f ∈ pre, ∀ c, s.embedFS.ReadFile f = Except.ok c → c.length ≠ 0 →
      ExecCall.mk f c ∈ seedCalls s.embedFS pre) ∧
    (∀ call ∈ seedCalls s.embedFS pre, call.file ∈ pre) := by
  refine ⟨?_, ?_, ?_⟩
  · unfold Seed.Run
    rw [hfiles, runFiles_pre s.embedFS exec (file :: post) pre t hread hexec, runFiles]
    simp only [hb, hne, if_false, hfail]
  · intro f hf c hc hlen
    unfold seedCalls
    rw [List.mem_filterMap]
    exact ⟨f, hf, by simp [hc, hlen]⟩
  · intro call hcall
    unfold seedCalls at hcall
    rw [List.mem_filterMap] at hcall
    obtain ⟨f, hf, hsome⟩ := hcall
    cases hr : s.embedFS.ReadFile f with
    | error e => rw [hr] at hsome; exact Option.noConfusion hsome
    | ok c =>
      rw [hr] at hsome
      by_cases hl : c.length = 0
      · simp [hl] at hsome
      · simp only [hl, if_false, Option.some.injEq] at hsome
        rw [← hsome]
        exact hf

/-- Sample run for C17 as amended: with files `001_a.sql`, `002_b.sql` and a
third one, where the execution of `002_b.sql` fails, `Run` executes
`001_a.sql`, fails on `002_b.sql` with an error naming it, and does not
execute the third file. -/
theorem Run_stops_at_failing_file_witness :
    seedThree.files = ["db/seed/shop/001_a.sql"] ++
      "db/seed/shop/002_b.sql" :: ["db/seed/shop/init.sql"] ∧
    Seed.Run execFailsOn2 seedThree [] =
      (some (GoError.wrap "unable to seed: 'db/seed/shop/002_b.sql'. error: duplicate key"
        (GoError.external "duplicate key")),
        [ExecCall.mk "db/seed/shop/001_a.sql" "INSERT 1",
          ExecCall.mk "db/seed/shop/002_b.sql" "INSERT 2"]) :=
  ⟨rfl, (Run_stops_at_failing_file execFailsOn2 seedThree ["db/seed/shop/001_a.sql"]
    ["db/seed/shop/init.sql"] "db/seed/shop/002_b.sql" "INSERT 2" "duplicate key" [] rfl
    (by
      intro f hf
      simp only [List.mem_singleton] at hf
      exact ⟨"INSERT 1", by rw [hf]; rfl⟩)
    (by
      intro i f c hf hc _
      have hf1 : f = "db/seed/shop/001_a.sql" := by
        cases i with
        | zero => simpa using hf.symm
        | succ j => simp at hf
      subst hf1
      have hc1 : (Except.ok "INSERT 1" : Except String String) = Except.ok c := hc
      rw [← Except.ok.inj hc1]
      rfl)
    rfl (by decide) rfl).1⟩

/-- C18: for a readable seed directory, `NewSeed` fails with the error
"no seed files found" if and only if the directory has no eligible entry
(non-directory, name ending in `.sql`, name other than `init.sql`). -/
theorem NewSeed_no_files_iff (fs : FS) (sqlxOpen : String → String → Option String)
    (config : Config) (entries : List DirEntry)
    (hdir : fs.ReadDir (DBSeedPath ++ "/" ++ config.Name) = Except.ok entries) :
    NewSeed fs sqlxOpen config = Except.error (GoError.new "no seed files found") ↔
      ∀ e ∈ entries, isSeedEntry e = false := by
  rw [NewSeed_eq fs sqlxOpen config entries hdir]
  have hnil : entries.filter (fun e => isSeedEntry e) = [] ↔
      ∀ e ∈ entries, isSeedEntry e = false := by
    rw [List.filter_eq_nil_iff]
    constructor
    · intro h e he
      cases hs : isSeedEntry e with
      | false => rfl
      | true => exact absurd hs (h e he)
    · intro h e he hs
      rw [h e he] at hs
      exact Bool.noConfusion hs
  by_cases h : entries.filter (fun e => isSeedEntry e) = []
  · rw [if_pos h]
    exact ⟨fun _ => hnil.mp h, fun _ => rfl⟩
  · rw [if_neg h]
    constructor
    · intro hbad
      cases ho : sqlxOpen config.DriverName config.URI with
      | none => rw [ho] at hbad; cases hbad
      | some msg => rw [ho] at hbad; cases hbad
    · intro hall
      exact absurd (hnil.mpr hall) h

/-- Sample run for C18: a seed directory holding `init.sql`, a directory and a
file that is not `.sql` has no eligible entry, and `NewSeed` fails with
"no seed files found". -/
theorem NewSeed_no_files_iff_witness :
    fsShopInitOnly.ReadDir (DBSeedPath ++ "/" ++ cfgShop.Name) =
      Except.ok [DirEntry.mk "init.sql" false, DirEntry.mk "old.sql" true,
        DirEntry.mk "README.md" false] ∧
    NewSeed fsShopInitOnly sqlxOpenOk cfgShop = Except.error (GoError.new "no seed files found") :=
  ⟨rfl, (NewSeed_no_files_iff fsShopInitOnly sqlxOpenOk cfgShop _ rfl).mpr (by decide)⟩

/-! ## Theorems: pool setters -/

/-- The replica loop of a setter adds one call for each replica, in list
order. -/
theorem setReplicas_eq {W : Type} (s : Setter) (v : Int) :
    ∀ (rs : List W) (t : List (SetCall W)),
      setReplicas s v rs t = t ++ rs.map (fun r => SetCall.mk r s v) := by
  intro rs
  induction rs with
  | nil => intro t; simp [setReplicas]
  | cons r rs ih => intro t; simp [setReplicas, ih]

/-- C21: on a client with a master wrapper, each of `SetMaxIdleConns`,
`SetMaxOpenConns`, `SetConnMaxLifetime` and `SetConnMaxIdleTime`, for every
argument value, calls that setter with that same value exactly once on master
and then exactly once on every replica, in list order, and leaves the client
(replica list, rotation counter, config) unchanged. -/
theorem setters_apply_to_all {W : Type} (db : DB W) (m : W) (v : Int) (t : List (SetCall W))
    (hm : db.master = some m) :
    DB.SetMaxIdleConns db v t =
      some (db, t ++ SetCall.mk m Setter.SetMaxIdleConns v ::
        db.replicas.map (fun r => SetCall.mk r Setter.SetMaxIdleConns v)) ∧
    DB.SetMaxOpenConns db v t =
      some (db, t ++ SetCall.mk m Setter.SetMaxOpenConns v ::
        db.replicas.map (fun r => SetCall.mk r Setter.SetMaxOpenConns v)) ∧
    DB.SetConnMaxLifetime db v t =
      some (db, t ++ SetCall.mk m Setter.SetConnMaxLifetime v ::
        db.replicas.map (fun r => SetCall.mk r Setter.SetConnMaxLifetime v)) ∧
    DB.SetConnMaxIdleTime db v t =
      some (db, t ++ SetCall.mk m Setter.SetConnMaxIdleTime v ::
        db.replicas.map (fun r => SetCall.mk r Setter.SetConnMaxIdleTime v)) := by
  have h : ∀ s : Setter, DB.applySetter s db v t =
      some (db, t ++ SetCall.mk m s v :: db.replicas.map (fun r => SetCall.mk r s v)) := by
    intro s
    simp [DB.applySetter, hm, setReplicas_eq]
  exact ⟨h _, h _, h _, h _⟩

/-- Sample run for C21: `SetMaxOpenConns(25)` on master 0 with replicas 1, 2, 3. -/
theorem setters_apply_to_all_witness :
    dbThree.master = some 0 ∧
    DB.SetMaxOpenConns dbThree 25 [] =
      some (dbThree, [SetCall.mk 0 Setter.SetMaxOpenConns 25,
        SetCall.mk 1 Setter.SetMaxOpenConns 25, SetCall.mk 2 Setter.SetMaxOpenConns 25,
        SetCall.mk 3 Setter.SetMaxOpenConns 25]) :=
  ⟨rfl, (setters_apply_to_all dbThree 0 25 [] rfl).2.1⟩

/-! ## Theorems: idempotence and connection times -/

/-- C29: `defaultConfig` is idempotent: applying it to `defaultConfig c` gives
a configuration equal to `defaultConfig c`, in every field. -/
theorem defaultConfig_idempotent (c : Config) :
    defaultConfig (defaultConfig c) = defaultConfig c := by
  rw [defaultConfig_eq (defaultConfig c), defaultConfig_eq c]
  obtain ⟨lt, it, dn, mi, mo, nm, sp, mt, uri, rs⟩ := c
  simp only [Config.mk.injEq, and_true, true_and]
  refine ⟨?_, ?_, ?_, ?_, ?_, ?_⟩
  · split_ifs <;> simp_all [Minute]
  · split_ifs <;> simp_all [Minute]
  · by_cases h3 : mi = 0 <;> by_cases h4 : mo = 0 <;> simp [h3, h4, min_def] <;>
      split_ifs <;> omega
  · split_ifs <;> simp_all
  · split_ifs <;> simp_all
  · split_ifs <;> simp_all

/-- A wrapper returned by `newDBWithLogger` has the four limits of the
configuration given to it. -/
theorem newDBWithLogger_limits (env : ConnEnv) (driverName uri : String) (config : Config)
    (driver : String) (t t1 : List ConnStep) (w : Wrapper)
    (h : newDBWithLogger env driverName uri config driver t = (Except.ok w, t1)) :
    w.connMaxIdleTime = config.ConnMaxIdleTime ∧ w.connMaxLifetime = config.ConnMaxLifetime ∧
      w.maxIdleConns = config.MaxIdleConns ∧ w.maxOpenConns = config.MaxOpenConns := by
  unfold newDBWithLogger at h
  split_ifs at h with h1
  · cases h
  · simp only [] at h
    split at h
    · simp at h
    · simp only [Prod.mk.injEq, Except.ok.injEq] at h
      rw [← h.1]
      exact ⟨rfl, rfl, rfl, rfl⟩

/-- C24, as stated, fails for d = 0: with both connection times 0, the values
applied to the pool by `newDBWithLogger` after `defaultConfig` are 5 minutes,
which is positive. -/
theorem pool_times_zero_counterexample :
    cfgZero.ConnMaxLifetime ≤ 0 ∧ cfgZero.ConnMaxIdleTime ≤ 0 ∧
    (newDBWithLogger connOk "postgres" "master" (defaultConfig cfgZero) "postgres" []).1 =
      Except.ok
        { driverName := "postgres", uri := "master", driver := "postgres",
          connMaxIdleTime := 300000000000, connMaxLifetime := 300000000000,
          maxIdleConns := 16, maxOpenConns := 16 } ∧
    ¬ ((300000000000 : Int) ≤ 0) := by
  refine ⟨by decide, by decide, rfl, by decide⟩

/-- C24, amended: for every Config whose `ConnMaxLifetime` (resp.
`ConnMaxIdleTime`) is d < 0, the value applied to the pool of a wrapper built
by `newDBWithLogger` after `defaultConfig` is d itself, hence non-positive;
for d = 0 the value applied is 5 minutes. -/
theorem pool_times_negative (env : ConnEnv) (c : Config) (driverName uri driver : String)
    (t t1 : List ConnStep) (w : Wrapper)
    (h : newDBWithLogger env driverName uri (defaultConfig c) driver t = (Except.ok w, t1)) :
    (c.ConnMaxLifetime < 0 → w.connMaxLifetime = c.ConnMaxLifetime ∧ w.connMaxLifetime ≤ 0) ∧
    (c.ConnMaxIdleTime < 0 → w.connMaxIdleTime = c.ConnMaxIdleTime ∧ w.connMaxIdleTime ≤ 0) ∧
    (c.ConnMaxLifetime = 0 → w.connMaxLifetime = 300000000000) ∧
    (c.ConnMaxIdleTime = 0 → w.connMaxIdleTime = 300000000000) := by
  obtain ⟨h1, h2, _, _⟩ := newDBWithLogger_limits env _ _ _ _ _ _ _ h
  have ht := defaultConfig_times c
  rw [h1, h2, ht.1, ht.2]
  refine ⟨fun hd => ?_, fun hd => ?_, fun hd => ?_, fun hd => ?_⟩
  · have hne : c.ConnMaxLifetime ≠ 0 := by omega
    rw [if_neg hne]; exact ⟨rfl, by omega⟩
  · have hne : c.ConnMaxIdleTime ≠ 0 := by omega
    rw [if_neg hne]; exact ⟨rfl, by omega⟩
  · rw [if_pos hd]; decide
  · rw [if_pos hd]; decide

/-- Sample run for C24 as amended: a lifetime of -1 and an idle time of -5 are
applied to the pool as they are. -/
theorem pool_times_negative_witness :
    newDBWithLogger connOk "postgres" "master" (defaultConfig cfgNegTimes) "postgres" [] =
      (Except.ok
        { driverName := "postgres", uri := "master", driver := "postgres",
          connMaxIdleTime := -5, connMaxLifetime := -1, maxIdleConns := 16, maxOpenConns := 16 },
        [ConnStep.ping
          { driverName := "postgres", uri := "master", driver := "postgres",
            connMaxIdleTime := -5, connMaxLifetime := -1, maxIdleConns := 16,
            maxOpenConns := 16 }]) ∧
    ((-1 : Int) = cfgNegTimes.ConnMaxLifetime ∧ (-1 : Int) ≤ 0) :=
  ⟨rfl, (pool_times_negative connOk cfgNegTimes "postgres" "master" "postgres" [] _ _ rfl).1
    (by decide)⟩

/-! ## Theorems: repeated Connect, and the directory of MigrateStatus -/

/-- C28 on the code: with one configured replica URI, two successful `Connect`
calls on a fresh client leave two replica wrappers, one more than there are
replica URIs; when the ping of the second one then fails, the lookup
`db.config.ReplicaURIs[1]` of `Ping` is out of range and `Ping` panics. -/
theorem Connect_twice_Ping_out_of_range :
    (DB.Connect connOk (NewDB cfgOneReplicaURI) []).1 = none ∧
    (DB.Connect connOk (DB.Connect connOk (NewDB cfgOneReplicaURI) []).2.1 []).1 = none ∧
    (DB.Connect connOk (DB.Connect connOk (NewDB cfgOneReplicaURI) []).2.1 []).2.1.replicas =
      [wrapperFor "master", wrapperFor "master"] ∧
    (DB.Connect connOk (DB.Connect connOk (NewDB cfgOneReplicaURI) []).2.1
      []).2.1.config.ReplicaURIs = ["replica1"] ∧
    DB.Ping connThirdPingFails
      (DB.Connect connOk (DB.Connect connOk (NewDB cfgOneReplicaURI) []).2.1 []).2.1 [] = none := by
  refine ⟨rfl, rfl, rfl, rfl, rfl⟩

/-- C23 on the code: given the migration path `db/migrate` and the seed path
`db/seed`, `MigrateStatus` scans `db/seed`: it reports
`db/migrate/001_seed.up.sql`, a file name of the seed directory that is no
entry of `db/migrate`, and does not report `002_real.up.sql`, the one
migration file there. -/
theorem MigrateStatus_scans_seed_path :
    (NewMigrate migrateNewOk dbNoReplica "db/migrate" "db/seed").toOption.map
        (fun m => (m.migratePath, m.seedPath, Migrate.MigrateStatus osTwoDirs m 2)) =
      some ("db/migrate", "db/seed", ([["db/migrate/001_seed.up.sql", "yes"]], none)) ∧
    osTwoDirs.ReadDir "db/migrate" = Except.ok [DirEntry.mk "002_real.up.sql" false] ∧
    osTwoDirs.ReadDir "db/seed" = Except.ok [DirEntry.mk "001_seed.up.sql" false] := by
  refine ⟨rfl, rfl, rfl⟩

/-! ## Theorems: the rotation over successive selections -/

/-- With two or more replicas and no wrap-around of the counter, `replica`
returns 1 + ((c+1) mod (N-1)) and advances the counter by one. -/
theorem replica_no_wrap {W : Type} (db : DB W) (hN : 2 ≤ db.replicas.length)
    (hc : db.currReplicaIdx + 1 < 2 ^ 64) :
    db.replica = (1 + (db.currReplicaIdx + 1) % (db.replicas.length - 1),
      { db with currReplicaIdx := db.currReplicaIdx + 1 }) := by
  have hlt : ¬ db.replicas.length ≤ 1 := by omega
  have hnext : addUint64One db.currReplicaIdx = db.currReplicaIdx + 1 := by
    unfold addUint64One
    exact Nat.mod_eq_of_lt hc
  simp only [DB.replica, hlt, if_false, hnext]

/-- Without wrap-around, the k-th of n successive selections (from 0) is
1 + ((c+k+1) mod (N-1)), and the counter ends at c+n. -/
theorem replicaIndices_eq {W : Type} :
    ∀ (n : Nat) (db : DB W), 2 ≤ db.replicas.length → db.currReplicaIdx + n < 2 ^ 64 →
      DB.replicaIndices n db =
        ((List.range n).map
          (fun k => 1 + (db.currReplicaIdx + k + 1) % (db.replicas.length - 1)),
          { db with currReplicaIdx := db.currReplicaIdx + n }) := by
  intro n
  induction n with
  | zero => intro db _ _; simp [DB.replicaIndices]
  | succ n ih =>
    intro db hN hc
    have hsel := replica_no_wrap db hN (by omega)
    have hrest := ih { db with currReplicaIdx := db.currReplicaIdx + 1 } hN
      (by show db.currReplicaIdx + 1 + n < 2 ^ 64; omega)
    rw [DB.replicaIndices]
    simp only [hsel, hrest, List.range_succ_eq_map, List.map_cons, List.map_map]
    refine Prod.ext ?_ ?_
    · simp only [List.cons.injEq]
      refine ⟨by simp, List.map_congr_left (fun k _ => ?_)⟩
      simp only [Function.comp]
      have : db.currReplicaIdx + 1 + k + 1 = db.currReplicaIdx + (k + 1) + 1 := by omega
      rw [this]
    · simp only
      have : db.currReplicaIdx + 1 + n = db.currReplicaIdx + (n + 1) := by omega
      rw [this]

/-- The residues of m consecutive numbers modulo m are pairwise different. -/
theorem mod_window_injective (a m : Nat) (x y : Nat) (hx : x < m) (hy : y < m)
    (h : (a + x) % m = (a + y) % m) : x = y := by
  have h1 : Nat.ModEq m (a + x) (a + y) := h
  have h2 : Nat.ModEq m x y := Nat.ModEq.add_left_cancel' a h1
  have h3 : x % m = y % m := h2
  rwa [Nat.mod_eq_of_lt hx, Nat.mod_eq_of_lt hy] at h3

/-- The indices 1 + ((a+k) mod m) for k = 0, ..., m-1 are the numbers 1, ..., m,
each one once. -/
theorem window_perm (a m : Nat) (hm : 0 < m) :
    ((List.range m).map (fun k => 1 + (a + k) % m)).Perm (List.range' 1 m) := by
  have hnodup : ((List.range m).map (fun k => 1 + (a + k) % m)).Nodup := by
    refine List.Nodup.map_on ?_ (List.nodup_range m)
    intro x hx y hy hxy
    exact mod_window_injective a m x y (List.mem_range.mp hx) (List.mem_range.mp hy) (by omega)
  have hsub : (List.range m).map (fun k => 1 + (a + k) % m) ⊆ List.range' 1 m := by
    intro i hi
    obtain ⟨k, _, rfl⟩ := List.mem_map.mp hi
    have := Nat.mod_lt (a + k) hm
    rw [List.mem_range'_1]
    omega
  exact (List.subperm_of_subset hnodup hsub).perm_of_length_le (by simp)

/-- C22: for a client with N >= 2 replicas and n successive selections without
wrap-around of the counter, the k-th selection is 1 + ((c+k+1) mod (N-1));
over any N-1 consecutive selections each index in 1..N-1 is selected exactly
once (the window is a rearrangement of 1, ..., N-1); and the sequence is
periodic with period N-1. -/
theorem replica_rotation_period {W : Type} (db : DB W) (n : Nat)
    (hN : 2 ≤ db.replicas.length) (hc : db.currReplicaIdx + n < 2 ^ 64) :
    (DB.replicaIndices n db).1 =
      (List.range n).map
        (fun k => 1 + (db.currReplicaIdx + k + 1) % (db.replicas.length - 1)) ∧
    (∀ j, j + (db.replicas.length - 1) ≤ n →
      (((DB.replicaIndices n db).1.drop j).take (db.replicas.length - 1)).Perm
        (List.range' 1 (db.replicas.length - 1))) ∧
    (∀ k, k + (db.replicas.length - 1) < n →
      (DB.replicaIndices n db).1[k + (db.replicas.length - 1)]? =
        (DB.replicaIndices n db).1[k]?) := by
  have heq := replicaIndices_eq n db hN hc
  have hm : 0 < db.replicas.length - 1 := by omega
  rw [heq]
  refine ⟨rfl, fun j hj => ?_, fun k hk => ?_⟩
  · have hwin : (((List.range n).map
        (fun k => 1 + (db.currReplicaIdx + k + 1) % (db.replicas.length - 1))).drop j).take
          (db.replicas.length - 1) =
        (List.range (db.replicas.length - 1)).map
          (fun k => 1 + (db.currReplicaIdx + j + 1 + k) % (db.replicas.length - 1)) := by
      apply List.ext_getElem?
      intro i
      by_cases hi : i < db.replicas.length - 1
      · have h1 : j + i < n := by omega
        simp only [List.getElem?_take, hi, if_true, List.getElem?_drop, List.getElem?_map,
          List.getElem?_range h1, List.getElem?_range hi, Option.map_some']
        have : db.currReplicaIdx + (j + i) + 1 = db.currReplicaIdx + j + 1 + i := by omega
        rw [this]
      · have h2 : db.replicas.length - 1 ≤ i := by omega
        rw [List.getElem?_eq_none (by simp; omega), List.getElem?_eq_none (by simp; omega)]
    simp only [] at hwin ⊢
    rw [hwin]
    exact window_perm _ _ hm
  · have h1 : k < n := by omega
    simp only [List.getElem?_map, List.getElem?_range hk, List.getElem?_range h1,
      Option.map_some', Option.some.injEq]
    have : db.currReplicaIdx + (k + (db.replicas.length - 1)) + 1 =
        db.currReplicaIdx + k + 1 + (db.replicas.length - 1) := by omega
    rw [this, Nat.add_mod_right]

/-- Sample run for C22: three replicas and counter 4: six successive
selections give 2, 1, 2, 1, 2, 1. -/
theorem replica_rotation_period_witness :
    2 ≤ dbThree.replicas.length ∧ dbThree.currReplicaIdx + 6 < 2 ^ 64 ∧
    (DB.replicaIndices 6 dbThree).1 = [2, 1, 2, 1, 2, 1] ∧
    ((DB.replicaIndices 6 dbThree).1 =
      (List.range 6).map
        (fun k => 1 + (dbThree.currReplicaIdx + k + 1) % (dbThree.replicas.length - 1)) ∧
    (∀ j, j + (dbThree.replicas.length - 1) ≤ 6 →
      (((DB.replicaIndices 6 dbThree).1.drop j).take (dbThree.replicas.length - 1)).Perm
        (List.range' 1 (dbThree.replicas.length - 1))) ∧
    (∀ k, k + (dbThree.replicas.length - 1) < 6 →
      (DB.replicaIndices 6 dbThree).1[k + (dbThree.replicas.length - 1)]? =
        (DB.replicaIndices 6 dbThree).1[k]?)) :=
  ⟨by decide, by decide, by decide, replica_rotation_period dbThree 6 (by decide) (by decide)⟩

/-! ## Theorems: repository and service -/

set_option maxRecDepth 20000

/-- C25 on the code: for a filter whose `sort` is
`id; DROP TABLE products; --`, which does not match `[a-zA-Z0-9_]+`, the SQL
text built by `GetProductList` is the fixed query followed by
` ORDER BY id; DROP TABLE products; -- DESC`: the `sort` text of the payload
enters the statement as it is, and only `Search` is a bound argument. -/
theorem GetProductList_interpolates_sort :
    matchIdent payloadInjection.sort = false ∧
    ecommerceRepo.GetProductList envReplies dbOneReplica payloadInjection [] =
      some (([], none), dbOneReplica,
        [Event.call 1 Method.SelectContext
          (Query.mk (selectProductsSQL ++ " ORDER BY id; DROP TABLE products; -- DESC")
            [Arg.str "shoe"])]) := by
  refine ⟨by decide, rfl⟩

/-- C26 on the code: on a client with master 0 and replica 1, the INSERT of
`CreateProduct` is sent with `GetContext` to replica 1, not to master; with the
replicas 1, 2, 3 and counter 4 it is sent to replica 3. -/
theorem CreateProduct_runs_on_replica :
    dbOneReplica.master = some 0 ∧ dbOneReplica.replicas = [1] ∧
    ecommerceRepo.CreateProduct envReplies dbOneReplica productSample [] =
      some ((42, none), dbOneReplica,
        [Event.call 1 Method.GetContext
          (Query.mk insertProductSQL
            [Arg.str "SKU-1", Arg.str "Shoe", Arg.str "", Arg.str "", Arg.str "", Arg.float 0,
              Arg.int 100, Arg.int 9])]) ∧
    ecommerceRepo.CreateProduct envReplies dbThree productSample [] =
      some ((42, none), { dbThree with currReplicaIdx := 5 },
        [Event.call 3 Method.GetContext
          (Query.mk insertProductSQL
            [Arg.str "SKU-1", Arg.str "Shoe", Arg.str "", Arg.str "", Arg.str "", Arg.float 0,
              Arg.int 100, Arg.int 9])]) := by
  refine ⟨rfl, rfl, rfl, rfl⟩

/-- C27 on the code: when the DELETE of `DeleteProductImagesByID` fails, the
method still returns nil, and the service method `UpdateProduct` goes on to
insert the images again and returns nil. -/
theorem DeleteProductImagesByID_drops_error :
    (envReplies.call 0 Method.ExecContext (Query.mk deleteImagesSQL [Arg.int 7]) []).err =
      some (GoError.external "deadlock detected") ∧
    ecommerceRepo.DeleteProductImagesByID envReplies dbNoReplica 7 [] =
      some (none, dbNoReplica,
        [Event.call 0 Method.ExecContext (Query.mk deleteImagesSQL [Arg.int 7])]) ∧
    ecommerceService.UpdateProduct envReplies dbNoReplica 7 upsertSample [] =
      some (none, dbNoReplica,
        [Event.warn fallbackWarning,
          Event.call 0 Method.GetContext (Query.mk selectProductByIDSQL [Arg.int 7]),
          Event.call 0 Method.ExecContext
            (Query.mk updateProductSQL
              [Arg.str "SKU-1", Arg.str "Shoe", Arg.str "", Arg.str "", Arg.str "",
                Arg.float 0, Arg.int 100, Arg.float 0, Arg.int 7]),
          Event.call 0 Method.ExecContext (Query.mk deleteImagesSQL [Arg.int 7]),
          Event.call 0 Method.ExecContext
            (Query.mk insertImageSQL
              [Arg.int 7, Arg.str "http://img/1", Arg.nullString "front" true])]) := by
  refine ⟨rfl, rfl, rfl⟩

/-! ## Theorems: pagination -/

/-- The sort text made from a `sort` string is empty or of one of the two
forms, with a column that matches `^[a-zA-Z0-9_]+$`. -/
theorem sortClause_form (s : String) :
    sortClause s = "" ∨
      ∃ col dir, matchIdent col = true ∧ (dir = "asc" ∨ dir = "desc") ∧
        (sortClause s = col ++ " " ++ dir ∨ sortClause s = col ++ " " ++ dir ++ " nulls last") := by
  unfold sortClause
  simp only []
  split_ifs with h1 h2 h3 h4
  · exact Or.inr ⟨_, _, h2, h1.2, Or.inl rfl⟩
  · exact Or.inl rfl
  · refine Or.inr ⟨_, _, h4, h3.2.1, Or.inr ?_⟩
    rw [h3.2.2.1, h3.2.2.2]
    simp only [String.append_assoc]
    rfl
  · exact Or.inl rfl
  · exact Or.inl rfl

/-- C30: `parsePaginationModel` returns exactly for the request maps whose
`per_page` and `page` are absent or numbers and whose `search` and `sort` are
absent or strings (otherwise a type assertion panics). Whenever it returns,
its `Sort` is "id ASC" when `sort` is absent, and otherwise is empty or of the
form `<col> <asc|desc>` or `<col> <asc|desc> nulls last` with `col` matching
`^[a-zA-Z0-9_]+$`; and the string returned by `Paginate` is `ORDER BY`, that
`Sort`, and an `OFFSET` and a `LIMIT` with numbers. -/
theorem parsePaginationModel_sort (request : String → Value) :
    ((∃ r, parsePaginationModel request = some r) ↔
      (request "per_page" = Value.null ∨ ∃ i, request "per_page" = Value.float i) ∧
      (request "page" = Value.null ∨ ∃ i, request "page" = Value.float i) ∧
      (request "search" = Value.null ∨ ∃ v, request "search" = Value.str v) ∧
      (request "sort" = Value.null ∨ ∃ v, request "sort" = Value.str v)) ∧
    ∀ r, parsePaginationModel request = some r →
      (request "sort" = Value.null → r.sort = "id ASC") ∧
      (request "sort" ≠ Value.null →
        r.sort = "" ∨
          ∃ col dir, matchIdent col = true ∧ (dir = "asc" ∨ dir = "desc") ∧
            (r.sort = col ++ " " ++ dir ∨ r.sort = col ++ " " ++ dir ++ " nulls last")) ∧
      ∃ offset limit : Int,
        Paginate request =
          some ("ORDER BY " ++ r.sort ++ " OFFSET " ++ fmtInt offset ++ " LIMIT " ++
            fmtInt limit) := by
  refine ⟨?_, ?_⟩
  · unfold parsePaginationModel
    cases h1 : request "per_page" <;> cases h2 : request "page" <;>
      cases h3 : request "search" <;> cases h4 : request "sort" <;> simp
  · intro r hr
    have hP : ∃ offset limit : Int,
        Paginate request =
          some ("ORDER BY " ++ r.sort ++ " OFFSET " ++ fmtInt offset ++ " LIMIT " ++
            fmtInt limit) := by
      unfold Paginate
      rw [hr]
      exact ⟨_, _, rfl⟩
    refine ⟨fun hs => ?_, fun hs => ?_, hP⟩
    · unfold parsePaginationModel at hr
      rw [hs] at hr
      cases h1 : request "per_page" <;> cases h2 : request "page" <;>
        cases h3 : request "search" <;> simp [h1, h2, h3] at hr <;> rw [← hr]
    · unfold parsePaginationModel at hr
      cases h4 : request "sort" with
      | null => exact absurd h4 hs
      | str v =>
        have hform := sortClause_form v
        cases h1 : request "per_page" <;> cases h2 : request "page" <;>
          cases h3 : request "search" <;> simp [h1, h2, h3, h4] at hr <;> rw [← hr] <;>
          exact hform
      | float i =>
        cases h1 : request "per_page" <;> cases h2 : request "page" <;>
          cases h3 : request "search" <;> simp [h1, h2, h3, h4] at hr
      | other =>
        cases h1 : request "per_page" <;> cases h2 : request "page" <;>
          cases h3 : request "search" <;> simp [h1, h2, h3, h4] at hr

/-- Sample run for C30: the sort `name,desc` gives the Sort `name desc`, and a
request without `sort` gives `id ASC`. -/
theorem parsePaginationModel_sort_witness :
    parsePaginationModel requestSortDesc =
      some { PerPage := 5, CurrentPage := 1, Search := "", sort := "name desc" } ∧
    (("name desc" : String) = "" ∨
      ∃ col dir, matchIdent col = true ∧ (dir = "asc" ∨ dir = "desc") ∧
        (("name desc" : String) = col ++ " " ++ dir ∨
          ("name desc" : String) = col ++ " " ++ dir ++ " nulls last")) ∧
    parsePaginationModel requestSortNumber = none :=
  ⟨rfl, ((parsePaginationModel_sort requestSortDesc).2 _ rfl).2.1 (by decide), rfl⟩

end Sql
